import Mathlib

/-!
# Scene graph and geometry builder: a verification development

Shallow embedding of `scene_node.cpp` and `resource_manager.cpp`.

* `GLfloat` values that only take part in ring arithmetic are taken from a
  commutative ring `F` (exact arithmetic); the one place where an integer
  passes through a `float` (`glm::vec3` used for triangle indices,
  `str_to_num<float>` used for face references) is modelled by the exact
  binary32 rounding of an integer, `float_of_nat`.
* `GLuint` arithmetic is taken modulo `2 ^ 32`; `GLsizei` is a signed 32-bit
  integer.
* Objects reached through pointers (`SceneNode *`) live in a heap: a list of
  nodes addressed by position; `NULL` is `none`.
-/

namespace glm

/-- The type `glm::vec3`. -/
structure vec3 (F : Type) where
  x : F
  y : F
  z : F
deriving DecidableEq, Repr

/-- The type `glm::vec2`. -/
structure vec2 (F : Type) where
  x : F
  y : F
deriving DecidableEq, Repr

/-- The type `glm::quat`. -/
structure quat (F : Type) where
  w : F
  x : F
  y : F
  z : F
deriving DecidableEq, Repr

/-- The type `glm::mat4`; entry `m r c` is row `r` of column `c`, that is `m[c][r]` in glm. -/
abbrev mat4 (F : Type) := Matrix (Fin 4) (Fin 4) F

variable {F : Type}

instance [Add F] : Add (vec3 F) := ⟨fun a b => ⟨a.x + b.x, a.y + b.y, a.z + b.z⟩⟩

instance [Zero F] : Zero (vec3 F) := ⟨⟨0, 0, 0⟩⟩

/-- The identity quaternion `glm::quat(1, 0, 0, 0)`. -/
def quat_identity [Zero F] [One F] : quat F := ⟨1, 0, 0, 0⟩

/-- The function `glm::translate(m, v)`: the first three columns of `m` are kept and
the last one becomes `m[0] * v[0] + m[1] * v[1] + m[2] * v[2] + m[3]`. -/
def translate [CommRing F] (m : mat4 F) (v : vec3 F) : mat4 F :=
  Matrix.of fun r c =>
    if c = 3 then m r 0 * v.x + m r 1 * v.y + m r 2 * v.z + m r 3 else m r c

/-- The function `glm::mat4_cast(q)`: the rotation matrix of the quaternion `q`,
extended by the identity in the last row and column. -/
def mat4_cast [CommRing F] (q : quat F) : mat4 F :=
  !![1 - 2 * (q.y * q.y + q.z * q.z), 2 * (q.x * q.y - q.w * q.z), 2 * (q.x * q.z + q.w * q.y), 0;
     2 * (q.x * q.y + q.w * q.z), 1 - 2 * (q.x * q.x + q.z * q.z), 2 * (q.y * q.z - q.w * q.x), 0;
     2 * (q.x * q.z - q.w * q.y), 2 * (q.y * q.z + q.w * q.x), 1 - 2 * (q.x * q.x + q.y * q.y), 0;
     0, 0, 0, 1]

/-- The translation matrix of the vector `v`, written out entry by entry. -/
def translation [CommRing F] (v : vec3 F) : mat4 F :=
  !![1, 0, 0, v.x;
     0, 1, 0, v.y;
     0, 0, 1, v.z;
     0, 0, 0, 1]

/-- The function `glm::scale(m, v)`: the first three columns of `m` are multiplied by
`v[0]`, `v[1]`, `v[2]` and the last one is kept. -/
def scale [CommRing F] (m : mat4 F) (v : vec3 F) : mat4 F :=
  Matrix.of fun r c =>
    if c = 0 then m r 0 * v.x else if c = 1 then m r 1 * v.y
    else if c = 2 then m r 2 * v.z else m r 3

end glm

namespace game

open glm

/-- The fields of `SceneNode` (scene_node.cpp); `parent_` and the entries of `node_`
are pointers, here positions in the heap of a `Scene`. -/
structure SceneNode (F : Type) where
  name_ : String
  array_buffer_ : Nat
  element_array_buffer_ : Nat
  size_ : Int
  material_ : Nat
  texture_ : Nat
  position_ : vec3 F
  orientation_ : quat F
  scale_ : vec3 F
  orbit_ : vec3 F
  forward_ : vec3 F
  side_ : vec3 F
  parent_ : Option Nat
  node_ : List Nat
deriving DecidableEq, Repr

/-- The heap of scene nodes: the node behind the pointer `p` is `nodes[p]?`. -/
structure Scene (F : Type) where
  nodes : List (SceneNode F)
deriving DecidableEq, Repr

variable {F : Type}

/-- Applies `f` to the node behind pointer `p`; nothing happens for a dangling pointer. -/
def Scene.update (s : Scene F) (p : Nat) (f : SceneNode F → SceneNode F) : Scene F :=
  ⟨s.nodes.modify f p⟩

/-- The method `SceneNode::SetParent`. -/
def SetParent (s : Scene F) (this : Nat) (parent : Option Nat) : Scene F :=
  s.update this fun n => { n with parent_ := parent }

/-- The method `SceneNode::AddNode`: `node_.push_back(node); node->SetParent(this);`. -/
def AddNode (s : Scene F) (this node : Nat) : Scene F :=
  SetParent (s.update this fun n => { n with node_ := n.node_ ++ [node] }) node (some this)

/-- The method `SceneNode::GetHierarchy`, called on the node behind `this`. The recursion
follows `parent_` pointers and is bounded by `fuel`; `none` stands for a call that
ran out of fuel or dereferenced a dangling pointer. -/
def GetHierarchy [CommRing F] (s : Scene F) : Nat → Nat → Option (mat4 F)
  | 0, _ => none
  | fuel + 1, this =>
    match s.nodes[this]? with
    | none => none
    | some n =>
      let returnMat : Option (mat4 F) :=
        match n.parent_ with
        | none => some 1
        | some p => GetHierarchy s fuel p
      returnMat.map fun m =>
        translate (translate m n.position_ * mat4_cast n.orientation_) n.orbit_

/-- The node behind `this` has exactly `d` ancestors: following `parent_` from it
reaches a node without parent after `d` steps. -/
inductive HasDepth (s : Scene F) : Nat → Nat → Prop
  | root (this : Nat) (n : SceneNode F) :
      s.nodes[this]? = some n → n.parent_ = none → HasDepth s this 0
  | child (this p d : Nat) (n : SceneNode F) :
      s.nodes[this]? = some n → n.parent_ = some p → HasDepth s p d → HasDepth s this (d + 1)

/-- What `GetHierarchy` starts from: the parent's `GetHierarchy()` when there is a
parent and the identity matrix otherwise. -/
def parentHierarchy [CommRing F] (s : Scene F) (fuel : Nat) (n : SceneNode F) :
    Option (mat4 F) :=
  match n.parent_ with
  | none => some 1
  | some p => GetHierarchy s fuel p

/-- The position stored in the node behind `this` (zero for a dangling pointer). -/
def positionOf [Zero F] (s : Scene F) (this : Nat) : vec3 F :=
  match s.nodes[this]? with
  | some n => n.position_
  | none => 0

/-- Builds the chain `path`, listed leaf first (`[leaf, ..., A, root]`), with `AddNode`:
the calls are made from the root downwards, `root.AddNode(A)` first and the call
that attaches the leaf last. -/
def buildChain (s : Scene F) : List Nat → Scene F
  | c :: p :: rest => AddNode (buildChain s (p :: rest)) p c
  | _ => s

/-- The nodes of `path` (leaf first) are linked by `parent_` up to a node without
parent, and each has the identity orientation and a zero orbit. -/
def UpChain [Zero F] [One F] (s : Scene F) : List Nat → Prop
  | [] => False
  | [r] => ∃ n, s.nodes[r]? = some n ∧ n.parent_ = none ∧
      n.orientation_ = quat_identity ∧ n.orbit_ = 0
  | c :: p :: rest => (∃ n, s.nodes[c]? = some n ∧ n.parent_ = some p ∧
      n.orientation_ = quat_identity ∧ n.orbit_ = 0) ∧ UpChain s (p :: rest)

/-- The two heaps hold the same nodes except for the values of `scale_`. -/
def DifferOnlyInScale (s1 s2 : Scene F) : Prop :=
  s1.nodes.length = s2.nodes.length ∧
    ∀ (i : Nat) (a b : SceneNode F), s1.nodes[i]? = some a → s2.nodes[i]? = some b →
      b = { a with scale_ := b.scale_ }

/-- A node as the constructor leaves it (no parent, no children, unit scale), placed
at `position` with the identity orientation and a zero orbit. -/
def exampleNode (name : String) (position : vec3 Int) : SceneNode Int :=
  { name_ := name, array_buffer_ := 0, element_array_buffer_ := 0, size_ := 0,
    material_ := 0, texture_ := 0, position_ := position, orientation_ := quat_identity,
    scale_ := ⟨1, 1, 1⟩, orbit_ := 0, forward_ := ⟨0, 0, 1⟩, side_ := ⟨1, 0, 0⟩,
    parent_ := none, node_ := [] }

/-- The three nodes of the example: the root at (1,0,0), A at (0,1,0), B at (0,0,1),
not yet linked. -/
def exampleScene : Scene Int :=
  ⟨[exampleNode "root" ⟨1, 0, 0⟩, exampleNode "A" ⟨0, 1, 0⟩, exampleNode "B" ⟨0, 0, 1⟩]⟩

/-- The example chain root → A → B, linked by `root.AddNode(A)` and `A.AddNode(B)`. -/
def linkedScene : Scene Int :=
  AddNode (AddNode exampleScene 0 1) 1 2

/-- The example chain with the scale of every node replaced by (2,3,4). -/
def rescaledScene : Scene Int :=
  ⟨linkedScene.nodes.map fun n => { n with scale_ := ⟨2, 3, 4⟩ }⟩

/-! ### Machine numbers -/

/-- The value of `static_cast<float>(n)` for an `int` `n ≥ 0`, as the integer that the
binary32 number holds: `n` rounded to 24 significant bits, to nearest, ties to the even
significand. -/
def float_of_nat (n : Nat) : Nat :=
  let e := Nat.log2 n - 23
  let q := n / 2 ^ e
  let r := n % 2 ^ e
  if 2 * r < 2 ^ e then q * 2 ^ e
  else if 2 ^ e < 2 * r then (q + 1) * 2 ^ e
  else if q % 2 = 0 then q * 2 ^ e else (q + 1) * 2 ^ e

/-- The cast `(GLuint) x` of a float that holds the non-negative integer `x`. -/
def GLuint_of_float (x : Nat) : Nat := x

/-- The conversion of an `int` value to `GLuint`: reduction modulo `2 ^ 32`. -/
def GLuint_of_int (x : Int) : Nat := (x % 2 ^ 32).toNat

/-- The conversion of a `GLuint` value to `GLsizei` (a 32-bit `int`). -/
def GLsizei_of_GLuint (x : Nat) : Int :=
  if x % 2 ^ 32 < 2 ^ 31 then ((x % 2 ^ 32 : Nat) : Int) else ((x % 2 ^ 32 : Nat) : Int) - 2 ^ 32

/-- The library functions on floats that the builders call. -/
structure FloatOps (F : Type) where
  pi : F
  cos : F → F
  sin : F → F

/-- Component `k` of a `glm::vec3`, `v[k]`. -/
def vec3_get (v : vec3 F) (k : Nat) : F :=
  match k with
  | 0 => v.x
  | 1 => v.y
  | _ => v.z

/-- Component `k` of a `glm::vec2`, `v[k]`. -/
def vec2_get (v : vec2 F) (k : Nat) : F :=
  match k with
  | 0 => v.x
  | _ => v.y

/-! ### Buffers -/

/-- A freshly allocated array of `n` elements, none of them initialised. -/
def uninitialized (α : Type) (n : Nat) : List (Option α) := List.replicate n none

/-- Performs the stores `buf[w.1] = w.2` of a loop nest, in the order in which the loop
nest executes them. -/
def storeAll {α : Type} (buf : List (Option α)) (ws : List (Nat × α)) : List (Option α) :=
  ws.foldl (fun b w => b.set w.1 (some w.2)) buf

/-- The two arrays a builder hands to `glBufferData`: the vertex attributes (11 floats
per vertex) and the triangle indices (3 per triangle). -/
structure MeshBuffers (F : Type) where
  vertex : List (Option F)
  face : List (Option Nat)

/-- Vertex number `v` of a vertex array: its 11 floats. -/
def MeshBuffers.vertexAt (b : MeshBuffers F) (v : Nat) : List (Option F) :=
  (b.vertex.drop (11 * v)).take 11

/-- Triangle number `t` of an index array: its 3 indices. -/
def MeshBuffers.triangleAt (b : MeshBuffers F) (t : Nat) : List (Option Nat) :=
  (b.face.drop (3 * t)).take 3

/-! ### Resource registry -/

/-- Modelled from the spec: the enumeration `ResourceType` of `resource.h`, which is not
among the sources; the spec names the kinds Mesh, Material, Texture and PointSet. -/
inductive ResourceType
  | Material
  | PointSet
  | Mesh
  | Texture
deriving DecidableEq, Repr

/-- Modelled from the spec: what a `Resource` of `resource.h` wraps, a single handle
for a material or texture, or a vertex-buffer handle and an index-buffer handle. -/
inductive ResourceData
  | handle (resource : Nat)
  | buffers (array_buffer element_array_buffer : Nat)
deriving DecidableEq, Repr

/-- Modelled from the spec: the class `Resource` of `resource.h`, a named, typed handle
with a size, as the constructor calls of `AddResource` fill it. -/
structure Resource where
  type_ : ResourceType
  name_ : String
  data_ : ResourceData
  size_ : Int
deriving DecidableEq, Repr

/-- The state of a `ResourceManager`: the list `resource_`. -/
structure ResourceManager where
  resource_ : List Resource
deriving DecidableEq, Repr

/-- The two overloads of `ResourceManager::AddResource`: a new `Resource` is pushed at
the back of `resource_`. -/
def AddResource (rm : ResourceManager) (type : ResourceType) (name : String)
    (data : ResourceData) (size : Int) : ResourceManager :=
  ⟨rm.resource_ ++ [⟨type, name, data, size⟩]⟩

/-! ### Torus -/

/-- The stores of the vertex loop nest of `CreateTorus`. -/
def torus_vertex_writes [Field F] (fo : FloatOps F) (loop_radius circle_radius : F)
    (num_loop_samples num_circle_samples : Nat) : List (Nat × F) :=
  (List.range num_loop_samples).flatMap fun i =>
    let theta : F := 2 * fo.pi * i / num_loop_samples
    let loop_center : vec3 F := ⟨loop_radius * fo.cos theta, loop_radius * fo.sin theta, 0⟩
    (List.range num_circle_samples).flatMap fun j =>
      let phi : F := 2 * fo.pi * j / num_circle_samples
      let vertex_normal : vec3 F :=
        ⟨fo.cos theta * fo.cos phi, fo.sin theta * fo.cos phi, fo.sin phi⟩
      let vertex_position : vec3 F :=
        loop_center + ⟨vertex_normal.x * circle_radius, vertex_normal.y * circle_radius,
          vertex_normal.z * circle_radius⟩
      let vertex_color : vec3 F :=
        ⟨1 - i / num_loop_samples, i / num_loop_samples, j / num_circle_samples⟩
      let vertex_coord : vec2 F := ⟨theta / 2 * fo.pi, phi / 2 * fo.pi⟩
      ((List.range 3).flatMap fun k =>
        [((i * num_circle_samples + j) * 11 + k, vec3_get vertex_position k),
         ((i * num_circle_samples + j) * 11 + k + 3, vec3_get vertex_normal k),
         ((i * num_circle_samples + j) * 11 + k + 6, vec3_get vertex_color k)]) ++
      [((i * num_circle_samples + j) * 11 + 9, vec2_get vertex_coord 0),
       ((i * num_circle_samples + j) * 11 + 10, vec2_get vertex_coord 1)]

/-- The `glm::vec3 t1` of quad `(i, j)` in `CreateTorus`: three `int` values stored as
floats. -/
def torus_t1 (num_loop_samples num_circle_samples i j : Nat) : vec3 Nat :=
  ⟨float_of_nat (((i + 1) % num_loop_samples) * num_circle_samples + j),
   float_of_nat (i * num_circle_samples + ((j + 1) % num_circle_samples)),
   float_of_nat (i * num_circle_samples + j)⟩

/-- The `glm::vec3 t2` of quad `(i, j)` in `CreateTorus`. -/
def torus_t2 (num_loop_samples num_circle_samples i j : Nat) : vec3 Nat :=
  ⟨float_of_nat (((i + 1) % num_loop_samples) * num_circle_samples + j),
   float_of_nat (((i + 1) % num_loop_samples) * num_circle_samples +
     ((j + 1) % num_circle_samples)),
   float_of_nat (i * num_circle_samples + ((j + 1) % num_circle_samples))⟩

/-- The stores of the triangle loop nest of `CreateTorus`. -/
def torus_face_writes (num_loop_samples num_circle_samples : Nat) : List (Nat × Nat) :=
  (List.range num_loop_samples).flatMap fun i =>
    (List.range num_circle_samples).flatMap fun j =>
      let t1 := torus_t1 num_loop_samples num_circle_samples i j
      let t2 := torus_t2 num_loop_samples num_circle_samples i j
      (List.range 3).flatMap fun k =>
        [((i * num_circle_samples + j) * 3 * 2 + k, GLuint_of_float (vec3_get t1 k)),
         ((i * num_circle_samples + j) * 3 * 2 + k + 3, GLuint_of_float (vec3_get t2 k))]

/-- The method `ResourceManager::CreateTorus`. The sample counts are the `int`
parameters (taken non-negative); `vbo` and `ebo` are the names `glGenBuffers` returns.
The result is the registry after `AddResource` and the two arrays uploaded with
`glBufferData`. -/
def CreateTorus [Field F] (fo : FloatOps F) (rm : ResourceManager) (vbo ebo : Nat)
    (object_name : String) (loop_radius circle_radius : F)
    (num_loop_samples num_circle_samples : Nat) : ResourceManager × MeshBuffers F :=
  let vertex_num : Nat := GLuint_of_int (num_loop_samples * num_circle_samples)
  let face_num : Nat := GLuint_of_int (num_loop_samples * num_circle_samples * 2)
  let vertex := uninitialized F ((vertex_num * 11) % 2 ^ 32)
  let face := uninitialized Nat ((face_num * 3) % 2 ^ 32)
  let vertex := storeAll vertex
    (torus_vertex_writes fo loop_radius circle_radius num_loop_samples num_circle_samples)
  let face := storeAll face (torus_face_writes num_loop_samples num_circle_samples)
  (AddResource rm .Mesh object_name (.buffers vbo ebo)
      (GLsizei_of_GLuint ((face_num * 3) % 2 ^ 32)),
    ⟨vertex, face⟩)

/-! ### Sphere -/

/-- The stores of the vertex loop nest of `CreateSphere`. -/
def sphere_vertex_writes [Field F] (fo : FloatOps F) (radius : F)
    (num_samples_theta num_samples_phi : Nat) : List (Nat × F) :=
  (List.range num_samples_theta).flatMap fun i =>
    let theta : F := 2 * fo.pi * i / ((num_samples_theta : F) - 1)
    (List.range num_samples_phi).flatMap fun j =>
      let phi : F := fo.pi * j / ((num_samples_phi : F) - 1)
      let vertex_normal : vec3 F :=
        ⟨fo.cos theta * fo.sin phi, fo.sin theta * fo.sin phi, -fo.cos phi⟩
      let vertex_position : vec3 F :=
        ⟨vertex_normal.x * radius, vertex_normal.y * radius, vertex_normal.z * radius⟩
      let vertex_color : vec3 F :=
        ⟨i / num_samples_theta, 1 - j / num_samples_phi, j / num_samples_phi⟩
      let vertex_coord : vec2 F := ⟨i / num_samples_theta, 1 - j / num_samples_phi⟩
      ((List.range 3).flatMap fun k =>
        [((i * num_samples_phi + j) * 11 + k, vec3_get vertex_position k),
         ((i * num_samples_phi + j) * 11 + k + 3, vec3_get vertex_normal k),
         ((i * num_samples_phi + j) * 11 + k + 6, vec3_get vertex_color k)]) ++
      [((i * num_samples_phi + j) * 11 + 9, vec2_get vertex_coord 0),
       ((i * num_samples_phi + j) * 11 + 10, vec2_get vertex_coord 1)]

/-- The `glm::vec3 t1` of quad `(i, j)` in `CreateSphere`. -/
def sphere_t1 (num_samples_theta num_samples_phi i j : Nat) : vec3 Nat :=
  ⟨float_of_nat (((i + 1) % num_samples_theta) * num_samples_phi + j),
   float_of_nat (i * num_samples_phi + (j + 1)),
   float_of_nat (i * num_samples_phi + j)⟩

/-- The `glm::vec3 t2` of quad `(i, j)` in `CreateSphere`. -/
def sphere_t2 (num_samples_theta num_samples_phi i j : Nat) : vec3 Nat :=
  ⟨float_of_nat (((i + 1) % num_samples_theta) * num_samples_phi + j),
   float_of_nat (((i + 1) % num_samples_theta) * num_samples_phi + (j + 1)),
   float_of_nat (i * num_samples_phi + (j + 1))⟩

/-- The stores of the triangle loop nest of `CreateSphere`. -/
def sphere_face_writes (num_samples_theta num_samples_phi : Nat) : List (Nat × Nat) :=
  (List.range num_samples_theta).flatMap fun i =>
    (List.range (num_samples_phi - 1)).flatMap fun j =>
      let t1 := sphere_t1 num_samples_theta num_samples_phi i j
      let t2 := sphere_t2 num_samples_theta num_samples_phi i j
      (List.range 3).flatMap fun k =>
        [((i * (num_samples_phi - 1) + j) * 3 * 2 + k, GLuint_of_float (vec3_get t1 k)),
         ((i * (num_samples_phi - 1) + j) * 3 * 2 + k + 3, GLuint_of_float (vec3_get t2 k))]

/-- The method `ResourceManager::CreateSphere`, with the conventions of `CreateTorus`. -/
def CreateSphere [Field F] (fo : FloatOps F) (rm : ResourceManager) (vbo ebo : Nat)
    (object_name : String) (radius : F) (num_samples_theta num_samples_phi : Nat) :
    ResourceManager × MeshBuffers F :=
  let vertex_num : Nat := GLuint_of_int (num_samples_theta * num_samples_phi)
  let face_num : Nat := GLuint_of_int (num_samples_theta * ((num_samples_phi : Int) - 1) * 2)
  let vertex := uninitialized F ((vertex_num * 11) % 2 ^ 32)
  let face := uninitialized Nat ((face_num * 3) % 2 ^ 32)
  let vertex := storeAll vertex (sphere_vertex_writes fo radius num_samples_theta num_samples_phi)
  let face := storeAll face (sphere_face_writes num_samples_theta num_samples_phi)
  (AddResource rm .Mesh object_name (.buffers vbo ebo)
      (GLsizei_of_GLuint ((face_num * 3) % 2 ^ 32)),
    ⟨vertex, face⟩)

/-! ### The common shape of the loop nests of `CreateTorus` and `CreateSphere` -/

/-- The stores of a triangle loop nest over `rows * cols` quads: quad `(i, j)` stores
`t1 i j` in slots `(i * cols + j) * 3 * 2 + k` and `t2 i j` in the three slots after. -/
def quad_face_writes (rows cols : Nat) (t1 t2 : Nat → Nat → vec3 Nat) : List (Nat × Nat) :=
  (List.range rows).flatMap fun i =>
    (List.range cols).flatMap fun j =>
      (List.range 3).flatMap fun k =>
        [((i * cols + j) * 3 * 2 + k, GLuint_of_float (vec3_get (t1 i j) k)),
         ((i * cols + j) * 3 * 2 + k + 3, GLuint_of_float (vec3_get (t2 i j) k))]

/-- The stores of a vertex loop nest over `rows * cols` samples: sample `(i, j)` fills
the 11 slots from `(i * cols + j) * 11` on. -/
def grid_vertex_writes (rows cols : Nat) (position normal color : Nat → Nat → vec3 F)
    (coord : Nat → Nat → vec2 F) : List (Nat × F) :=
  (List.range rows).flatMap fun i =>
    (List.range cols).flatMap fun j =>
      ((List.range 3).flatMap fun k =>
        [((i * cols + j) * 11 + k, vec3_get (position i j) k),
         ((i * cols + j) * 11 + k + 3, vec3_get (normal i j) k),
         ((i * cols + j) * 11 + k + 6, vec3_get (color i j) k)]) ++
      [((i * cols + j) * 11 + 9, vec2_get (coord i j) 0),
       ((i * cols + j) * 11 + 10, vec2_get (coord i j) 1)]

/-- The index that slot `r` (0 to 5) of quad number `q` receives. -/
def faceSlotValue (t1 t2 : Nat → Nat → vec3 Nat) (cols q r : Nat) : Nat :=
  if r < 3 then vec3_get (t1 (q / cols) (q % cols)) r
  else vec3_get (t2 (q / cols) (q % cols)) (r - 3)

/-- A stand-in for the float library over the rationals (π as 22/7 and the first terms
of the cosine and sine series), for running the builders on concrete arguments. -/
def rationalOps : FloatOps ℚ :=
  { pi := 22 / 7, cos := fun x => 1 - x * x / 2, sin := fun x => x }

/-! ### Cylinder -/

/-- The function `glm::radians`: multiplication by the constant π / 180. -/
def radians [Field F] (fo : FloatOps F) (degrees : F) : F := degrees * (fo.pi / 180)

/-- The array `vert_pos` that `CreateCylinder` fills for one side, from the angles
`theta` and `theta1` of that side. -/
def cylinder_vert_pos [Field F] (fo : FloatOps F) (theta theta1 : F) : Nat → vec3 F
  | 0 => ⟨1 / 2 * fo.cos theta, 1 / 2, 1 / 2 * fo.sin theta⟩
  | 1 => ⟨1 / 2 * fo.cos theta, -(1 / 2), 1 / 2 * fo.sin theta⟩
  | 2 => ⟨fo.cos theta1 * (1 / 2), -(1 / 2), fo.sin theta1 * (1 / 2)⟩
  | 3 => ⟨1 / 2 * fo.cos theta, 1 / 2, 1 / 2 * fo.sin theta⟩
  | 4 => ⟨1 / 2 * fo.cos theta1, -(1 / 2), 1 / 2 * fo.sin theta1⟩
  | 5 => ⟨fo.cos theta1 * (1 / 2), 1 / 2, fo.sin theta1 * (1 / 2)⟩
  | 6 => ⟨fo.cos theta * (1 / 2), 1 / 2, fo.sin theta * (1 / 2)⟩
  | 7 => ⟨fo.cos theta1 * (1 / 2), 1 / 2, fo.sin theta1 * (1 / 2)⟩
  | 8 => ⟨0, 1 / 2, 0⟩
  | 9 => ⟨fo.cos theta1 * (1 / 2), -(1 / 2), fo.sin theta1 * (1 / 2)⟩
  | 10 => ⟨fo.cos theta * (1 / 2), -(1 / 2), fo.sin theta * (1 / 2)⟩
  | _ => ⟨0, -(1 / 2), 0⟩

/-- The array `vert_normal` of one side of the cylinder. -/
def cylinder_vert_normal [Field F] (fo : FloatOps F) (theta : F) : Nat → vec3 F
  | 0 | 1 | 2 | 3 | 4 | 5 => ⟨fo.cos theta, 0, fo.sin theta⟩
  | 6 | 7 | 8 => ⟨0, 1, 0⟩
  | _ => ⟨0, -1, 0⟩

/-- The array `vert_colour` of one side of the cylinder. -/
def cylinder_vert_colour [Field F] (fo : FloatOps F) (colour : vec3 F) (theta1 : F) :
    Nat → vec3 F
  | 0 | 1 | 2 | 3 | 4 | 5 =>
    ⟨(3 / 5 + 2 / 5 * fo.cos theta1) * colour.x, (3 / 5 + 2 / 5 * fo.cos theta1) * colour.y,
      (3 / 5 + 2 / 5 * fo.cos theta1) * colour.z⟩
  | _ => ⟨colour.x, colour.y, colour.z⟩

/-- The array `vert_tex` of side `i` of the cylinder (`SIDES` is 100). -/
def cylinder_vert_tex [Field F] (fo : FloatOps F) (theta theta1 : F) (i : Nat) : Nat → vec2 F
  | 0 => ⟨1 / 100 * i, 1 / 4⟩
  | 1 => ⟨1 / 100 * i, 3 / 4⟩
  | 2 => ⟨1 / 100 * (i + 1), 3 / 4⟩
  | 3 => ⟨1 / 100 * i, 1 / 4⟩
  | 4 => ⟨1 / 100 * (i + 1), 3 / 4⟩
  | 5 => ⟨1 / 100 * (i + 1), 1 / 4⟩
  | 6 => ⟨1 / 2 * fo.cos theta / 2 + 1 / 2, 1 / 2 * fo.sin theta / 2 + 1 / 2⟩
  | 7 => ⟨1 / 2 * fo.cos theta1 / 2 + 1 / 2, 1 / 2 * fo.sin theta1 / 2 + 1 / 2⟩
  | 8 => ⟨1 / 2, 1 / 2⟩
  | 9 => ⟨1 / 2 * fo.cos theta1 / 2 + 1 / 2, 1 / 2 * fo.sin theta1 / 2 + 1 / 2⟩
  | 10 => ⟨1 / 2 * fo.cos theta / 2 + 1 / 2, 1 / 2 * fo.sin theta / 2 + 1 / 2⟩
  | _ => ⟨1 / 2, 1 / 2⟩

/-- The stores of the loop over the sides in `CreateCylinder`: for side `i`, first the
loop nest over `j < vertexnum`, `k < 3`, then the one over `j < vertexnum`, `k < 2`;
`sideDataCount` is `11 * 12 = 132`. -/
def cylinder_vertex_writes [Field F] (fo : FloatOps F) (colour : vec3 F) : List (Nat × F) :=
  (List.range 100).flatMap fun i =>
    let theta : F := radians fo (360 / 100 * i)
    let theta1 : F := radians fo (360 / 100 * (i + 1))
    ((List.range 12).flatMap fun j =>
      (List.range 3).flatMap fun k =>
        [(132 * i + j * 11 + k, vec3_get (cylinder_vert_pos fo theta theta1 j) k),
         (132 * i + j * 11 + k + 3, vec3_get (cylinder_vert_normal fo theta j) k),
         (132 * i + j * 11 + k + 6, vec3_get (cylinder_vert_colour fo colour theta1 j) k)]) ++
    ((List.range 12).flatMap fun j =>
      (List.range 2).map fun k =>
        (132 * i + j * 11 + k + 9, vec2_get (cylinder_vert_tex fo theta theta1 i j) k))

/-- The stores of the loop `face[i] = i` over `i < face_num * face_att = 1200`. -/
def cylinder_face_writes : List (Nat × Nat) :=
  (List.range (4 * 100 * 3)).map fun i => (i, GLuint_of_int i)

/-- The method `ResourceManager::CreateCylinder`: the arrays `vertex[132 * 100]` and
`face[1200]` after the loops, and the registry after `AddResource`. -/
def CreateCylinder [Field F] (fo : FloatOps F) (rm : ResourceManager) (vbo ebo : Nat)
    (object_name : String) (colour : vec3 F) : ResourceManager × MeshBuffers F :=
  let vertex := storeAll (uninitialized F (132 * 100)) (cylinder_vertex_writes fo colour)
  let face := storeAll (uninitialized Nat (4 * 100 * 3)) cylinder_face_writes
  (AddResource rm .Mesh object_name (.buffers vbo ebo) (4 * 100 * 3), ⟨vertex, face⟩)

/-! ### Plane -/

/-- The method `ResourceManager::CreatePlane`: the two array literals and the registry
after `AddResource(Mesh, object_name, vbo, ebo, 24)`. -/
def CreatePlane [Field F] (rm : ResourceManager) (vbo ebo : Nat) (object_name : String)
    (colour : vec3 F) : ResourceManager × MeshBuffers F :=
  let vertex : List F := [
    -(1 / 2), -(1 / 2), 0, 0, 0, -1, colour.x, colour.y, colour.z, 0, 0,
    -(1 / 2), 0, 0, 0, 0, -1, colour.x, colour.y, colour.z, 0, 1 / 2,
    -(1 / 2), 1 / 2, 0, 0, 0, -1, colour.x, colour.y, colour.z, 0, 1,
    0, -(1 / 2), 0, 0, 0, -1, colour.x, colour.y, colour.z, 1 / 2, 0,
    0, 0, 0, 0, 0, -1, colour.x, colour.y, colour.z, 1 / 2, 1 / 2,
    0, 1 / 2, 0, 0, 0, -1, colour.x, colour.y, colour.z, 1 / 2, 1,
    1 / 2, -(1 / 2), 0, 0, 0, -1, colour.x, colour.y, colour.z, 1, 0,
    1 / 2, 0, 0, 0, 0, -1, colour.x, colour.y, colour.z, 1, 1 / 2,
    1 / 2, 1 / 2, 0, 0, 0, -1, colour.x, colour.y, colour.z, 1, 1]
  let face : List Nat := [
    0, 4, 1,
    0, 3, 4,
    1, 5, 2,
    1, 4, 5,
    3, 7, 4,
    3, 6, 7,
    4, 8, 5,
    4, 7, 8]
  (AddResource rm .Mesh object_name (.buffers vbo ebo) 24,
    ⟨vertex.map some, face.map some⟩)

/-! ### Looking up a resource -/

/-- The loop of `ResourceManager::GetResource` from index `i` on, over the entries that
remain: the result is the index of the entry returned (the pointer `resource_[i]`), and
`none` stands for `NULL`. -/
def GetResource_loop (name : String) : List Resource → Nat → Option Nat
  | [], _ => none
  | r :: rest, i => if r.name_ = name then some i else GetResource_loop name rest (i + 1)

/-- The method `ResourceManager::GetResource`. -/
def GetResource (rm : ResourceManager) (name : String) : Option Nat :=
  GetResource_loop name rm.resource_ 0

end game

namespace glm

variable {F : Type}

/-- The library functions `sqrt` and `inversesqrt` on floats, next to those of
`FloatOps`. -/
structure FloatLib (F : Type) extends game.FloatOps F where
  sqrt : F → F
  inversesqrt : F → F

instance [Sub F] : Sub (vec3 F) := ⟨fun a b => ⟨a.x - b.x, a.y - b.y, a.z - b.z⟩⟩

instance [Neg F] : Neg (vec3 F) := ⟨fun a => ⟨-a.x, -a.y, -a.z⟩⟩

/-- The product `v * s` of a `glm::vec3` and a scalar. -/
def vec3.scale [Mul F] (v : vec3 F) (s : F) : vec3 F := ⟨v.x * s, v.y * s, v.z * s⟩

/-- The function `glm::cross`. -/
def cross [CommRing F] (x y : vec3 F) : vec3 F :=
  ⟨x.y * y.z - y.y * x.z, x.z * y.x - y.z * x.x, x.x * y.y - y.x * x.y⟩

/-- The function `glm::dot` on `glm::vec3`. -/
def dot [CommRing F] (x y : vec3 F) : F := x.x * y.x + x.y * y.y + x.z * y.z

/-- The function `glm::normalize` on `glm::vec3`: `v * inversesqrt(dot(v, v))`. -/
def normalize [CommRing F] (lib : FloatLib F) (v : vec3 F) : vec3 F :=
  v.scale (lib.inversesqrt (dot v v))

/-- The product `p * q` of two `glm::quat` (`p *= q` computes it with `p` the old value
of the left operand). -/
def quat.mul [CommRing F] (p q : quat F) : quat F :=
  ⟨p.w * q.w - p.x * q.x - p.y * q.y - p.z * q.z,
   p.w * q.x + p.x * q.w + p.y * q.z - p.z * q.y,
   p.w * q.y + p.y * q.w + p.z * q.x - p.x * q.z,
   p.w * q.z + p.z * q.w + p.x * q.y - p.y * q.x⟩

/-- The function `glm::dot` on `glm::quat`. -/
def quat.dot [CommRing F] (p q : quat F) : F := p.x * q.x + p.y * q.y + p.z * q.z + p.w * q.w

/-- The function `glm::normalize` on `glm::quat`: the identity quaternion when the
length is not positive, and the quaternion divided by its length otherwise. -/
def quat.normalize [LinearOrderedField F] (lib : FloatLib F) (q : quat F) : quat F :=
  let len := lib.sqrt (quat.dot q q)
  if len ≤ 0 then ⟨1, 0, 0, 0⟩
  else
    let oneOverLen := 1 / len
    ⟨q.w * oneOverLen, q.x * oneOverLen, q.y * oneOverLen, q.z * oneOverLen⟩

/-- The product `q * v` of a `glm::quat` and a `glm::vec3` (the rotation of `v`). -/
def quat.rotate [CommRing F] (q : quat F) (v : vec3 F) : vec3 F :=
  let QuatVector : vec3 F := ⟨q.x, q.y, q.z⟩
  let uv := cross QuatVector v
  let uuv := cross QuatVector uv
  v + ((uv.scale q.w) + uuv).scale 2

/-- The function `glm::angleAxis`. -/
def angleAxis [Field F] (lib : FloatLib F) (angle : F) (v : vec3 F) : quat F :=
  let s := lib.sin (angle * (1 / 2))
  ⟨lib.cos (angle * (1 / 2)), v.x * s, v.y * s, v.z * s⟩

/-- The quaternion of Mathlib with the components of a `glm::quat`. -/
def quat.toQuaternion [CommRing F] (q : quat F) : Quaternion F := ⟨q.w, q.x, q.y, q.z⟩

end glm

namespace game

open glm

variable {F : Type}

/-! ### Orientation of a scene node -/

/-- The method `SceneNode::SetOrientation`. -/
def SetOrientation (s : Scene F) (this : Nat) (orientation : quat F) : Scene F :=
  s.update this fun n => { n with orientation_ := orientation }

/-- The method `SceneNode::Rotate`: `orientation_ *= rot` and then
`orientation_ = glm::normalize(orientation_)`. -/
def Rotate [LinearOrderedField F] (lib : FloatLib F) (s : Scene F) (this : Nat)
    (rot : quat F) : Scene F :=
  s.update this fun n => { n with orientation_ := (n.orientation_.mul rot).normalize lib }

/-- The method `SceneNode::GetForward`, on the fields of the node. -/
def GetForward [CommRing F] (n : SceneNode F) : vec3 F :=
  let current_forward := n.orientation_.rotate n.forward_
  (-current_forward)

/-- The method `SceneNode::GetSide`. -/
def GetSide [CommRing F] (n : SceneNode F) : vec3 F :=
  let current_side := n.orientation_.rotate n.side_
  current_side

/-- The method `SceneNode::GetUp`. -/
def GetUp [CommRing F] (lib : FloatLib F) (n : SceneNode F) : vec3 F :=
  let current_forward := n.orientation_.rotate n.forward_
  let current_side := n.orientation_.rotate n.side_
  let current_up := cross current_forward current_side
  normalize lib current_up

/-- The method `SceneNode::Pitch`. -/
def Pitch [LinearOrderedField F] (lib : FloatLib F) (s : Scene F) (this : Nat) (angle : F) :
    Scene F :=
  s.update this fun n =>
    let rotation := angleAxis lib angle (GetSide n)
    { n with orientation_ := (rotation.mul n.orientation_).normalize lib }

/-- The method `SceneNode::Yaw`. -/
def Yaw [LinearOrderedField F] (lib : FloatLib F) (s : Scene F) (this : Nat) (angle : F) :
    Scene F :=
  s.update this fun n =>
    let rotation := angleAxis lib angle (GetUp lib n)
    { n with orientation_ := (rotation.mul n.orientation_).normalize lib }

/-- The method `SceneNode::Roll`. -/
def Roll [LinearOrderedField F] (lib : FloatLib F) (s : Scene F) (this : Nat) (angle : F) :
    Scene F :=
  s.update this fun n =>
    let rotation := angleAxis lib angle (GetForward n)
    { n with orientation_ := (rotation.mul n.orientation_).normalize lib }

/-- The method `SceneNode::GetParent`, called on the node behind `this`: the parent
when there is one, and `this` otherwise. -/
def GetParent (s : Scene F) (this : Nat) : Option Nat :=
  match s.nodes[this]? with
  | none => none
  | some n =>
    match n.parent_ with
    | some p => some p
    | none => some this

/-! ### Finding a node by name -/

/-- The loop over the children in `SceneNode::GetNode`: `call c` is the result of
`node_[i]->GetNode(node_name)` on child `c`, `none` when that call does not return. -/
def GetNode_loop (call : Nat → Option (Option Nat)) : List Nat → Option (Option Nat)
  | [] => some none
  | c :: rest =>
    match call c with
    | none => none
    | some (some return_node) => some (some return_node)
    | some none => GetNode_loop call rest

/-- The method `SceneNode::GetNode`, called on the node behind `this`. The recursion
through the child pointers is bounded by `fuel`; the outer `none` stands for a call that
ran out of fuel or dereferenced a dangling pointer, `some none` for the result `NULL`. -/
def GetNode (s : Scene F) : Nat → Nat → String → Option (Option Nat)
  | 0, _, _ => none
  | fuel + 1, this, node_name =>
    match s.nodes[this]? with
    | none => none
    | some n =>
      if n.name_ = node_name then some (some this)
      else GetNode_loop (fun c => GetNode s fuel c node_name) n.node_

/-- Every chain of child pointers that starts at the node behind `this` ends after at
most `h` nodes, and meets no dangling pointer: the subtree of `this` is finite. -/
inductive HasHeight (s : Scene F) : Nat → Nat → Prop
  | mk (this h : Nat) (n : SceneNode F) :
      s.nodes[this]? = some n → (∀ c ∈ n.node_, HasHeight s c h) → HasHeight s this (h + 1)

/-- The nodes of the subtree of `this` in pre-order: `this` first, then the subtrees of
its children in the order of the child list (traversal bounded by `fuel`). -/
def preorder (s : Scene F) : Nat → Nat → List Nat
  | 0, _ => []
  | fuel + 1, this =>
    match s.nodes[this]? with
    | none => []
    | some n => this :: n.node_.flatMap fun c => preorder s fuel c

/-- The name of the node behind `this` is `name`. -/
def hasName (s : Scene F) (name : String) (this : Nat) : Bool :=
  match s.nodes[this]? with
  | none => false
  | some n => n.name_ = name

/-- The node behind `p` is reached from the node behind `a` through child lists, in any
number of steps. -/
inductive Reaches (s : Scene F) : Nat → Nat → Prop
  | refl (a : Nat) : Reaches s a a
  | step (a c p : Nat) (n : SceneNode F) :
      s.nodes[a]? = some n → c ∈ n.node_ → Reaches s c p → Reaches s a p

/-- The fields of a node after the constructor `SceneNode::SceneNode`: unit scale, no
parent, `forward_ = (0, 0, 1)`, `side_ = (1, 0, 0)`, no children. The constructor does
not assign `position_`, `orientation_` and `orbit_`; they are given here. -/
def constructedNode [Zero F] [One F] (name : String) (position : vec3 F)
    (orientation : quat F) (orbit : vec3 F) : SceneNode F :=
  { name_ := name, array_buffer_ := 0, element_array_buffer_ := 0, size_ := 0,
    material_ := 0, texture_ := 0, position_ := position, orientation_ := orientation,
    scale_ := ⟨1, 1, 1⟩, orbit_ := orbit, forward_ := ⟨0, 0, 1⟩, side_ := ⟨1, 0, 0⟩,
    parent_ := none, node_ := [] }

/-- A library over the rationals that agrees with the real functions at the half angle
whose cosine is 3/5 and whose sine is 4/5, and at the square roots of 0 and 1. -/
def pythagoreanLib : FloatLib ℚ :=
  { pi := 22 / 7, cos := fun _ => 3 / 5, sin := fun _ => 4 / 5, sqrt := fun x => x,
    inversesqrt := fun x => x }

/-- One node over the rationals with the identity orientation. -/
def singleScene : Scene ℚ := ⟨[constructedNode "node" ⟨1, 2, 3⟩ quat_identity 0]⟩

/-- Three unlinked nodes, two of which bear the same name: a root and the nodes 1 and 2,
both called "x". -/
def twinScene : Scene Int :=
  ⟨[exampleNode "root" ⟨0, 0, 0⟩, exampleNode "x" ⟨1, 0, 0⟩, exampleNode "x" ⟨2, 0, 0⟩]⟩

/-! ### Mesh files -/

/-- How a call ends when it does not return: it throws `std::ios_base::failure(what)`, or
it runs into undefined behaviour, which throws nothing: a `std::vector` indexed outside
its bounds, an `int` that overflows, or a loop without side effect that never ends
because its `unsigned int` counter wraps before it reaches the `size_t` bound. -/
inductive Abort where
  | failure (what : String)
  | undefined
deriving DecidableEq, Repr

/-- The library functions on floats that `LoadMesh` relies on, next to those of
`FloatLib`: `extract` is the stream extraction `ss >> result` of `str_to_num<float>`
(`none` when `ss.fail()`), `sub` the subtraction of two `float` values, whose result is
again a `float` (the difference rounded to binary32), and `to_int` the conversion of a
`float` to `int`. -/
structure MeshLib (F : Type) extends FloatLib F where
  extract : List Char → Option F
  sub : F → F → F
  to_int : F → Int

/-- The function `string_trim`. Its parameter `str` is passed by value, so the caller's
string stays as it is; the value here is the local copy on return. `str.erase(0)` erases
from position 0 to the end, and `str.erase(str.size()-1)` erases the last character. -/
def string_trim (str to_trim : List Char) : List Char :=
  let str1 : List Char :=
    match str with
    | [] => []
    | c :: rest => if c ∈ to_trim then [] else c :: rest
  (str1.reverse.dropWhile fun c => c ∈ to_trim).reverse

/-- The outer loop of `string_split` over the characters that remain: `cur` is
`output[string_index]` so far, and `skipping` tells that the inner loop over a run of
separators is under way. The result lists `output` from `string_index` on. The counter
`i` of the source is an `unsigned int`; the recursion over the characters is that loop
for strings of fewer than 2^32 characters. -/
def string_split_loop (separator : List Char) : Bool → List Char → List Char → List (List Char)
  | _, cur, [] => [cur]
  | skipping, cur, c :: rest =>
    if c ∈ separator then
      if skipping then string_split_loop separator true cur rest
      else cur :: string_split_loop separator true [] rest
    else string_split_loop separator false (cur ++ [c]) rest

/-- The function `string_split`. -/
def string_split (str separator : List Char) : List (List Char) :=
  string_split_loop separator false [] str

/-- The loop of `string_split_once` over the characters that remain, with `cur` the
string `output[string_index]` so far. -/
def string_split_once_loop (separator : List Char) : List Char → List Char → List (List Char)
  | cur, [] => [cur]
  | cur, c :: rest =>
    if c ∈ separator then cur :: string_split_once_loop separator [] rest
    else string_split_once_loop separator (cur ++ [c]) rest

/-- The function `string_split_once`. -/
def string_split_once (str separator : List Char) : List (List Char) :=
  string_split_once_loop separator [] str

/-- The conversion `std::string(s.c_str())` that the calls `str_to_num<float>(s.c_str())`
make: the characters before the first NUL. -/
def c_str (s : List Char) : List Char := s.takeWhile fun c => c ≠ Char.ofNat 0

/-- The function `str_to_num<float>`. -/
def str_to_num (lib : MeshLib F) (str : List Char) : Except Abort F :=
  match lib.extract str with
  | some result => .ok result
  | none => .error (.failure ("Invalid number: " ++ String.mk str))

/-- Modelled from the spec: the struct `Face` of `model_loader.h`, which is not among the
sources: the position indices `i[3]`, normal indices `n[3]` and texture indices `t[3]` of
the corners of a triangle, `int` values with -1 for an absent index. -/
structure Face where
  i : Int × Int × Int
  n : Int × Int × Int
  t : Int × Int × Int
deriving DecidableEq, Repr

/-- Modelled from the spec: the struct `TriMesh` of `model_loader.h`, which is not among
the sources: the vectors `position`, `normal`, `tex_coord` and `face`. -/
structure TriMesh (F : Type) where
  position : List (vec3 F)
  normal : List (vec3 F)
  tex_coord : List (vec2 F)
  face : List Face
deriving DecidableEq, Repr

/-- Entry `j` of an array `int a[3]`. -/
def int3_get (a : Int × Int × Int) (j : Nat) : Int :=
  match j with
  | 0 => a.1
  | 1 => a.2.1
  | _ => a.2.2

/-- One round of the loops over the references of an `f` command: the reference is split
at every `/` and its one, two or three fields give the position, texture and normal index
`(i, t, n)`, each the number read minus 1 and -1 when absent; `what` is the message of the
last `else`. In `str_to_num<float>(fd[0].c_str())-1` the number read is a `float` and so
is the difference, which is then converted to `int`. -/
def parse_reference [Field F] (lib : MeshLib F) (what : String) (ref : List Char) :
    Except Abort (Int × Int × Int) :=
  match string_split_once ref ['/'] with
  | [a] => do
    let x ← str_to_num lib (c_str a)
    pure (lib.to_int (lib.sub x 1), -1, -1)
  | [a, b] => do
    let x ← str_to_num lib (c_str a)
    let y ← str_to_num lib (c_str b)
    pure (lib.to_int (lib.sub x 1), lib.to_int (lib.sub y 1), -1)
  | [a, b, c] => do
    let x ← str_to_num lib (c_str a)
    let t ← if b ≠ [] then (str_to_num lib (c_str b)).map fun y => lib.to_int (lib.sub y 1)
      else pure (-1)
    let z ← str_to_num lib (c_str c)
    pure (lib.to_int (lib.sub x 1), t, lib.to_int (lib.sub z 1))
  | _ => .error (.failure what)

/-- The triangle with the corners `a`, `b`, `c`, each given as `(i, t, n)`. -/
def Face.ofCorners (a b c : Int × Int × Int) : Face :=
  { i := (a.1, b.1, c.1), n := (a.2.2, b.2.2, c.2.2), t := (a.2.1, b.2.1, c.2.1) }

/-- The body of the loop over the lines in `LoadMesh`; the state is `mesh` and
`added_normal`. The call `string_trim(line, ignore)` changes nothing, as `line` is passed
by value. The arguments of the `glm::vec3` constructors are evaluated left to right. -/
def parse_line [Field F] (lib : MeshLib F) (st : TriMesh F × Bool) (line : List Char) :
    Except Abort (TriMesh F × Bool) :=
  if line.length ≤ 0 ∨ line.head? = some '#' then .ok st
  else
    let part := string_split line [' ', '\t']
    let p (k : Nat) : List Char := part.getD k []
    if part.head? = some ['v'] then
      if part.length ≥ 4 then do
        let x ← str_to_num lib (c_str (p 1))
        let y ← str_to_num lib (c_str (p 2))
        let z ← str_to_num lib (c_str (p 3))
        pure ({ st.1 with position := st.1.position ++ [⟨x, y, z⟩] }, st.2)
      else .error (.failure "Error: v command should have exactly 3 parameters")
    else if part.head? = some ['v', 'n'] then
      if part.length ≥ 4 then do
        let x ← str_to_num lib (c_str (p 1))
        let y ← str_to_num lib (c_str (p 2))
        let z ← str_to_num lib (c_str (p 3))
        pure ({ st.1 with normal := st.1.normal ++ [⟨x, y, z⟩] }, true)
      else .error (.failure "Error: vn command should have exactly 3 parameters")
    else if part.head? = some ['v', 't'] then
      if part.length ≥ 3 then do
        let x ← str_to_num lib (c_str (p 1))
        let y ← str_to_num lib (c_str (p 2))
        pure ({ st.1 with tex_coord := st.1.tex_coord ++ [⟨x, y⟩] }, st.2)
      else .error (.failure "Error: vt command should have exactly 2 parameters")
    else if part.head? = some ['f'] then
      if part.length ≥ 4 then
        if part.length > 5 then
          .error (.failure "Error: f commands with more than 4 vertices not supported")
        else if part.length = 5 then do
          let what := "Error: f parameter should have 1 or 3 parameters separated by '/'"
          let q0 ← parse_reference lib what (p 1)
          let q1 ← parse_reference lib what (p 2)
          let q2 ← parse_reference lib what (p 3)
          let q3 ← parse_reference lib what (p 4)
          let face1 := Face.ofCorners q0 q1 q2
          let face2 := Face.ofCorners q0 q2 q3
          pure ({ st.1 with face := st.1.face ++ [face1, face2] }, st.2)
        else do
          let what := "Error: f parameter should have 1, 2, or 3 parameters separated by '/'"
          let c0 ← parse_reference lib what (p 1)
          let c1 ← parse_reference lib what (p 2)
          let c2 ← parse_reference lib what (p 3)
          pure ({ st.1 with face := st.1.face ++ [Face.ofCorners c0 c1 c2] }, st.2)
      else .error (.failure "Error: f command should have 3 or 4 parameters")
    else .ok st

/-- The loop `while (std::getline(f, line))` over the lines of the file. -/
def parse_lines [Field F] (lib : MeshLib F) :
    TriMesh F × Bool → List (List Char) → Except Abort (TriMesh F × Bool)
  | st, [] => .ok st
  | st, line :: rest =>
    match parse_line lib st line with
    | .ok st2 => parse_lines lib st2 rest
    | .error e => .error e

/-- The test `mesh.face[i].i[j] >= mesh.position.size()`: the `int` index is converted to
`size_t` for the comparison, so a negative index counts as at least the size (a vector
never has as many elements as the value a negative `int` converts to). -/
def index_out_of_bounds (size : Nat) (index : Int) : Bool :=
  decide (index < 0) || decide ((size : Int) ≤ index)

/-- The body of the loop that checks the vertex references, for one face: the first
corner out of bounds throws. -/
def check_face (size : Nat) (f : Face) : Except Abort Unit :=
  if index_out_of_bounds size f.i.1 then
    .error (.failure ("Error: index for triangle " ++ toString f.i.1 ++ " is out of bounds"))
  else if index_out_of_bounds size f.i.2.1 then
    .error (.failure ("Error: index for triangle " ++ toString f.i.2.1 ++ " is out of bounds"))
  else if index_out_of_bounds size f.i.2.2 then
    .error (.failure ("Error: index for triangle " ++ toString f.i.2.2 ++ " is out of bounds"))
  else .ok ()

/-- The loop that checks the vertex references of all faces. -/
def check_references (size : Nat) : List Face → Except Abort Unit
  | [] => .ok ()
  | f :: rest =>
    match check_face size f with
    | .ok _ => check_references size rest
    | .error e => .error e

/-- The loop that computes the degree of each vertex (the indices are within bounds
after `check_references`), with the counts as integers; `degree_overflows` tells
whether a count leaves the range of `int`. -/
def compute_degree (size : Nat) (face : List Face) : List Int :=
  face.foldl (fun degree f =>
    ((degree.modify (fun d => d + 1) f.i.1.toNat).modify (fun d => d + 1)
      f.i.2.1.toNat).modify (fun d => d + 1) f.i.2.2.toNat) (List.replicate size 0)

/-- Whether `degree[...]++` overflows the `int` count of some vertex. -/
def degree_overflows (degree : List Int) : Bool :=
  degree.any fun d => decide (2 ^ 31 ≤ d)

/-- The normal `norm` of a face as the loop over the faces computes it. -/
def face_normal [Field F] (lib : MeshLib F) (position : List (vec3 F)) (f : Face) : vec3 F :=
  let vec1 := position.getD f.i.1.toNat 0 - position.getD f.i.2.1.toNat 0
  let vec2 := position.getD f.i.1.toNat 0 - position.getD f.i.2.2.toNat 0
  let norm := cross vec1 vec2
  glm.normalize lib.toFloatLib norm

/-- The loop that adds the normal of each face to the normals of its three vertices. -/
def add_face_normals [Field F] (lib : MeshLib F) (position : List (vec3 F))
    (face : List Face) (normal : List (vec3 F)) : List (vec3 F) :=
  face.foldl (fun normal f =>
    let norm := face_normal lib position f
    ((normal.modify (fun v => v + norm) f.i.1.toNat).modify (fun v => v + norm)
      f.i.2.1.toNat).modify (fun v => v + norm) f.i.2.2.toNat) normal

/-- The loop `if (degree[i] > 0) mesh.normal[i] /= degree[i]`. -/
def divide_by_degree [Field F] (normal : List (vec3 F)) (degree : List Int) : List (vec3 F) :=
  List.zipWith (fun (v : vec3 F) (d : Int) =>
    if d > 0 then (⟨v.x / (d : F), v.y / (d : F), v.z / (d : F)⟩ : vec3 F) else v) normal degree

/-- The block `if (!added_normal)`: the normals computed from the faces. -/
def compute_normals [Field F] (lib : MeshLib F) (mesh : TriMesh F) : List (vec3 F) :=
  divide_by_degree
    (add_face_normals lib mesh.position mesh.face (List.replicate mesh.position.length 0))
    (compute_degree mesh.position.length mesh.face)

/-- Element `index` (not negative) of a `std::vector`; reading past the end is
undefined behaviour. -/
def vector_at {α : Type} (v : List α) (index : Int) : Except Abort α :=
  match v[index.toNat]? with
  | some x => .ok x
  | none => .error .undefined

/-- The 11 floats of corner `j` of a face in the array `att`. -/
def corner_att [Field F] (mesh : TriMesh F) (added_normal : Bool) (f : Face) (j : Nat) :
    Except Abort (List F) := do
  let position := mesh.position.getD (int3_get f.i j).toNat 0
  let normal ←
    if !added_normal then pure (mesh.normal.getD (int3_get f.i j).toNat 0)
    else if int3_get f.n j ≥ 0 then vector_at mesh.normal (int3_get f.n j)
    else pure 0
  let tex ←
    if int3_get f.t j ≥ 0 then vector_at mesh.tex_coord (int3_get f.t j)
    else pure ⟨0, 0⟩
  pure [position.x, position.y, position.z, normal.x, normal.y, normal.z, 0, 0, 0,
    tex.x, tex.y]

/-- The array `att` of a face: the floats of its three corners. -/
def face_att [Field F] (mesh : TriMesh F) (added_normal : Bool) (f : Face) :
    Except Abort (List F) := do
  let a0 ← corner_att mesh added_normal f 0
  let a1 ← corner_att mesh added_normal f 1
  let a2 ← corner_att mesh added_normal f 2
  pure (a0 ++ a1 ++ a2)

/-- The loop that copies the faces to the vertex buffer with `glBufferSubData`: the
arrays `att` of the faces, one after another (33 floats per face). -/
def emit_vertices [Field F] (mesh : TriMesh F) (added_normal : Bool) :
    List Face → Except Abort (List F)
  | [] => .ok []
  | f :: rest =>
    match face_att mesh added_normal f with
    | .error e => .error e
    | .ok att =>
      match emit_vertices mesh added_normal rest with
      | .error e => .error e
      | .ok atts => .ok (att ++ atts)

/-- The stores of the calls `glBufferSubData(GL_ARRAY_BUFFER,
i * 3 * vertex_att * sizeof(GLfloat), ...)`, with positions counted in floats: float
`k` of the array `att` of face `i` goes to position `i * 3 * vertex_att + k`, where the
product is computed in `unsigned int`. Float `p` of `atts` is float `p % 33` of the array
of face `p / 33`. -/
def vertex_writes {α : Type} (atts : List α) : List (Nat × α) :=
  List.zipWith (fun p x => (p / 33 * 3 % 2 ^ 32 * 11 % 2 ^ 32 + p % 33, x))
    (List.range atts.length) atts

/-- The stores of the calls `glBufferSubData(GL_ELEMENT_ARRAY_BUFFER,
i * face_att * sizeof(GLuint), ...)`, with positions counted in indices: `findex` of face
`i` is `vertex_index`, `vertex_index + 1`, `vertex_index + 2` with the `unsigned int`
counter `vertex_index` at `3 * i`, and it goes to position `i * face_att`, computed in
`unsigned int`. -/
def index_writes (face_count : Nat) : List (Nat × Nat) :=
  (List.range face_count).flatMap fun i =>
    [(i * 3 % 2 ^ 32, 3 * i % 2 ^ 32), (i * 3 % 2 ^ 32 + 1, (3 * i % 2 ^ 32 + 1) % 2 ^ 32),
      (i * 3 % 2 ^ 32 + 2, (3 * i % 2 ^ 32 + 2) % 2 ^ 32)]

/-- The conversion of a `size_t` value to `GLsizei`. -/
def GLsizei_of_size_t (x : Nat) : Int := GLsizei_of_GLuint x

/-- The mesh before anything is parsed. -/
def TriMesh.empty : TriMesh F := ⟨[], [], [], []⟩

/-- The part of `ResourceManager::LoadMesh` after the loop over the lines and before
`AddResource`: the check of the references, the degrees, the normals, and the two
buffers with the size passed to `AddResource`. The loops over the faces count with an
`unsigned int`: with 2^32 faces or more the counter wraps, so the check goes round the
first 2^32 faces and never ends unless it throws; so does the loop that divides the
normals when there are 2^32 positions or more. Both buffers are allocated with
`glBufferData(..., 0, ...)`, which initialises nothing. -/
def LoadMesh_emit [Field F] (lib : MeshLib F) (parsed : TriMesh F) (added_normal : Bool) :
    Except Abort (MeshBuffers F × Int) :=
  if 2 ^ 32 ≤ parsed.face.length then
    match check_references parsed.position.length (parsed.face.take (2 ^ 32)) with
    | .error e => .error e
    | .ok _ => .error .undefined
  else
    match check_references parsed.position.length parsed.face with
    | .error e => .error e
    | .ok _ =>
      if degree_overflows (compute_degree parsed.position.length parsed.face) then
        .error .undefined
      else if !added_normal && decide (2 ^ 32 ≤ parsed.position.length) then
        .error .undefined
      else
        let mesh : TriMesh F :=
          if !added_normal then { parsed with normal := compute_normals lib parsed }
          else parsed
        match emit_vertices mesh added_normal mesh.face with
        | .error e => .error e
        | .ok atts =>
          .ok (⟨storeAll (uninitialized F (mesh.face.length * 3 * 11)) (vertex_writes atts),
              storeAll (uninitialized Nat (mesh.face.length * 3))
                (index_writes mesh.face.length)⟩,
            GLsizei_of_size_t (mesh.face.length * 3))

/-- The part of `ResourceManager::LoadMesh` before `AddResource`, which does not touch
`resource_`: the two buffers and the size passed to `AddResource`. The file is given by
its lines, `none` standing for a file that cannot be opened. -/
def LoadMesh_buffers [Field F] (lib : MeshLib F) (filename : String)
    (file : Option (List (List Char))) : Except Abort (MeshBuffers F × Int) :=
  match file with
  | none => .error (.failure ("Error opening file " ++ filename))
  | some lines =>
    match parse_lines lib (TriMesh.empty, false) lines with
    | .error e => .error e
    | .ok (parsed, added_normal) => LoadMesh_emit lib parsed added_normal

/-- The method `ResourceManager::LoadMesh`: the registry after the call, and how the
call ended (with the two buffers when it returned). `vbo` and `ebo` are the names that
`glGenBuffers` returns. -/
def LoadMesh [Field F] (lib : MeshLib F) (rm : ResourceManager) (vbo ebo : Nat)
    (name : String) (filename : String) (file : Option (List (List Char))) :
    ResourceManager × Except Abort (MeshBuffers F) :=
  match LoadMesh_buffers lib filename file with
  | .error e => (rm, .error e)
  | .ok (buffers, size) => (AddResource rm .Mesh name (.buffers vbo ebo) size, .ok buffers)

/-- The value of a string of decimal digits (`none` for the empty string and for a
string with another character). -/
def decimal_value : List Char → Option Nat
  | [] => none
  | c :: rest =>
    (c :: rest).foldl (fun acc d =>
      match acc with
      | none => none
      | some n => if d.isDigit then some (10 * n + (d.toNat - 48)) else none) (some 0)

/-- A library over the rationals for running `LoadMesh`: on a string of decimal digits,
`extract` gives the number as a `float` holds it; other strings fail (among them the
empty string). `sub` is the difference as a `float` holds it, for numbers whose
difference is an integer (the absolute value is rounded and the sign kept). `to_int`
truncates towards zero. The other functions are those of `pythagoreanLib`, right at
`inversesqrt(1)`. -/
def decimalLib : MeshLib ℚ :=
  { pythagoreanLib with
    extract := fun s => (decimal_value s).map fun n => ((float_of_nat n : Nat) : ℚ)
    sub := fun x y =>
      if 0 ≤ x - y then ((float_of_nat ⌊x - y⌋.toNat : Nat) : ℚ)
      else -((float_of_nat ⌊y - x⌋.toNat : Nat) : ℚ)
    to_int := fun x => if 0 ≤ x then ⌊x⌋ else ⌈x⌉ }

/-- A mesh file with three positions, no `vn` record and one triangle whose corners carry
the normal index 5. -/
def fileNormalIndexFive : List (List Char) :=
  ["v 0 0 0".toList, "v 1 0 0".toList, "v 0 1 0".toList, "f 1//5 2//5 3//5".toList]

/-- The first token of a line, tokens being delimited by spaces and tabs. -/
def first_token (line : List Char) : List Char :=
  (line.dropWhile fun c => c = ' ' ∨ c = '\t').takeWhile fun c => ¬ (c = ' ' ∨ c = '\t')

/-- The lines that carry no record: empty lines, comment lines (first character `#`),
lines made of whitespace only, and lines whose first token is none of `v`, `vn`, `vt`
and `f`. -/
def carries_no_record (line : List Char) : Bool :=
  decide (line = []) || decide (line.head? = some '#') ||
    line.all (fun c => decide (c ∈ [' ', '\t', '\r', '\n'])) ||
    decide (first_token line ∉ [['v'], ['v', 'n'], ['v', 't'], ['f']])

/-- A mesh file with three positions and `n` times the triangle `f 1 2 3`. -/
def manyTriangles (n : Nat) : List (List Char) :=
  ["v 0 0 0".toList, "v 1 0 0".toList, "v 0 1 0".toList] ++
    List.replicate n "f 1 2 3".toList

/-- A mesh file with three positions, the normal (0, 0, 1) and one triangle whose corners
carry the normal index 1. -/
def fileWithNormal : List (List Char) :=
  ["v 0 0 0".toList, "v 1 0 0".toList, "v 0 1 0".toList, "vn 0 0 1".toList,
    "f 1//1 2//1 3//1".toList]

/-- The matrix `world_mat` that `SceneNode::SetupShader` uploads, for the node behind
`this`: `transf` starts from the identity or from `parent_->GetHierarchy()` (a call
bounded by `fuel`), and is translated by `position_`, multiplied by the rotation of
`orientation_`, translated by `orbit_` and scaled by `scale_`. -/
def SetupShader_world_mat [CommRing F] (s : Scene F) (fuel this : Nat) : Option (mat4 F) :=
  match s.nodes[this]? with
  | none => none
  | some n =>
    let transf : Option (mat4 F) :=
      match n.parent_ with
      | none => some 1
      | some p => GetHierarchy s fuel p
    transf.map fun m =>
      glm.scale (translate (translate m n.position_ * mat4_cast n.orientation_) n.orbit_)
        n.scale_

/-! ### Instances -/

/-- The arguments with which `Game::CreateInstance` calls `scene_.CreateNode` and
`Game::CreateAsteroidInstance` calls `new Asteroid`: the name and the three `Resource`
pointers (positions in `resource_`, `none` for `NULL`). -/
structure CreateNodeCall where
  entity_name : String
  geom : Option Nat
  mat : Option Nat
  tex : Option Nat
deriving DecidableEq, Repr

/-- The method `Game::CreateInstance` up to the call of `scene_.CreateNode`, which is the
only place where it creates a node: the arguments of that call, or the message of the
`GameException` thrown before it. -/
def CreateInstance (resman_ : ResourceManager)
    (entity_name object_name material_name texture_name : String) :
    Except String CreateNodeCall :=
  let geom := GetResource resman_ object_name
  if geom = none then .error ("Could not find resource \"" ++ object_name ++ "\"")
  else
    let mat := GetResource resman_ material_name
    if mat = none then .error ("Could not find resource \"" ++ material_name ++ "\"")
    else if texture_name ≠ "" then
      let tex := GetResource resman_ texture_name
      if mat = none then .error ("Could not find resource \"" ++ material_name ++ "\"")
      else .ok ⟨entity_name, geom, mat, tex⟩
    else .ok ⟨entity_name, geom, mat, none⟩

/-- The method `Game::CreateAsteroidInstance` up to `new Asteroid(entity_name, geom, mat,
tex)`, the only place where it creates a node. -/
def CreateAsteroidInstance (resman_ : ResourceManager)
    (entity_name object_name material_name texture_name : String) :
    Except String CreateNodeCall :=
  let geom := GetResource resman_ object_name
  if geom = none then .error ("Could not find resource \"" ++ object_name ++ "\"")
  else
    let mat := GetResource resman_ material_name
    if mat = none then .error ("Could not find resource \"" ++ material_name ++ "\"")
    else if texture_name ≠ "" then
      let tex := GetResource resman_ texture_name
      if mat = none then .error ("Could not find resource \"" ++ material_name ++ "\"")
      else .ok ⟨entity_name, geom, mat, tex⟩
    else .ok ⟨entity_name, geom, mat, none⟩

/-- A registry with a mesh called `Cube` and a material called `Shiny`, and no
texture. -/
def cubeRegistry : ResourceManager :=
  AddResource (AddResource ⟨[]⟩ .Mesh "Cube" (.buffers 1 2) 36) .Material "Shiny" (.handle 3) 0

/-- Follows the spec's words: the signed area in the xy-plane of the triangle with the
corners `a`, `b`, `c` in this order, positive when the order is counter-clockwise seen
from +z. -/
def signed_area_xy [Field F] (a b c : vec3 F) : F :=
  ((b.x - a.x) * (c.y - a.y) - (c.x - a.x) * (b.y - a.y)) / 2

/-- The position of vertex `v` of a vertex array: its first three floats (`none` when
one of them is missing or not initialised). -/
def MeshBuffers.positionAt (b : MeshBuffers F) (v : Nat) : Option (vec3 F) :=
  match b.vertexAt v with
  | some x :: some y :: some z :: _ => some ⟨x, y, z⟩
  | _ => none

/-- The signed area in the xy-plane of triangle `t` of a mesh, its corners taken in the
order of the index array. -/
def MeshBuffers.triangle_area_xy [Field F] (b : MeshBuffers F) (t : Nat) : Option F :=
  match b.triangleAt t with
  | [some i0, some i1, some i2] =>
    match b.positionAt i0, b.positionAt i1, b.positionAt i2 with
    | some p0, some p1, some p2 => some (signed_area_xy p0 p1 p2)
    | _, _, _ => none
  | _ => none

/-- A mesh file with `n` times the position `v 0 0 0` and then the triangle
`f 16777217 1 1`. -/
def manyPositions (n : Nat) : List (List Char) :=
  List.replicate n "v 0 0 0".toList ++ ["f 16777217 1 1".toList]

/-- A mesh file with three positions, `n` times the normal `vn 0 0 1`, then the normal
`vn 1 0 0`, and one triangle whose corners carry the normal index 16777217. -/
def manyNormals (n : Nat) : List (List Char) :=
  ["v 0 0 0".toList, "v 1 0 0".toList, "v 0 1 0".toList] ++
    List.replicate n "vn 0 0 1".toList ++
    ["vn 1 0 0".toList, "f 1//16777217 2//16777217 3//16777217".toList]

end game

/-! ## Theorems -/

namespace glm

variable {F : Type} [CommRing F]

theorem translate_eq_mul (m : mat4 F) (v : vec3 F) : translate m v = m * translation v := by
  ext r c
  fin_cases c <;>
    simp [translate, translation, Matrix.mul_apply, Fin.sum_univ_four, Matrix.vecHead,
      Matrix.vecTail]

end glm

namespace game

open glm

variable {F : Type} [CommRing F]

theorem GetHierarchy_succ (s : Scene F) (fuel this : Nat) (n : SceneNode F)
    (hn : s.nodes[this]? = some n) :
    GetHierarchy s (fuel + 1) this =
      (parentHierarchy s fuel n).map fun m =>
        m * translation n.position_ * mat4_cast n.orientation_ * translation n.orbit_ := by
  simp only [GetHierarchy, hn, parentHierarchy, translate_eq_mul]

theorem HasDepth.getHierarchy_some {s : Scene F} {this d : Nat} (h : HasDepth s this d) :
    ∃ M, ∀ fuel, d < fuel → GetHierarchy s fuel this = some M := by
  induction h with
  | root this n hn hp =>
    refine ⟨1 * translation n.position_ * mat4_cast n.orientation_ * translation n.orbit_,
      fun fuel hf => ?_⟩
    obtain ⟨k, rfl⟩ : ∃ k, fuel = k + 1 := ⟨fuel - 1, by omega⟩
    rw [GetHierarchy_succ s k this n hn]
    simp only [parentHierarchy, hp, Option.map_some']
  | child this p d n hn hp _ ih =>
    obtain ⟨P, hP⟩ := ih
    refine ⟨P * translation n.position_ * mat4_cast n.orientation_ * translation n.orbit_,
      fun fuel hf => ?_⟩
    obtain ⟨k, rfl⟩ : ∃ k, fuel = k + 1 := ⟨fuel - 1, by omega⟩
    rw [GetHierarchy_succ s k this n hn]
    simp only [parentHierarchy, hp, hP k (by omega), Option.map_some']

/-- C1: for every scene node whose chain of ancestors ends (depth `d`), `GetHierarchy()`
returns, for every fuel above `d`, the matrix
`P * translate(position) * rotate(orientation) * translate(orbit)`, where `P` is the
identity when the node has no parent and otherwise the matrix that the parent's
`GetHierarchy()` returns. -/
theorem GetHierarchy_eq_parent_mul (s : Scene F) (this d : Nat) (n : SceneNode F)
    (hn : s.nodes[this]? = some n) (hd : HasDepth s this d) :
    ∃ P : mat4 F,
      (match n.parent_ with
        | none => P = 1
        | some p => ∀ fuel, d ≤ fuel → GetHierarchy s fuel p = some P) ∧
      ∀ fuel, d < fuel → GetHierarchy s fuel this =
        some (P * translation n.position_ * mat4_cast n.orientation_ * translation n.orbit_) := by
  cases hd with
  | root _ n0 hn0 hp =>
    obtain rfl : n0 = n := by rw [hn] at hn0; exact (Option.some.inj hn0).symm
    refine ⟨1, by simp only [hp], fun fuel hf => ?_⟩
    obtain ⟨k, rfl⟩ : ∃ k, fuel = k + 1 := ⟨fuel - 1, by omega⟩
    rw [GetHierarchy_succ s k this n0 hn]
    simp only [parentHierarchy, hp, Option.map_some']
  | child _ p d0 n0 hn0 hp hpd =>
    obtain rfl : n0 = n := by rw [hn] at hn0; exact (Option.some.inj hn0).symm
    obtain ⟨P, hP⟩ := hpd.getHierarchy_some
    refine ⟨P, ?_, fun fuel hf => ?_⟩
    · simp only [hp]
      exact fun fuel hf => hP fuel (by omega)
    · obtain ⟨k, rfl⟩ : ∃ k, fuel = k + 1 := ⟨fuel - 1, by omega⟩
      rw [GetHierarchy_succ s k this n0 hn]
      simp only [parentHierarchy, hp, hP k (by omega), Option.map_some']

theorem linkedScene_depth : HasDepth linkedScene 2 2 :=
  .child 2 1 1 { exampleNode "B" ⟨0, 0, 1⟩ with parent_ := some 1 } rfl rfl
    (.child 1 0 0 { exampleNode "A" ⟨0, 1, 0⟩ with parent_ := some 0, node_ := [2] } rfl rfl
      (.root 0 { exampleNode "root" ⟨1, 0, 0⟩ with node_ := [1] } rfl rfl))

/-- Witness of C1 on the example chain root → A → B: the matrix of B is the matrix of
its parent A times B's own three factors. -/
theorem GetHierarchy_eq_parent_mul_witness :
    ∃ P : mat4 Int,
      (∀ fuel, 2 ≤ fuel → GetHierarchy linkedScene fuel 1 = some P) ∧
      ∀ fuel, 2 < fuel → GetHierarchy linkedScene fuel 2 =
        some (P * translation ⟨0, 0, 1⟩ * mat4_cast quat_identity * translation 0) :=
  GetHierarchy_eq_parent_mul linkedScene 2 2
    { exampleNode "B" ⟨0, 0, 1⟩ with parent_ := some 1 } rfl linkedScene_depth

end game

namespace glm

variable {F : Type} [CommRing F]

theorem vec3.add_def (a b : vec3 F) : a + b = ⟨a.x + b.x, a.y + b.y, a.z + b.z⟩ := rfl

theorem vec3.zero_def : (0 : vec3 F) = ⟨0, 0, 0⟩ := rfl

theorem translation_mul (a b : vec3 F) :
    translation a * translation b = translation (b + a) := by
  ext r c
  fin_cases r <;> fin_cases c <;>
    simp [translation, Matrix.mul_apply, Fin.sum_univ_four, Matrix.vecHead, Matrix.vecTail,
      vec3.add_def]

theorem translation_zero : translation (0 : vec3 F) = 1 := by
  ext r c
  fin_cases r <;> fin_cases c <;>
    simp [translation, vec3.zero_def, Matrix.vecHead, Matrix.vecTail]

theorem mat4_cast_identity : mat4_cast (quat_identity : quat F) = 1 := by
  ext r c
  fin_cases r <;> fin_cases c <;>
    simp [mat4_cast, quat_identity, Matrix.vecHead, Matrix.vecTail]

end glm

namespace game

open glm

variable {F : Type}

theorem AddNode_getElem (s : Scene F) (p c i : Nat) :
    (AddNode s p c).nodes[i]? =
      (s.nodes[i]?).map fun n =>
        let n1 := if p = i then { n with node_ := n.node_ ++ [c] } else n
        if c = i then { n1 with parent_ := some p } else n1 := by
  simp only [AddNode, SetParent, Scene.update, List.getElem?_modify, Option.map_eq_map,
    Option.map_map]
  rfl

theorem AddNode_lookup (s : Scene F) (p c i : Nat) (n : SceneNode F)
    (h : s.nodes[i]? = some n) :
    ∃ n', (AddNode s p c).nodes[i]? = some n' ∧ n'.position_ = n.position_ ∧
      n'.orientation_ = n.orientation_ ∧ n'.orbit_ = n.orbit_ ∧
      n'.parent_ = if c = i then some p else n.parent_ := by
  rw [AddNode_getElem, h]
  refine ⟨_, rfl, ?_⟩
  by_cases h1 : p = i <;> by_cases h2 : c = i <;> simp [h1, h2]

end game

namespace game

open glm

variable {F : Type}

theorem AddNode_positionOf [Zero F] (s : Scene F) (p c i : Nat) :
    positionOf (AddNode s p c) i = positionOf s i := by
  unfold positionOf
  rw [AddNode_getElem]
  cases s.nodes[i]? with
  | none => rfl
  | some n => by_cases h1 : p = i <;> by_cases h2 : c = i <;> simp [h1, h2]

theorem buildChain_positionOf [Zero F] (s : Scene F) (path : List Nat) (i : Nat) :
    positionOf (buildChain s path) i = positionOf s i := by
  induction path with
  | nil => rfl
  | cons c rest ih =>
    cases rest with
    | nil => rfl
    | cons p rest => rw [buildChain, AddNode_positionOf, ih]

theorem buildChain_lookup (s : Scene F) (path : List Nat) (i : Nat) (n : SceneNode F)
    (h : s.nodes[i]? = some n) :
    ∃ n', (buildChain s path).nodes[i]? = some n' ∧ n'.position_ = n.position_ ∧
      n'.orientation_ = n.orientation_ ∧ n'.orbit_ = n.orbit_ ∧
      (i ∉ path.dropLast → n'.parent_ = n.parent_) := by
  induction path with
  | nil => exact ⟨n, h, rfl, rfl, rfl, fun _ => rfl⟩
  | cons c rest ih =>
    cases rest with
    | nil => exact ⟨n, h, rfl, rfl, rfl, fun _ => rfl⟩
    | cons p rest =>
      obtain ⟨n1, h1, hp1, ho1, hb1, hpar1⟩ := ih
      obtain ⟨n2, h2, hp2, ho2, hb2, hpar2⟩ := AddNode_lookup _ p c i n1 h1
      refine ⟨n2, h2, hp2.trans hp1, ho2.trans ho1, hb2.trans hb1, fun hi => ?_⟩
      have hci : c ≠ i := by
        intro hc
        apply hi
        simp [List.dropLast, hc]
      have hi' : i ∉ (p :: rest).dropLast := by
        intro hm
        apply hi
        simp only [List.dropLast_cons₂, List.mem_cons]
        exact Or.inr hm
      rw [hpar2, if_neg hci, hpar1 hi']

theorem UpChain.addNode [Zero F] [One F] {s : Scene F} (p c : Nat) :
    ∀ {l : List Nat}, UpChain s l → c ∉ l → UpChain (AddNode s p c) l
  | [], h, _ => h.elim
  | [r], h, hc => by
    obtain ⟨n, hn, hpar, ho, hb⟩ := h
    obtain ⟨n', hn', _, ho', hb', hpar'⟩ := AddNode_lookup s p c r n hn
    have hcr : c ≠ r := by simpa using hc
    exact ⟨n', hn', by rw [hpar', if_neg hcr, hpar], ho'.trans ho, hb'.trans hb⟩
  | a :: b :: rest, h, hc => by
    obtain ⟨⟨n, hn, hpar, ho, hb⟩, htail⟩ := h
    obtain ⟨n', hn', _, ho', hb', hpar'⟩ := AddNode_lookup s p c a n hn
    have hca : c ≠ a := fun e => hc (by simp [e])
    have hc' : c ∉ b :: rest := fun hm => hc (List.mem_cons_of_mem _ hm)
    exact ⟨⟨n', hn', by rw [hpar', if_neg hca, hpar], ho'.trans ho, hb'.trans hb⟩,
      htail.addNode p c hc'⟩

theorem buildChain_upChain [Zero F] [One F] (s : Scene F) :
    ∀ (path : List Nat), path.Nodup → path ≠ [] →
      (∀ i ∈ path, ∃ n, s.nodes[i]? = some n ∧ n.orientation_ = quat_identity ∧ n.orbit_ = 0) →
      (∀ n, s.nodes[path.getLast?.getD 0]? = some n → n.parent_ = none) →
      UpChain (buildChain s path) path
  | [], _, hne, _, _ => (hne rfl).elim
  | [r], _, _, hv, hroot => by
    obtain ⟨n, hn, ho, hb⟩ := hv r (by simp)
    exact ⟨n, hn, hroot n (by simpa using hn), ho, hb⟩
  | c :: p :: rest, hnd, _, hv, hroot => by
    have hnd' : (p :: rest).Nodup := (List.nodup_cons.mp hnd).2
    have hc : c ∉ p :: rest := (List.nodup_cons.mp hnd).1
    have ih := buildChain_upChain s (p :: rest) hnd' (by simp)
      (fun i hi => hv i (List.mem_cons_of_mem _ hi))
      (by simpa [List.getLast?_cons_cons] using hroot)
    obtain ⟨n, hn, ho, hb⟩ := hv c (by simp)
    obtain ⟨n1, hn1, _, ho1, hb1, _⟩ := buildChain_lookup s (p :: rest) c n hn
    obtain ⟨n2, hn2, _, ho2, hb2, hpar2⟩ := AddNode_lookup _ p c c n1 hn1
    refine ⟨⟨n2, hn2, by rw [hpar2, if_pos rfl], (ho2.trans ho1).trans ho,
      (hb2.trans hb1).trans hb⟩, ih.addNode p c hc⟩

theorem UpChain.getHierarchy_translation [CommRing F] {s : Scene F} :
    ∀ {path : List Nat}, UpChain s path → ∀ fuel, path.length ≤ fuel →
      GetHierarchy s fuel (path.head?.getD 0) =
        some (translation ((path.map (positionOf s)).sum))
  | [], h, _, _ => h.elim
  | [r], h, fuel, hf => by
    obtain ⟨n, hn, hpar, ho, hb⟩ := h
    obtain ⟨k, rfl⟩ : ∃ k, fuel = k + 1 := ⟨fuel - 1, by simp at hf; omega⟩
    simp only [List.head?_cons, Option.getD_some, List.map_cons, List.map_nil, List.sum_cons,
      List.sum_nil]
    rw [GetHierarchy_succ s k r n hn]
    simp only [parentHierarchy, hpar, ho, hb, Option.map_some', mat4_cast_identity,
      translation_zero, mul_one, one_mul, positionOf, hn]
    congr 2
    simp [vec3.add_def, vec3.zero_def]
  | c :: p :: rest, h, fuel, hf => by
    obtain ⟨⟨n, hn, hpar, ho, hb⟩, htail⟩ := h
    obtain ⟨k, rfl⟩ : ∃ k, fuel = k + 1 := ⟨fuel - 1, by simp at hf; omega⟩
    have ih := htail.getHierarchy_translation k (by simp at hf ⊢; omega)
    simp only [List.head?_cons, Option.getD_some] at ih ⊢
    rw [GetHierarchy_succ s k c n hn]
    simp only [parentHierarchy, hpar, ih, ho, hb, Option.map_some', mat4_cast_identity,
      translation_zero, mul_one, translation_mul]
    simp only [List.map_cons, List.sum_cons, positionOf, hn]

end game

namespace game

open glm

variable {F : Type} [CommRing F]

/-- C2: for every chain of distinct nodes `path = [leaf, ..., root]` (listed leaf first)
whose root has no parent and whose nodes all have the identity orientation and a zero
orbit, after the chain is linked with `AddNode` the leaf's `GetHierarchy()` is the pure
translation by the sum of the positions along the chain. -/
theorem buildChain_GetHierarchy (s : Scene F) (path : List Nat) (hne : path ≠ [])
    (hnd : path.Nodup)
    (hv : ∀ i ∈ path, ∃ n, s.nodes[i]? = some n ∧ n.orientation_ = quat_identity ∧ n.orbit_ = 0)
    (hroot : ∃ n, s.nodes[path.getLast hne]? = some n ∧ n.parent_ = none)
    (fuel : Nat) (hf : path.length ≤ fuel) :
    GetHierarchy (buildChain s path) fuel (path.head hne) =
      some (translation ((path.map (positionOf s)).sum)) := by
  have hup : UpChain (buildChain s path) path := by
    refine buildChain_upChain s path hnd hne hv ?_
    intro n hn
    obtain ⟨r, hr, hpar⟩ := hroot
    rw [List.getLast?_eq_getLast _ hne, Option.getD_some, hr] at hn
    rw [← Option.some.inj hn]
    exact hpar
  have h := hup.getHierarchy_translation fuel hf
  rw [List.head?_eq_head hne, Option.getD_some] at h
  rw [h, List.map_congr_left fun i _ => buildChain_positionOf s path i]

/-- Witness of C2, the example of the claim: root at (1,0,0), A at (0,1,0) under the
root and B at (0,0,1) under A; `B.GetHierarchy()` is the translation by (1,1,1). -/
theorem buildChain_GetHierarchy_witness :
    GetHierarchy linkedScene 3 2 = some (translation ⟨1, 1, 1⟩) :=
  buildChain_GetHierarchy exampleScene [2, 1, 0] (by simp) (by decide)
    (by
      intro i hi
      simp only [List.mem_cons, List.mem_singleton, List.not_mem_nil, or_false] at hi
      rcases hi with rfl | rfl | rfl <;> exact ⟨_, rfl, rfl, rfl⟩)
    ⟨_, rfl, rfl⟩ 3 (by simp)

end game

namespace game

open glm

variable {F : Type}

theorem DifferOnlyInScale.getHierarchy_eq [CommRing F] {s1 s2 : Scene F} (h : DifferOnlyInScale s1 s2) :
    ∀ fuel this, GetHierarchy s1 fuel this = GetHierarchy s2 fuel this
  | 0, _ => rfl
  | fuel + 1, this => by
    cases h1 : s1.nodes[this]? with
    | none =>
      have h2 : s2.nodes[this]? = none := by
        rw [List.getElem?_eq_none_iff] at h1 ⊢
        rw [← h.1]
        exact h1
      simp only [GetHierarchy, h1, h2]
    | some a =>
      have hlt : this < s2.nodes.length := by
        rw [← h.1]
        exact (List.getElem?_eq_some_iff.mp h1).1
      have h2 : s2.nodes[this]? = some s2.nodes[this] := List.getElem?_eq_getElem hlt
      have hb := h.2 this a _ h1 h2
      rw [GetHierarchy_succ s1 fuel this a h1, GetHierarchy_succ s2 fuel this _ h2, hb]
      simp only [parentHierarchy]
      cases a.parent_ with
      | none => rfl
      | some p => simp only [h.getHierarchy_eq fuel p]

theorem differOnlyInScale_map (s : Scene F) (v : vec3 F) :
    DifferOnlyInScale s ⟨s.nodes.map fun n => { n with scale_ := v }⟩ := by
  refine ⟨by simp, fun i a b ha hb => ?_⟩
  simp only [List.getElem?_map, ha, Option.map_some', Option.some.injEq] at hb
  rw [← hb]

/-- C3: `GetHierarchy()` does not depend on scale. For two heaps that hold the same
nodes except for the values of `scale_` (of the node, of its ancestors, of any other
node), `GetHierarchy()` of a node whose chain of ancestors ends returns a matrix in
both, and the same one. -/
theorem GetHierarchy_scale_independent [CommRing F] (s1 s2 : Scene F) (h : DifferOnlyInScale s1 s2)
    (this d : Nat) (hd : HasDepth s1 this d) (fuel : Nat) (hf : d < fuel) :
    ∃ M, GetHierarchy s1 fuel this = some M ∧ GetHierarchy s2 fuel this = some M := by
  obtain ⟨M, hM⟩ := hd.getHierarchy_some
  exact ⟨M, hM fuel hf, by rw [← h.getHierarchy_eq fuel this]; exact hM fuel hf⟩

/-- Witness of C3: the example chain and the same chain with every scale replaced by
(2,3,4) give B the same matrix. -/
theorem GetHierarchy_scale_independent_witness :
    ∃ M, GetHierarchy linkedScene 3 2 = some M ∧ GetHierarchy rescaledScene 3 2 = some M :=
  GetHierarchy_scale_independent linkedScene rescaledScene
    (differOnlyInScale_map linkedScene ⟨2, 3, 4⟩) 2 2 linkedScene_depth 3 (by decide)

end game

/-! ### Stores of a loop nest -/

namespace game

open glm

theorem storeAll_nil {α : Type} (buf : List (Option α)) : storeAll buf [] = buf := rfl

theorem storeAll_cons {α : Type} (buf : List (Option α)) (w : Nat × α) (ws : List (Nat × α)) :
    storeAll buf (w :: ws) = storeAll (buf.set w.1 (some w.2)) ws := rfl

theorem storeAll_length {α : Type} (ws : List (Nat × α)) :
    ∀ buf : List (Option α), (storeAll buf ws).length = buf.length := by
  induction ws with
  | nil => intro buf; rfl
  | cons w ws ih => intro buf; rw [storeAll_cons, ih, List.length_set]

theorem storeAll_getElem_of_not_mem {α : Type} (p : Nat) (ws : List (Nat × α)) :
    ∀ buf : List (Option α), (∀ x ∈ ws, x.1 ≠ p) → (storeAll buf ws)[p]? = buf[p]? := by
  induction ws with
  | nil => intro buf _; rfl
  | cons w ws ih =>
    intro buf h
    rw [storeAll_cons, ih _ fun x hx => h x (List.mem_cons_of_mem _ hx)]
    exact List.getElem?_set_ne (h w (List.mem_cons_self _ _))

theorem storeAll_getElem_of_mem {α : Type} (p : Nat) (v : α) (ws : List (Nat × α)) :
    ∀ buf : List (Option α), p < buf.length → (p, v) ∈ ws →
      (∀ x ∈ ws, x.1 = p → x.2 = v) → (storeAll buf ws)[p]? = some (some v) := by
  induction ws with
  | nil => intro buf _ hm; simp at hm
  | cons w ws ih =>
    intro buf hlen hm huniq
    rw [storeAll_cons]
    by_cases hlater : ∃ x ∈ ws, x.1 = p
    · obtain ⟨x, hx, hxp⟩ := hlater
      have hxv : x = (p, v) := Prod.ext hxp (huniq x (List.mem_cons_of_mem _ hx) hxp)
      exact ih _ (by rw [List.length_set]; exact hlen) (hxv ▸ hx)
        fun y hy => huniq y (List.mem_cons_of_mem _ hy)
    · have hnot : ∀ x ∈ ws, x.1 ≠ p := fun x hx hxp => hlater ⟨x, hx, hxp⟩
      have hw : w = (p, v) := by
        rcases List.mem_cons.mp hm with h | h
        · exact h.symm
        · exact absurd rfl (hnot _ h)
      rw [storeAll_getElem_of_not_mem p ws _ hnot, hw]
      simp [List.getElem?_set, hlen]

theorem block_index_unique {w q r q' r' : Nat} (hr : r < w) (hr' : r' < w)
    (h : q * w + r = q' * w + r') : q = q' ∧ r = r' := by
  have hw : 0 < w := by omega
  have h1 : (q * w + r) / w = q := by
    rw [Nat.add_comm, Nat.add_mul_div_right _ _ hw, Nat.div_eq_of_lt hr, Nat.zero_add]
  have h2 : (q' * w + r') / w = q' := by
    rw [Nat.add_comm, Nat.add_mul_div_right _ _ hw, Nat.div_eq_of_lt hr', Nat.zero_add]
  have hq : q = q' := by rw [← h1, ← h2, h]
  subst hq
  exact ⟨rfl, by omega⟩

/-- A loop nest that fills blocks of `w` consecutive slots, block `q` with the values
`val q 0, ..., val q (w - 1)`: after the stores, slot `q * w + r` holds `val q r`. -/
theorem storeAll_block {α : Type} (w : Nat) (val : Nat → Nat → α) (buf : List (Option α))
    (ws : List (Nat × α))
    (hsound : ∀ x ∈ ws, ∃ q r, r < w ∧ x = (q * w + r, val q r))
    (q r : Nat) (hr : r < w) (hmem : (q * w + r, val q r) ∈ ws)
    (hlen : q * w + r < buf.length) :
    (storeAll buf ws)[q * w + r]? = some (some (val q r)) := by
  refine storeAll_getElem_of_mem _ _ ws buf hlen hmem fun x hx hxp => ?_
  obtain ⟨q', r', hr', rfl⟩ := hsound x hx
  obtain ⟨rfl, rfl⟩ := block_index_unique hr' hr hxp
  rfl

end game

/-! ### Triangle loop nests -/

namespace game

open glm

/-- Every integer up to `2 ^ 24` is a binary32 number: the conversion keeps it. -/
theorem float_of_nat_exact (n : Nat) (h : n ≤ 2 ^ 24) : float_of_nat n = n := by
  rcases Nat.lt_or_eq_of_le h with h | h
  · have hlog : Nat.log2 n - 23 = 0 := by
      by_cases h0 : n = 0
      · subst h0; decide!
      · have := (Nat.log2_lt h0).2 h
        omega
    unfold float_of_nat
    simp only [hlog, pow_zero, Nat.mod_one, Nat.div_one, Nat.mul_zero, Nat.zero_lt_one,
      if_true, Nat.mul_one]
  · subst h
    norm_num [float_of_nat, Nat.log2]

theorem grid_index (cols i j : Nat) (hj : j < cols) :
    (i * cols + j) / cols = i ∧ (i * cols + j) % cols = j := by
  have hc : 0 < cols := by omega
  constructor
  · rw [Nat.add_comm, Nat.add_mul_div_right _ _ hc, Nat.div_eq_of_lt hj, Nat.zero_add]
  · rw [Nat.add_comm, Nat.add_mul_mod_self_right, Nat.mod_eq_of_lt hj]

theorem grid_index_lt (rows cols i j : Nat) (hi : i < rows) (hj : j < cols) :
    i * cols + j < rows * cols := by
  have h : (i + 1) * cols ≤ rows * cols := Nat.mul_le_mul_right _ hi
  rw [Nat.add_mul, Nat.one_mul] at h
  omega

theorem torus_face_writes_eq (N M : Nat) :
    torus_face_writes N M = quad_face_writes N M (torus_t1 N M) (torus_t2 N M) := rfl

theorem sphere_face_writes_eq (T P : Nat) :
    sphere_face_writes T P = quad_face_writes T (P - 1) (sphere_t1 T P) (sphere_t2 T P) := rfl

theorem mem_quad_face_writes (rows cols : Nat) (t1 t2 : Nat → Nat → vec3 Nat) (x : Nat × Nat) :
    x ∈ quad_face_writes rows cols t1 t2 ↔
      ∃ i, i < rows ∧ ∃ j, j < cols ∧ ∃ k, k < 3 ∧
        (x = ((i * cols + j) * 3 * 2 + k, vec3_get (t1 i j) k) ∨
         x = ((i * cols + j) * 3 * 2 + k + 3, vec3_get (t2 i j) k)) := by
  simp only [quad_face_writes, List.mem_flatMap, List.mem_range, List.mem_cons,
    List.mem_singleton, List.not_mem_nil, or_false, GLuint_of_float]

theorem quad_face_writes_sound (rows cols : Nat) (t1 t2 : Nat → Nat → vec3 Nat) :
    ∀ x ∈ quad_face_writes rows cols t1 t2,
      ∃ q r, r < 6 ∧ x = (q * 6 + r, faceSlotValue t1 t2 cols q r) := by
  intro x hx
  obtain ⟨i, _, j, hj, k, hk, h⟩ := (mem_quad_face_writes rows cols t1 t2 x).mp hx
  obtain ⟨hd, hm⟩ := grid_index cols i j hj
  rcases h with rfl | rfl
  · refine ⟨i * cols + j, k, by omega, Prod.ext (by simp only; omega) ?_⟩
    simp only [faceSlotValue, hd, hm, if_pos hk]
  · refine ⟨i * cols + j, k + 3, by omega, Prod.ext (by simp only; omega) ?_⟩
    simp only [faceSlotValue, hd, hm, Nat.add_sub_cancel]
    rw [if_neg (by omega)]

/-- After the triangle loop nest, slot `r` of quad `(i, j)` holds component `r` of
`t1 i j` for `r < 3` and component `r - 3` of `t2 i j` for `3 ≤ r < 6`. -/
theorem quad_face_get (rows cols : Nat) (t1 t2 : Nat → Nat → vec3 Nat)
    (buf : List (Option Nat)) (hlen : 6 * (rows * cols) ≤ buf.length)
    (i j r : Nat) (hi : i < rows) (hj : j < cols) (hr : r < 6) :
    (storeAll buf (quad_face_writes rows cols t1 t2))[(i * cols + j) * 6 + r]? =
      some (some (if r < 3 then vec3_get (t1 i j) r else vec3_get (t2 i j) (r - 3))) := by
  have hq := grid_index_lt rows cols i j hi hj
  obtain ⟨hd, hm⟩ := grid_index cols i j hj
  have hval : faceSlotValue t1 t2 cols (i * cols + j) r =
      if r < 3 then vec3_get (t1 i j) r else vec3_get (t2 i j) (r - 3) := by
    simp only [faceSlotValue, hd, hm]
  rw [← hval]
  refine storeAll_block 6 _ buf _ (quad_face_writes_sound rows cols t1 t2) _ r hr ?_
    (by omega)
  rw [mem_quad_face_writes]
  by_cases h3 : r < 3
  · exact ⟨i, hi, j, hj, r, h3, Or.inl (Prod.ext (by simp only; omega) (by rw [hval, if_pos h3]))⟩
  · exact ⟨i, hi, j, hj, r - 3, by omega,
      Or.inr (Prod.ext (by simp only; omega) (by rw [hval, if_neg h3]))⟩

theorem take_three_drop {α : Type} (l : List α) (n : Nat) (a b c : α)
    (ha : l[n]? = some a) (hb : l[n + 1]? = some b) (hc : l[n + 2]? = some c) :
    (l.drop n).take 3 = [a, b, c] := by
  apply List.ext_getElem?
  intro m
  rcases m with _ | _ | _ | m
  · simp [List.getElem?_take, List.getElem?_drop, ha]
  · simp [List.getElem?_take, List.getElem?_drop, hb]
  · simp [List.getElem?_take, List.getElem?_drop, hc]
  · simp [List.getElem?_take]

/-- After the triangle loop nest, triangles `2 * q` and `2 * q + 1` for the quad
number `q = i * cols + j` are `t1 i j` and `t2 i j`. -/
theorem quad_face_triangles (rows cols : Nat) (t1 t2 : Nat → Nat → vec3 Nat)
    (buf : List (Option Nat)) (hlen : 6 * (rows * cols) ≤ buf.length)
    (i j : Nat) (hi : i < rows) (hj : j < cols) :
    ((storeAll buf (quad_face_writes rows cols t1 t2)).drop (3 * (2 * (i * cols + j)))).take 3
        = [some (t1 i j).x, some (t1 i j).y, some (t1 i j).z] ∧
    ((storeAll buf (quad_face_writes rows cols t1 t2)).drop
        (3 * (2 * (i * cols + j) + 1))).take 3
        = [some (t2 i j).x, some (t2 i j).y, some (t2 i j).z] := by
  have h := quad_face_get rows cols t1 t2 buf hlen i j
  have e1 : 3 * (2 * (i * cols + j)) = (i * cols + j) * 6 + 0 := by omega
  have e2 : 3 * (2 * (i * cols + j) + 1) = (i * cols + j) * 6 + 3 := by omega
  constructor
  · rw [e1]
    exact take_three_drop _ _ _ _ _ (h 0 hi hj (by omega)) (h 1 hi hj (by omega))
      (h 2 hi hj (by omega))
  · rw [e2]
    exact take_three_drop _ _ _ _ _ (h 3 hi hj (by omega)) (h 4 hi hj (by omega))
      (h 5 hi hj (by omega))

end game

/-! ### Vertex and triangle counts of the torus and the sphere -/

namespace game

open glm

variable {F : Type}

theorem storeAll_written {α : Type} (p : Nat) (ws : List (Nat × α)) :
    ∀ buf : List (Option α), p < buf.length → (∃ x ∈ ws, x.1 = p) →
      ∃ v, (storeAll buf ws)[p]? = some (some v) := by
  induction ws with
  | nil => intro buf _ h; simp at h
  | cons w ws ih =>
    intro buf hlen h
    rw [storeAll_cons]
    by_cases hlater : ∃ x ∈ ws, x.1 = p
    · exact ih _ (by rw [List.length_set]; exact hlen) hlater
    · have hnot : ∀ x ∈ ws, x.1 ≠ p := fun x hx hxp => hlater ⟨x, hx, hxp⟩
      obtain ⟨x, hx, hxp⟩ := h
      have hw : w.1 = p := by
        rcases List.mem_cons.mp hx with h | h
        · exact h ▸ hxp
        · exact absurd hxp (hnot _ h)
      refine ⟨w.2, ?_⟩
      rw [storeAll_getElem_of_not_mem p ws _ hnot, hw]
      simp [List.getElem?_set, hlen]

theorem grid_vertex_writes_index (rows cols : Nat) (position normal color : Nat → Nat → vec3 F)
    (coord : Nat → Nat → vec2 F) (i j r : Nat) (hi : i < rows) (hj : j < cols) (hr : r < 11) :
    ∃ x ∈ grid_vertex_writes rows cols position normal color coord,
      x.1 = (i * cols + j) * 11 + r := by
  simp only [grid_vertex_writes, List.mem_flatMap, List.mem_range, List.mem_append,
    List.mem_cons, List.mem_singleton, List.not_mem_nil, or_false]
  have hcase : r < 3 ∨ (3 ≤ r ∧ r < 6) ∨ (6 ≤ r ∧ r < 9) ∨ r = 9 ∨ r = 10 := by omega
  rcases hcase with h | h | h | h | h
  · exact ⟨_, ⟨i, hi, j, hj, Or.inl ⟨r, h, Or.inl rfl⟩⟩, rfl⟩
  · exact ⟨_, ⟨i, hi, j, hj, Or.inl ⟨r - 3, by omega, Or.inr (Or.inl rfl)⟩⟩, by simp only; omega⟩
  · exact ⟨_, ⟨i, hi, j, hj, Or.inl ⟨r - 6, by omega, Or.inr (Or.inr rfl)⟩⟩, by simp only; omega⟩
  · exact ⟨_, ⟨i, hi, j, hj, Or.inr (Or.inl rfl)⟩, by simp only; omega⟩
  · exact ⟨_, ⟨i, hi, j, hj, Or.inr (Or.inr rfl)⟩, by simp only; omega⟩

/-- A vertex loop nest over `rows * cols` samples assigns every slot below
`11 * (rows * cols)`. -/
theorem grid_vertex_writes_covers (rows cols : Nat) (position normal color : Nat → Nat → vec3 F)
    (coord : Nat → Nat → vec2 F) (buf : List (Option F)) (p : Nat)
    (hp : p < 11 * (rows * cols)) (hlen : 11 * (rows * cols) ≤ buf.length) :
    ∃ v, (storeAll buf (grid_vertex_writes rows cols position normal color coord))[p]? =
      some (some v) := by
  have hc : 0 < cols := by
    rcases Nat.eq_zero_or_pos cols with h | h
    · subst h; simp at hp
    · exact h
  have hq : p / 11 < rows * cols := by
    rw [Nat.div_lt_iff_lt_mul (by omega)]; omega
  have hi : p / 11 / cols < rows := by
    rw [Nat.div_lt_iff_lt_mul hc]; exact hq
  have hj : p / 11 % cols < cols := Nat.mod_lt _ hc
  have hr : p % 11 < 11 := Nat.mod_lt _ (by omega)
  have hp' : p = (p / 11 / cols * cols + p / 11 % cols) * 11 + p % 11 := by
    rw [Nat.div_add_mod']; exact (Nat.div_add_mod' p 11).symm
  refine storeAll_written p _ buf (by omega) ?_
  rw [hp']
  exact grid_vertex_writes_index rows cols position normal color coord _ _ _ hi hj hr

/-- A triangle loop nest over `rows * cols` quads assigns every slot below
`6 * (rows * cols)`. -/
theorem quad_face_writes_covers (rows cols : Nat) (t1 t2 : Nat → Nat → vec3 Nat)
    (buf : List (Option Nat)) (p : Nat)
    (hp : p < 6 * (rows * cols)) (hlen : 6 * (rows * cols) ≤ buf.length) :
    ∃ v, (storeAll buf (quad_face_writes rows cols t1 t2))[p]? = some (some v) := by
  have hc : 0 < cols := by
    rcases Nat.eq_zero_or_pos cols with h | h
    · subst h; simp at hp
    · exact h
  have hq : p / 6 < rows * cols := by
    rw [Nat.div_lt_iff_lt_mul (by omega)]; omega
  have hi : p / 6 / cols < rows := by
    rw [Nat.div_lt_iff_lt_mul hc]; exact hq
  have hj : p / 6 % cols < cols := Nat.mod_lt _ hc
  have hr : p % 6 < 6 := Nat.mod_lt _ (by omega)
  have hp' : p = (p / 6 / cols * cols + p / 6 % cols) * 6 + p % 6 := by
    rw [Nat.div_add_mod']; exact (Nat.div_add_mod' p 6).symm
  have h := quad_face_get rows cols t1 t2 buf hlen _ _ _ hi hj hr
  rw [← hp'] at h
  exact ⟨_, h⟩

theorem torus_vertex_writes_eq [Field F] (fo : FloatOps F) (loop_radius circle_radius : F)
    (N M : Nat) : ∃ position normal color coord,
      torus_vertex_writes fo loop_radius circle_radius N M =
        grid_vertex_writes N M position normal color coord :=
  ⟨_, _, _, _, rfl⟩

theorem sphere_vertex_writes_eq [Field F] (fo : FloatOps F) (radius : F)
    (T P : Nat) : ∃ position normal color coord,
      sphere_vertex_writes fo radius T P = grid_vertex_writes T P position normal color coord :=
  ⟨_, _, _, _, rfl⟩

theorem GLuint_of_int_natCast (n : Nat) (h : n < 2 ^ 32) : GLuint_of_int (n : Int) = n := by
  unfold GLuint_of_int
  have : ((n : Int) % 2 ^ 32) = (n : Int) := Int.emod_eq_of_lt (by omega) (by exact_mod_cast h)
  rw [this]
  exact Int.toNat_natCast n

theorem GLsizei_of_GLuint_small (n : Nat) (h : n < 2 ^ 31) : GLsizei_of_GLuint n = (n : Int) := by
  unfold GLsizei_of_GLuint
  have : n % 2 ^ 32 = n := Nat.mod_eq_of_lt (by omega)
  rw [this, if_pos h]

end game

namespace game

open glm

variable {F : Type}

theorem CreateTorus_sizes (N M : Nat) (hsize : 11 * (N * M) < 2 ^ 31) :
    GLuint_of_int ((N : Int) * (M : Int)) * 11 % 2 ^ 32 = 11 * (N * M) ∧
    GLuint_of_int ((N : Int) * (M : Int) * 2) * 3 % 2 ^ 32 = 6 * (N * M) := by
  have hv : GLuint_of_int ((N : Int) * (M : Int)) = N * M := by
    rw [← Nat.cast_mul]; exact GLuint_of_int_natCast _ (by omega)
  have hf : GLuint_of_int ((N : Int) * (M : Int) * 2) = N * M * 2 := by
    have : ((N : Int) * (M : Int) * 2) = ((N * M * 2 : Nat) : Int) := by push_cast; ring
    rw [this]; exact GLuint_of_int_natCast _ (by omega)
  rw [hv, hf]
  constructor
  · rw [Nat.mod_eq_of_lt (by omega)]; omega
  · rw [Nat.mod_eq_of_lt (by omega)]; omega

theorem CreateTorus_counts [Field F] (fo : FloatOps F) (rm : ResourceManager) (vbo ebo : Nat)
    (name : String) (loop_radius circle_radius : F) (N M : Nat)
    (hsize : 11 * (N * M) < 2 ^ 31) :
    (CreateTorus fo rm vbo ebo name loop_radius circle_radius N M).2.vertex.length
        = 11 * (N * M) ∧
    (∀ p, p < 11 * (N * M) → ∃ x,
      (CreateTorus fo rm vbo ebo name loop_radius circle_radius N M).2.vertex[p]?
        = some (some x)) ∧
    (CreateTorus fo rm vbo ebo name loop_radius circle_radius N M).2.face.length
        = 3 * (2 * (N * M)) ∧
    (∀ p, p < 3 * (2 * (N * M)) → ∃ x,
      (CreateTorus fo rm vbo ebo name loop_radius circle_radius N M).2.face[p]?
        = some (some x)) ∧
    (CreateTorus fo rm vbo ebo name loop_radius circle_radius N M).1.resource_
        = rm.resource_ ++
          [⟨.Mesh, name, .buffers vbo ebo, ((3 * (2 * (N * M)) : Nat) : Int)⟩] := by
  have e6 : 3 * (2 * (N * M)) = 6 * (N * M) := by ring
  have hb : 6 * (N * M) < 2 ^ 31 := by omega
  obtain ⟨hvm, hfm⟩ := CreateTorus_sizes N M hsize
  obtain ⟨pos, nor, col, coord, hw⟩ :=
    torus_vertex_writes_eq fo loop_radius circle_radius N M
  simp only [CreateTorus, hvm, hfm, hw, torus_face_writes_eq, storeAll_length,
    uninitialized, List.length_replicate, AddResource, e6]
  refine ⟨trivial, ?_, trivial, ?_, ?_⟩
  · intro p hp
    exact grid_vertex_writes_covers N M pos nor col coord _ p hp
      (le_of_eq (List.length_replicate _ _).symm)
  · intro p hp
    exact quad_face_writes_covers N M _ _ _ p hp (le_of_eq (List.length_replicate _ _).symm)
  · rw [GLsizei_of_GLuint_small _ hb]

end game

namespace game

open glm

variable {F : Type}

theorem CreateSphere_sizes (T P : Nat) (hP : 1 ≤ P) (hsize : 11 * (T * P) < 2 ^ 31) :
    GLuint_of_int ((T : Int) * (P : Int)) * 11 % 2 ^ 32 = 11 * (T * P) ∧
    GLuint_of_int ((T : Int) * ((P : Int) - 1) * 2) * 3 % 2 ^ 32 = 6 * (T * (P - 1)) := by
  have hle : T * (P - 1) ≤ T * P := Nat.mul_le_mul_left _ (Nat.sub_le _ _)
  have hv : GLuint_of_int ((T : Int) * (P : Int)) = T * P := by
    rw [← Nat.cast_mul]; exact GLuint_of_int_natCast _ (by omega)
  have hf : GLuint_of_int ((T : Int) * ((P : Int) - 1) * 2) = T * (P - 1) * 2 := by
    have : ((T : Int) * ((P : Int) - 1) * 2) = ((T * (P - 1) * 2 : Nat) : Int) := by
      push_cast [Nat.cast_sub hP]; ring
    rw [this]; exact GLuint_of_int_natCast _ (by omega)
  rw [hv, hf]
  constructor
  · rw [Nat.mod_eq_of_lt (by omega)]; omega
  · rw [Nat.mod_eq_of_lt (by omega)]; omega

/-- The counts of `CreateSphere` when `P ≥ 1` and `11 * (T * P)` fits an `int`: `T * P`
vertices, `2 * T * (P - 1)` triangles, every slot assigned, and one Mesh resource of size
`3 * (2 * T * (P - 1))` pushed. -/
theorem CreateSphere_counts [Field F] (fo : FloatOps F) (rm : ResourceManager) (vbo ebo : Nat)
    (name : String) (radius : F) (T P : Nat) (hP : 1 ≤ P)
    (hsize : 11 * (T * P) < 2 ^ 31) :
    (CreateSphere fo rm vbo ebo name radius T P).2.vertex.length = 11 * (T * P) ∧
    (∀ p, p < 11 * (T * P) → ∃ x,
      (CreateSphere fo rm vbo ebo name radius T P).2.vertex[p]? = some (some x)) ∧
    (CreateSphere fo rm vbo ebo name radius T P).2.face.length = 3 * (2 * (T * (P - 1))) ∧
    (∀ p, p < 3 * (2 * (T * (P - 1))) → ∃ x,
      (CreateSphere fo rm vbo ebo name radius T P).2.face[p]? = some (some x)) ∧
    (CreateSphere fo rm vbo ebo name radius T P).1.resource_
        = rm.resource_ ++
          [⟨.Mesh, name, .buffers vbo ebo, ((3 * (2 * (T * (P - 1))) : Nat) : Int)⟩] := by
  have e6 : 3 * (2 * (T * (P - 1))) = 6 * (T * (P - 1)) := by ring
  have hle : T * (P - 1) ≤ T * P := Nat.mul_le_mul_left _ (Nat.sub_le _ _)
  have hb : 6 * (T * (P - 1)) < 2 ^ 31 := by omega
  obtain ⟨hvm, hfm⟩ := CreateSphere_sizes T P hP hsize
  obtain ⟨pos, nor, col, coord, hw⟩ := sphere_vertex_writes_eq fo radius T P
  simp only [CreateSphere, hvm, hfm, hw, sphere_face_writes_eq, storeAll_length,
    uninitialized, List.length_replicate, AddResource, e6]
  refine ⟨trivial, ?_, trivial, ?_, ?_⟩
  · intro p hp
    exact grid_vertex_writes_covers T P pos nor col coord _ p hp
      (le_of_eq (List.length_replicate _ _).symm)
  · intro p hp
    exact quad_face_writes_covers T (P - 1) _ _ _ p hp
      (le_of_eq (List.length_replicate _ _).symm)
  · rw [GLsizei_of_GLuint_small _ hb]

/-- The vertex array that `CreateTorus` allocates has `(N * M mod 2 ^ 32) * 11 mod 2 ^ 32`
floats, whatever the sample counts. -/
theorem CreateTorus_vertex_length [Field F] (fo : FloatOps F) (rm : ResourceManager)
    (vbo ebo : Nat) (name : String) (loop_radius circle_radius : F) (N M : Nat) :
    (CreateTorus fo rm vbo ebo name loop_radius circle_radius N M).2.vertex.length
      = GLuint_of_int ((N : Int) * (M : Int)) * 11 % 2 ^ 32 := by
  simp only [CreateTorus, storeAll_length, uninitialized, List.length_replicate]

/-- Claim C4 as stated fails: for `N = M = 20000` the product `vertex_num * vertex_att`
is `4400000000`, which wraps to `105032704` in `GLuint`, so the vertex array of
`CreateTorus` holds `105032704` floats and not `11 * N * M`. -/
theorem CreateTorus_counts_overflow :
    (CreateTorus rationalOps ⟨[]⟩ 1 2 "torus" (3 / 5) (1 / 5) 20000 20000).2.vertex.length
        = 105032704 ∧
      (105032704 : Nat) ≠ 11 * (20000 * 20000) := by
  refine ⟨?_, by norm_num⟩
  rw [CreateTorus_vertex_length]
  have h : ((20000 : Nat) : Int) * ((20000 : Nat) : Int) = ((400000000 : Nat) : Int) := by
    norm_num
  rw [h, GLuint_of_int_natCast _ (by norm_num)]
  norm_num

/-- Claim C4, amended: for `N, M ≥ 1` with `11 * N * M < 2 ^ 31`, `CreateTorus` builds
exactly `N * M` vertices and `2 * N * M` triangles, and for `T, P ≥ 1` with
`11 * T * P < 2 ^ 31`, `CreateSphere` builds exactly `T * P` vertices and
`2 * T * (P - 1)` triangles (arrays of these sizes with every slot assigned); each pushes
one Mesh resource whose size is three times its triangle count. -/
theorem CreateTorus_CreateSphere_counts [Field F] (fo : FloatOps F) (rm : ResourceManager)
    (vbo ebo : Nat) (name : String) (loop_radius circle_radius radius : F) (N M T P : Nat)
    (hP : 1 ≤ P) (hNM : 11 * (N * M) < 2 ^ 31) (hTP : 11 * (T * P) < 2 ^ 31) :
    ((CreateTorus fo rm vbo ebo name loop_radius circle_radius N M).2.vertex.length
        = 11 * (N * M) ∧
      (∀ p, p < 11 * (N * M) → ∃ x,
        (CreateTorus fo rm vbo ebo name loop_radius circle_radius N M).2.vertex[p]?
          = some (some x)) ∧
      (CreateTorus fo rm vbo ebo name loop_radius circle_radius N M).2.face.length
        = 3 * (2 * (N * M)) ∧
      (∀ p, p < 3 * (2 * (N * M)) → ∃ x,
        (CreateTorus fo rm vbo ebo name loop_radius circle_radius N M).2.face[p]?
          = some (some x)) ∧
      (CreateTorus fo rm vbo ebo name loop_radius circle_radius N M).1.resource_
        = rm.resource_ ++
          [⟨.Mesh, name, .buffers vbo ebo, ((3 * (2 * (N * M)) : Nat) : Int)⟩]) ∧
    ((CreateSphere fo rm vbo ebo name radius T P).2.vertex.length = 11 * (T * P) ∧
      (∀ p, p < 11 * (T * P) → ∃ x,
        (CreateSphere fo rm vbo ebo name radius T P).2.vertex[p]? = some (some x)) ∧
      (CreateSphere fo rm vbo ebo name radius T P).2.face.length
        = 3 * (2 * (T * (P - 1))) ∧
      (∀ p, p < 3 * (2 * (T * (P - 1))) → ∃ x,
        (CreateSphere fo rm vbo ebo name radius T P).2.face[p]? = some (some x)) ∧
      (CreateSphere fo rm vbo ebo name radius T P).1.resource_
        = rm.resource_ ++
          [⟨.Mesh, name, .buffers vbo ebo, ((3 * (2 * (T * (P - 1))) : Nat) : Int)⟩]) :=
  ⟨CreateTorus_counts fo rm vbo ebo name loop_radius circle_radius N M hNM,
   CreateSphere_counts fo rm vbo ebo name radius T P hP hTP⟩

/-- The default arguments of the two builders (90 by 30 torus, 90 by 45 sphere) are
within the bounds, and the counts are 2700 vertices with 5400 triangles and 4050 vertices
with 7920 triangles. -/
theorem CreateTorus_CreateSphere_counts_witness :
    (CreateTorus rationalOps ⟨[]⟩ 1 2 "mesh" (3 / 5) (1 / 5) 90 30).2.vertex.length
        = 11 * (90 * 30) ∧
    (CreateTorus rationalOps ⟨[]⟩ 1 2 "mesh" (3 / 5) (1 / 5) 90 30).2.face.length
        = 3 * (2 * (90 * 30)) ∧
    (CreateSphere rationalOps ⟨[]⟩ 1 2 "mesh" (3 / 5) 90 45).2.vertex.length
        = 11 * (90 * 45) ∧
    (CreateSphere rationalOps ⟨[]⟩ 1 2 "mesh" (3 / 5) 90 45).2.face.length
        = 3 * (2 * (90 * (45 - 1))) :=
  have h := CreateTorus_CreateSphere_counts rationalOps ⟨[]⟩ 1 2 "mesh" (3 / 5) (1 / 5)
    (3 / 5) 90 30 90 45 (by norm_num) (by norm_num) (by norm_num)
  ⟨h.1.1, h.1.2.2.1, h.2.1, h.2.2.2.1⟩

end game

/-! ### Triangle indices of the torus and the sphere pass through `float` -/

namespace game

open glm

variable {F : Type}

theorem CreateTorus_face [Field F] (fo : FloatOps F) (rm : ResourceManager) (vbo ebo : Nat)
    (name : String) (loop_radius circle_radius : F) (N M : Nat) :
    (CreateTorus fo rm vbo ebo name loop_radius circle_radius N M).2.face =
      storeAll (uninitialized Nat (GLuint_of_int ((N : Int) * (M : Int) * 2) * 3 % 2 ^ 32))
        (quad_face_writes N M (torus_t1 N M) (torus_t2 N M)) := rfl

theorem CreateSphere_face [Field F] (fo : FloatOps F) (rm : ResourceManager) (vbo ebo : Nat)
    (name : String) (radius : F) (T P : Nat) :
    (CreateSphere fo rm vbo ebo name radius T P).2.face =
      storeAll
        (uninitialized Nat (GLuint_of_int ((T : Int) * ((P : Int) - 1) * 2) * 3 % 2 ^ 32))
        (quad_face_writes T (P - 1) (sphere_t1 T P) (sphere_t2 T P)) := rfl

/-- The index array of `CreateTorus` is long enough for all `2 * N * M` triangles when
`11 * N * M` fits an `int`. -/
theorem CreateTorus_face_length (N M : Nat) (hsize : 11 * (N * M) < 2 ^ 31) :
    6 * (N * M) ≤
      (uninitialized Nat (GLuint_of_int ((N : Int) * (M : Int) * 2) * 3 % 2 ^ 32)).length := by
  rw [(CreateTorus_sizes N M hsize).2]
  exact le_of_eq (List.length_replicate _ _).symm

theorem CreateSphere_face_length (T P : Nat) (hP : 1 ≤ P) (hsize : 11 * (T * P) < 2 ^ 31) :
    6 * (T * (P - 1)) ≤
      (uninitialized Nat
        (GLuint_of_int ((T : Int) * ((P : Int) - 1) * 2) * 3 % 2 ^ 32)).length := by
  rw [(CreateSphere_sizes T P hP hsize).2]
  exact le_of_eq (List.length_replicate _ _).symm

theorem float_of_nat_16777219 : float_of_nat 16777219 = 16777220 := by
  norm_num [float_of_nat, Nat.log2]

theorem torus_t2_at : torus_t2 4 4194305 2 4194303 = ⟨16777218, 16777220, 12582914⟩ := by
  have h1 : float_of_nat 16777218 = 16777218 := by norm_num [float_of_nat, Nat.log2]
  have h3 : float_of_nat 12582914 = 12582914 := by norm_num [float_of_nat, Nat.log2]
  simp only [torus_t2]
  norm_num [float_of_nat_16777219, h1, h3]

theorem sphere_t2_at : sphere_t2 4 4194305 2 4194303 = ⟨16777218, 16777220, 12582914⟩ := by
  have h1 : float_of_nat 16777218 = 16777218 := by norm_num [float_of_nat, Nat.log2]
  have h3 : float_of_nat 12582914 = 12582914 := by norm_num [float_of_nat, Nat.log2]
  simp only [sphere_t2]
  norm_num [float_of_nat_16777219, h1, h3]

/-- Claim C5 at `N = 4, M = 4194305` (and `T = 4, P = 4194305`): slot 4 of quad
`(2, 4194303)` of the index array receives the `int` value 16777219 after it has been
stored in a `float`, that is 16777220, which is the vertex count `4 * 4194305` itself
and so not below it. -/
theorem CreateTorus_CreateSphere_index_eq_vertex_count :
    (CreateTorus rationalOps ⟨[]⟩ 1 2 "torus" (3 / 5) (1 / 5) 4 4194305).2.face[
        (2 * 4194305 + 4194303) * 6 + 4]? = some (some (4 * 4194305)) ∧
    (CreateSphere rationalOps ⟨[]⟩ 1 2 "sphere" (3 / 5) 4 4194305).2.face[
        (2 * (4194305 - 1) + 4194303) * 6 + 4]? = some (some (4 * 4194305)) := by
  constructor
  · rw [CreateTorus_face, quad_face_get 4 4194305 _ _ _
      (CreateTorus_face_length 4 4194305 (by norm_num)) 2 4194303 4 (by norm_num)
      (by norm_num) (by norm_num), torus_t2_at]
    rfl
  · rw [CreateSphere_face, quad_face_get 4 (4194305 - 1) _ _ _
      (CreateSphere_face_length 4 4194305 (by norm_num) (by norm_num)) 2 4194303 4
      (by norm_num) (by norm_num) (by norm_num), sphere_t2_at]
    rfl

/-- Claim C6 at `N = 4, M = 4194305`, quad `(2, 4194303)`: triangle number
`2 * (i * M + j) + 1` of the torus is `(16777218, 16777220, 12582914)`, while
`(v(i+1,j), v(i+1,j+1), v(i,j+1))` is `(16777218, 16777219, 12582914)`. -/
theorem CreateTorus_triangle_rounded :
    (CreateTorus rationalOps ⟨[]⟩ 1 2 "torus" (3 / 5) (1 / 5) 4 4194305).2.triangleAt
        (2 * (2 * 4194305 + 4194303) + 1) = [some 16777218, some 16777220, some 12582914] ∧
    ((2 + 1) % 4 * 4194305 + 4194303 % 4194305,
      (2 + 1) % 4 * 4194305 + (4194303 + 1) % 4194305,
      2 % 4 * 4194305 + (4194303 + 1) % 4194305) = (16777218, 16777219, 12582914) := by
  refine ⟨?_, by norm_num⟩
  unfold MeshBuffers.triangleAt
  rw [CreateTorus_face, (quad_face_triangles 4 4194305 _ _ _
    (CreateTorus_face_length 4 4194305 (by norm_num)) 2 4194303 (by norm_num)
    (by norm_num)).2, torus_t2_at]

/-- Claim C7 at `T = 4, P = 4194305`, quad `(2, 4194303)`: triangle number
`2 * (i * (P - 1) + j) + 1` of the sphere is `(16777218, 16777220, 12582914)`, while
`(w(i+1,j), w(i+1,j+1), w(i,j+1))` is `(16777218, 16777219, 12582914)`. -/
theorem CreateSphere_triangle_rounded :
    (CreateSphere rationalOps ⟨[]⟩ 1 2 "sphere" (3 / 5) 4 4194305).2.triangleAt
        (2 * (2 * (4194305 - 1) + 4194303) + 1)
      = [some 16777218, some 16777220, some 12582914] ∧
    ((2 + 1) % 4 * 4194305 + 4194303, (2 + 1) % 4 * 4194305 + (4194303 + 1),
      2 % 4 * 4194305 + (4194303 + 1)) = (16777218, 16777219, 12582914) := by
  refine ⟨?_, by norm_num⟩
  unfold MeshBuffers.triangleAt
  rw [CreateSphere_face, (quad_face_triangles 4 (4194305 - 1) _ _ _
    (CreateSphere_face_length 4 4194305 (by norm_num) (by norm_num)) 2 4194303 (by norm_num)
    (by norm_num)).2, sphere_t2_at]

end game

/-! ### Cylinder and plane -/

namespace game

open glm

variable {F : Type}

theorem storeAll_identity {α : Type} (n : Nat) (f : Nat → α) :
    storeAll (uninitialized α n) ((List.range n).map fun i => (i, f i)) =
      (List.range n).map fun i => some (f i) := by
  apply List.ext_getElem?
  intro m
  by_cases hm : m < n
  · rw [storeAll_getElem_of_mem m (f m) _ _
      (by rw [uninitialized, List.length_replicate]; exact hm)
      (List.mem_map.mpr ⟨m, List.mem_range.mpr hm, rfl⟩)]
    · rw [List.getElem?_map, List.getElem?_range hm]; rfl
    · intro x hx hxm
      obtain ⟨i, _, rfl⟩ := List.mem_map.mp hx
      simp only at hxm
      rw [hxm]
  · have h1 : (storeAll (uninitialized α n) ((List.range n).map fun i => (i, f i))).length
        ≤ m := by
      rw [storeAll_length, uninitialized, List.length_replicate]; omega
    rw [List.getElem?_eq_none h1,
      List.getElem?_eq_none (by rw [List.length_map, List.length_range]; omega)]

theorem cylinder_vertex_writes_index [Field F] (fo : FloatOps F) (colour : vec3 F) (p : Nat)
    (hp : p < 132 * 100) : ∃ x ∈ cylinder_vertex_writes fo colour, x.1 = p := by
  have hi : p / 132 < 100 := by omega
  have hj : p % 132 / 11 < 12 := by omega
  have hcase : p % 11 < 3 ∨ (3 ≤ p % 11 ∧ p % 11 < 6) ∨ (6 ≤ p % 11 ∧ p % 11 < 9) ∨
      (9 ≤ p % 11 ∧ p % 11 < 11) := by omega
  simp only [cylinder_vertex_writes, List.mem_flatMap, List.mem_range, List.mem_append,
    List.mem_cons, List.mem_singleton, List.not_mem_nil, or_false, List.mem_map]
  rcases hcase with h | h | h | h
  · exact ⟨_, ⟨p / 132, hi, Or.inl ⟨p % 132 / 11, hj, p % 11, h, Or.inl rfl⟩⟩,
      by simp only; omega⟩
  · exact ⟨_, ⟨p / 132, hi, Or.inl ⟨p % 132 / 11, hj, p % 11 - 3, by omega,
      Or.inr (Or.inl rfl)⟩⟩, by simp only; omega⟩
  · exact ⟨_, ⟨p / 132, hi, Or.inl ⟨p % 132 / 11, hj, p % 11 - 6, by omega,
      Or.inr (Or.inr rfl)⟩⟩, by simp only; omega⟩
  · exact ⟨_, ⟨p / 132, hi, Or.inr ⟨p % 132 / 11, hj, p % 11 - 9, by omega, rfl⟩⟩,
      by simp only; omega⟩

theorem cylinder_face [Field F] (fo : FloatOps F) (rm : ResourceManager) (vbo ebo : Nat)
    (name : String) (colour : vec3 F) :
    (CreateCylinder fo rm vbo ebo name colour).2.face =
      (List.range (4 * 100 * 3)).map some := by
  simp only [CreateCylinder, cylinder_face_writes]
  rw [storeAll_identity]
  apply List.map_congr_left
  intro i hi
  have hi2 : i < 4 * 100 * 3 := List.mem_range.mp hi
  rw [GLuint_of_int_natCast i (by omega)]

/-- Claim C8: `CreateCylinder` builds `12 * 100 = 1200` vertices (an array of
`11 * 1200` floats, every slot assigned) and `4 * 100 = 400` triangles; the index array
is `0, 1, ..., 1199`, so every vertex occurs exactly once in it and every index is below
the vertex count; the Mesh resource pushed has size 1200. -/
theorem CreateCylinder_counts [Field F] (fo : FloatOps F) (rm : ResourceManager)
    (vbo ebo : Nat) (name : String) (colour : vec3 F) :
    (CreateCylinder fo rm vbo ebo name colour).2.vertex.length = 11 * 1200 ∧
    (∀ p, p < 11 * 1200 → ∃ x,
      (CreateCylinder fo rm vbo ebo name colour).2.vertex[p]? = some (some x)) ∧
    (CreateCylinder fo rm vbo ebo name colour).2.face.length = 3 * 400 ∧
    (∀ i, i < 1200 →
      (CreateCylinder fo rm vbo ebo name colour).2.face[i]? = some (some i)) ∧
    (∀ v, v < 1200 →
      ∃! i : Nat, (CreateCylinder fo rm vbo ebo name colour).2.face[i]? = some (some v)) ∧
    (∀ x ∈ (CreateCylinder fo rm vbo ebo name colour).2.face,
      ∃ v, x = some v ∧ v < 1200) ∧
    (CreateCylinder fo rm vbo ebo name colour).1.resource_
      = rm.resource_ ++ [⟨.Mesh, name, .buffers vbo ebo, 1200⟩] := by
  have hface := cylinder_face fo rm vbo ebo name colour
  have e1 : (4 * 100 * 3 : Nat) = 1200 := by norm_num
  have e2 : (132 * 100 : Nat) = 11 * 1200 := by norm_num
  rw [e1] at hface
  refine ⟨?_, ?_, ?_, ?_, ?_, ?_, ?_⟩
  · simp only [CreateCylinder]
    rw [storeAll_length, uninitialized, List.length_replicate, e2]
  · intro p hp
    simp only [CreateCylinder]
    exact storeAll_written p _ _
      (by rw [uninitialized, List.length_replicate, e2]; exact hp)
      (cylinder_vertex_writes_index fo colour p (by rw [e2]; exact hp))
  · rw [hface, List.length_map, List.length_range]
  · intro i hi
    rw [hface, List.getElem?_map, List.getElem?_range hi]; rfl
  · intro v hv
    rw [hface]
    refine ⟨v, ?_, ?_⟩
    · show (List.map some (List.range 1200))[v]? = some (some v)
      rw [List.getElem?_map, List.getElem?_range hv]; rfl
    intro i hi
    have hi : (List.map some (List.range 1200))[i]? = some (some v) := hi
    by_cases hlt : i < 1200
    · rw [List.getElem?_map, List.getElem?_range hlt] at hi
      exact Option.some.inj (Option.some.inj hi)
    · rw [List.getElem?_eq_none (by rw [List.length_map, List.length_range]; omega)] at hi
      exact absurd hi (by simp)
  · intro x hx
    rw [hface] at hx
    obtain ⟨v, hv, rfl⟩ := List.mem_map.mp hx
    exact ⟨v, rfl, List.mem_range.mp hv⟩
  · simp only [CreateCylinder, AddResource]
    norm_num

end game
namespace game

open glm

variable {F : Type}

/-- Claim C9: for every colour `c`, `CreatePlane` emits 9 vertices and 8 triangles;
vertex `3 * a + b` has position `(-0.5 + 0.5 a, -0.5 + 0.5 b, 0)`, normal `(0, 0, -1)`,
colour `c` and texture coordinate `(0.5 a, 0.5 b)`; every triangle index is below 9 and
the resource pushed has size 24. -/
theorem CreatePlane_vertices [Field F] (h2 : (2 : F) ≠ 0) (rm : ResourceManager)
    (vbo ebo : Nat) (name : String) (c : vec3 F) :
    (CreatePlane rm vbo ebo name c).2.vertex.length = 11 * 9 ∧
    (CreatePlane rm vbo ebo name c).2.face.length = 3 * 8 ∧
    (∀ a b : Fin 3, (CreatePlane rm vbo ebo name c).2.vertexAt (3 * a + b) =
      [some (-(1 / 2) + 1 / 2 * (a : F)), some (-(1 / 2) + 1 / 2 * (b : F)), some 0,
       some 0, some 0, some (-1), some c.x, some c.y, some c.z,
       some (1 / 2 * (a : F)), some (1 / 2 * (b : F))]) ∧
    (∀ x ∈ (CreatePlane rm vbo ebo name c).2.face, ∃ v, x = some v ∧ v < 9) ∧
    (CreatePlane rm vbo ebo name c).1.resource_
      = rm.resource_ ++ [⟨.Mesh, name, .buffers vbo ebo, 24⟩] := by
  have e1 : (2 : F)⁻¹ * 2 = 1 := inv_mul_cancel₀ h2
  have e2 : -(2 : F)⁻¹ + 1 = 2⁻¹ := by field_simp; ring
  refine ⟨rfl, rfl, ?_, ?_, rfl⟩
  · intro a b
    fin_cases a <;> fin_cases b <;>
      simp [CreatePlane, MeshBuffers.vertexAt, e1, e2]
  · intro x hx
    simp only [CreatePlane, List.map_cons, List.map_nil, List.mem_cons, List.mem_singleton,
      List.not_mem_nil, or_false] at hx
    rcases hx with h | h | h | h | h | h | h | h | h | h | h | h | h | h | h | h | h | h |
      h | h | h | h | h | h <;> exact ⟨_, h, by norm_num⟩

/-- The plane over the rationals, in white. -/
theorem CreatePlane_vertices_witness :
    (CreatePlane ⟨[]⟩ 1 2 "plane" (⟨1, 1, 1⟩ : vec3 ℚ)).2.vertexAt (3 * 2 + 1) =
      [some (-(1 / 2) + 1 / 2 * 2), some (-(1 / 2) + 1 / 2 * 1), some 0,
       some 0, some 0, some (-1), some 1, some 1, some 1,
       some (1 / 2 * 2), some (1 / 2 * 1)] :=
  (CreatePlane_vertices (by norm_num) ⟨[]⟩ 1 2 "plane" (⟨1, 1, 1⟩ : vec3 ℚ)).2.2.1 2 1

end game

/-! ### The registry -/

namespace game

theorem GetResource_loop_some (name : String) :
    ∀ (l : List Resource) (i k : Nat), GetResource_loop name l i = some k ↔
      ∃ j r, k = i + j ∧ l[j]? = some r ∧ r.name_ = name ∧
        ∀ j2 r2, j2 < j → l[j2]? = some r2 → r2.name_ ≠ name := by
  intro l
  induction l with
  | nil => intro i k; simp [GetResource_loop]
  | cons a l ih =>
    intro i k
    unfold GetResource_loop
    by_cases ha : a.name_ = name
    · rw [if_pos ha]
      constructor
      · intro h
        refine ⟨0, a, ?_, List.getElem?_cons_zero, ha,
          fun j2 r2 h2 => absurd h2 (Nat.not_lt_zero _)⟩
        exact (Option.some.inj h).symm
      · rintro ⟨j, r, hk, hj, hr, hfirst⟩
        rcases j with _ | j
        · rw [hk]; rfl
        · exact absurd ha (hfirst 0 a (Nat.succ_pos _) List.getElem?_cons_zero)
    · rw [if_neg ha, ih]
      constructor
      · rintro ⟨j, r, hk, hj, hr, hfirst⟩
        refine ⟨j + 1, r, by omega, by rw [List.getElem?_cons_succ]; exact hj, hr, ?_⟩
        intro j2 r2 h2 hr2
        rcases j2 with _ | j2
        · rw [List.getElem?_cons_zero] at hr2
          exact Option.some.inj hr2 ▸ ha
        · rw [List.getElem?_cons_succ] at hr2
          exact hfirst j2 r2 (by omega) hr2
      · rintro ⟨j, r, hk, hj, hr, hfirst⟩
        rcases j with _ | j
        · rw [List.getElem?_cons_zero] at hj
          exact absurd hr (Option.some.inj hj ▸ ha)
        · rw [List.getElem?_cons_succ] at hj
          exact ⟨j, r, by omega, hj, hr, fun j2 r2 h2 hr2 =>
            hfirst (j2 + 1) r2 (by omega) (by rw [List.getElem?_cons_succ]; exact hr2)⟩

theorem GetResource_loop_none (name : String) :
    ∀ (l : List Resource) (i : Nat), GetResource_loop name l i = none ↔
      ∀ r ∈ l, r.name_ ≠ name := by
  intro l
  induction l with
  | nil => intro i; simp [GetResource_loop]
  | cons a l ih =>
    intro i
    unfold GetResource_loop
    by_cases ha : a.name_ = name
    · rw [if_pos ha]
      constructor
      · intro h; exact absurd h (by simp)
      · intro h; exact absurd ha (h a (List.mem_cons_self _ _))
    · rw [if_neg ha, ih]
      constructor
      · intro h r hr
        rcases List.mem_cons.mp hr with rfl | hr
        · exact ha
        · exact h r hr
      · intro h r hr
        exact h r (List.mem_cons_of_mem _ hr)

theorem GetResource_loop_append (name : String) (new : Resource) :
    ∀ (l : List Resource) (i : Nat), GetResource_loop name (l ++ [new]) i =
      match GetResource_loop name l i with
      | some k => some k
      | none => if new.name_ = name then some (i + l.length) else none := by
  intro l
  induction l with
  | nil => intro i; simp [GetResource_loop]
  | cons a l ih =>
    intro i
    rw [List.cons_append]
    unfold GetResource_loop
    by_cases ha : a.name_ = name
    · rw [if_pos ha, if_pos ha]
    · rw [if_neg ha, if_neg ha, ih, List.length_cons]
      have e : i + 1 + l.length = i + (l.length + 1) := by omega
      rw [e]

/-- Claim C21: `GetResource(name)` returns the entry at index `k` exactly when that entry
bears the name and no entry before it does (the first match in insertion order), and it
returns `NULL` exactly when no entry bears the name; being a total function, it always
returns. -/
theorem GetResource_first_match (rm : ResourceManager) (name : String) :
    (∀ k, GetResource rm name = some k ↔
      ∃ r, rm.resource_[k]? = some r ∧ r.name_ = name ∧
        ∀ j r2, j < k → rm.resource_[j]? = some r2 → r2.name_ ≠ name) ∧
    (GetResource rm name = none ↔ ∀ r ∈ rm.resource_, r.name_ ≠ name) := by
  refine ⟨fun k => ?_, GetResource_loop_none name rm.resource_ 0⟩
  unfold GetResource
  rw [GetResource_loop_some]
  constructor
  · rintro ⟨j, r, hk, hj, hr, hfirst⟩
    have hkj : k = j := by omega
    subst hkj
    exact ⟨r, hj, hr, hfirst⟩
  · rintro ⟨r, hk, hr, hfirst⟩
    exact ⟨k, r, by omega, hk, hr, hfirst⟩

/-- Claim C22: `AddResource` pushes one entry at the back and keeps the earlier entries
in place; afterwards `GetResource(m)` returns what it returned before when `m` was found
before, the new entry (at index `resource_.size()` of the old registry) when `m` is the
new name and was not found before, and `NULL` otherwise. -/
theorem AddResource_GetResource (rm : ResourceManager) (type : ResourceType) (n : String)
    (data : ResourceData) (size : Int) :
    (AddResource rm type n data size).resource_ = rm.resource_ ++ [⟨type, n, data, size⟩] ∧
    (∀ k, k < rm.resource_.length →
      (AddResource rm type n data size).resource_[k]? = rm.resource_[k]?) ∧
    (∀ m, GetResource (AddResource rm type n data size) m =
      match GetResource rm m with
      | some k => some k
      | none => if n = m then some rm.resource_.length else none) := by
  refine ⟨rfl, fun k hk => ?_, fun m => ?_⟩
  · show (rm.resource_ ++ [_])[k]? = _
    rw [List.getElem?_append_left hk]
  · unfold GetResource
    show GetResource_loop m (rm.resource_ ++ [_]) 0 = _
    rw [GetResource_loop_append, Nat.zero_add]

end game

/-! ### Orientation of a scene node -/

namespace glm

variable {F : Type}

/-- The product of two `glm::quat` is the Hamilton product, left factor first. -/
theorem quat.mul_toQuaternion [CommRing F] (p q : quat F) :
    (p.mul q).toQuaternion = p.toQuaternion * q.toQuaternion := by
  ext <;> simp [quat.mul, quat.toQuaternion] <;> ring

/-- A normalized quaternion has unit norm as soon as `sqrt` is a square root at the
squared length. -/
theorem quat.normalize_dot [LinearOrderedField F] (lib : FloatLib F) (q : quat F)
    (hsqrt : lib.sqrt (q.dot q) * lib.sqrt (q.dot q) = q.dot q) :
    (q.normalize lib).dot (q.normalize lib) = 1 := by
  unfold quat.normalize
  generalize lib.sqrt (q.dot q) = L at *
  by_cases hlen : L ≤ 0
  · simp only [hlen, if_true]
    simp [quat.dot]
  · simp only [hlen, if_false]
    have hne : L ≠ 0 := fun h => hlen (le_of_eq h)
    have e : quat.dot (⟨q.w * (1 / L), q.x * (1 / L), q.y * (1 / L), q.z * (1 / L)⟩ : quat F)
        ⟨q.w * (1 / L), q.x * (1 / L), q.y * (1 / L), q.z * (1 / L)⟩
        = q.dot q * ((1 / L) * (1 / L)) := by
      simp only [quat.dot]; ring
    rw [e, ← hsqrt]
    field_simp

end glm

namespace game

open glm

variable {F : Type}

theorem update_lookup (s : Scene F) (p : Nat) (f : SceneNode F → SceneNode F) (i : Nat) :
    (s.update p f).nodes[i]? = (s.nodes[i]?).map fun n => if p = i then f n else n := by
  simp only [Scene.update, List.getElem?_modify, Option.map_eq_map]

theorem update_self (s : Scene F) (p : Nat) (f : SceneNode F → SceneNode F) (n : SceneNode F)
    (h : s.nodes[p]? = some n) : (s.update p f).nodes[p]? = some (f n) := by
  rw [update_lookup, h]; simp

theorem update_other (s : Scene F) (p : Nat) (f : SceneNode F → SceneNode F) (i : Nat)
    (h : i ≠ p) : (s.update p f).nodes[i]? = s.nodes[i]? := by
  rw [update_lookup]
  cases s.nodes[i]? with
  | none => rfl
  | some n => simp [Ne.symm h]

/-- Claim C23: `Rotate(q)` replaces the orientation of the node by
`normalize(orientation * q)`, the product being the Hamilton product with the old
orientation as left factor; every other field of the node (position, scale, orbit,
parent, children) and every other node stay as they are. -/
theorem Rotate_orientation [LinearOrderedField F] (lib : FloatLib F) (s : Scene F)
    (this : Nat) (rot : quat F) (n : SceneNode F) (h : s.nodes[this]? = some n) :
    (Rotate lib s this rot).nodes[this]? =
        some { n with orientation_ := (n.orientation_.mul rot).normalize lib } ∧
      (n.orientation_.mul rot).toQuaternion = n.orientation_.toQuaternion * rot.toQuaternion ∧
      ∀ i, i ≠ this → (Rotate lib s this rot).nodes[i]? = s.nodes[i]? :=
  ⟨update_self s this _ n h, quat.mul_toQuaternion _ _, fun i hi => update_other s this _ i hi⟩

/-- The node of `singleScene`, rotated by the quaternion (3/5, 0, 0, 4/5). -/
theorem Rotate_orientation_witness :
    (Rotate pythagoreanLib singleScene 0 ⟨3 / 5, 0, 0, 4 / 5⟩).nodes[0]? =
        some { constructedNode "node" ⟨1, 2, 3⟩ quat_identity 0 with
          orientation_ := ((quat_identity : quat ℚ).mul ⟨3 / 5, 0, 0, 4 / 5⟩).normalize
            pythagoreanLib } :=
  (Rotate_orientation pythagoreanLib singleScene 0 ⟨3 / 5, 0, 0, 4 / 5⟩
    (constructedNode "node" ⟨1, 2, 3⟩ quat_identity 0) rfl).1

end game

namespace game

open glm

variable {F : Type}

theorem Pitch_lookup [LinearOrderedField F] (lib : FloatLib F) (s : Scene F) (this : Nat)
    (angle : F) (n : SceneNode F) (h : s.nodes[this]? = some n) :
    (Pitch lib s this angle).nodes[this]? = some { n with orientation_ :=
      ((angleAxis lib angle (GetSide n)).mul n.orientation_).normalize lib } :=
  update_self s this _ n h

theorem Yaw_lookup [LinearOrderedField F] (lib : FloatLib F) (s : Scene F) (this : Nat)
    (angle : F) (n : SceneNode F) (h : s.nodes[this]? = some n) :
    (Yaw lib s this angle).nodes[this]? = some { n with orientation_ :=
      ((angleAxis lib angle (GetUp lib n)).mul n.orientation_).normalize lib } :=
  update_self s this _ n h

theorem Roll_lookup [LinearOrderedField F] (lib : FloatLib F) (s : Scene F) (this : Nat)
    (angle : F) (n : SceneNode F) (h : s.nodes[this]? = some n) :
    (Roll lib s this angle).nodes[this]? = some { n with orientation_ :=
      ((angleAxis lib angle (GetForward n)).mul n.orientation_).normalize lib } :=
  update_self s this _ n h

/-- Claim C24 as stated fails for `SetOrientation`: the argument is stored as it is, so
after `SetOrientation(quat(2, 0, 0, 0))` the squared norm of the orientation is 4. -/
theorem SetOrientation_not_unit :
    ((SetOrientation exampleScene 0 ⟨2, 0, 0, 0⟩).nodes[0]?).map
      (fun n => n.orientation_.dot n.orientation_) = some 4 := by
  decide

/-- Claim C24, amended: after `Rotate`, `Pitch`, `Yaw` and `Roll`, for every argument,
the orientation of the node has unit norm (`sqrt` being a square root on the
non-negative numbers); `SetOrientation` is not among them. -/
theorem orientation_unit_norm [LinearOrderedField F] (lib : FloatLib F)
    (hsqrt : ∀ x : F, 0 ≤ x → lib.sqrt x * lib.sqrt x = x)
    (s : Scene F) (this : Nat) (n : SceneNode F) (h : s.nodes[this]? = some n)
    (rot : quat F) (angle : F) :
    (∃ m, (Rotate lib s this rot).nodes[this]? = some m ∧
      m.orientation_.dot m.orientation_ = 1) ∧
    (∃ m, (Pitch lib s this angle).nodes[this]? = some m ∧
      m.orientation_.dot m.orientation_ = 1) ∧
    (∃ m, (Yaw lib s this angle).nodes[this]? = some m ∧
      m.orientation_.dot m.orientation_ = 1) ∧
    (∃ m, (Roll lib s this angle).nodes[this]? = some m ∧
      m.orientation_.dot m.orientation_ = 1) := by
  have hpos : ∀ q : quat F, 0 ≤ q.dot q := fun q => by
    simp only [quat.dot]
    nlinarith [mul_self_nonneg q.x, mul_self_nonneg q.y, mul_self_nonneg q.z,
      mul_self_nonneg q.w]
  have key : ∀ q : quat F, (q.normalize lib).dot (q.normalize lib) = 1 :=
    fun q => quat.normalize_dot lib q (hsqrt _ (hpos q))
  exact ⟨⟨_, update_self s this _ n h, key _⟩, ⟨_, Pitch_lookup lib s this angle n h, key _⟩,
    ⟨_, Yaw_lookup lib s this angle n h, key _⟩, ⟨_, Roll_lookup lib s this angle n h, key _⟩⟩

/-- The four operations over the reals, with the real square root, on a node with the
identity orientation. -/
theorem orientation_unit_norm_witness :
    ∃ m, (Rotate (⟨⟨Real.pi, Real.cos, Real.sin⟩, Real.sqrt,
        fun x => (Real.sqrt x)⁻¹⟩ : FloatLib ℝ)
        ⟨[constructedNode "node" ⟨1, 2, 3⟩ quat_identity 0]⟩ 0 ⟨1, 2, 3, 4⟩).nodes[0]?
          = some m ∧ m.orientation_.dot m.orientation_ = 1 :=
  (orientation_unit_norm (⟨⟨Real.pi, Real.cos, Real.sin⟩, Real.sqrt,
      fun x => (Real.sqrt x)⁻¹⟩ : FloatLib ℝ)
    (fun _ hx => Real.mul_self_sqrt hx)
    ⟨[constructedNode "node" ⟨1, 2, 3⟩ quat_identity 0]⟩ 0
    (constructedNode "node" ⟨1, 2, 3⟩ quat_identity 0) rfl ⟨1, 2, 3, 4⟩ 1).1

end game

namespace glm

variable {F : Type}

theorem vec3.neg_def [Neg F] (a : vec3 F) : -a = ⟨-a.x, -a.y, -a.z⟩ := rfl

end glm

namespace game

open glm

variable {F : Type}

/-- Claim C25: `Pitch(a)` and `Yaw(a)` replace the orientation by
`normalize(angleAxis(a, axis) * orientation)`, the new rotation being the left factor of
the Hamilton product; the axis is `orientation * (1, 0, 0)` for `Pitch` and
`normalize(cross(orientation * (0, 0, 1), orientation * (1, 0, 0)))` for `Yaw`, both
computed from the orientation before the call. -/
theorem Pitch_Yaw_orientation [LinearOrderedField F] (lib : FloatLib F) (s : Scene F)
    (this : Nat) (angle : F) (n : SceneNode F) (h : s.nodes[this]? = some n)
    (hfwd : n.forward_ = ⟨0, 0, 1⟩) (hside : n.side_ = ⟨1, 0, 0⟩) :
    (Pitch lib s this angle).nodes[this]? = some { n with
        orientation_ := ((angleAxis lib angle (n.orientation_.rotate ⟨1, 0, 0⟩)).mul
          n.orientation_).normalize lib } ∧
    (Yaw lib s this angle).nodes[this]? = some { n with
        orientation_ := ((angleAxis lib angle (normalize lib
          (cross (n.orientation_.rotate ⟨0, 0, 1⟩) (n.orientation_.rotate ⟨1, 0, 0⟩)))).mul
            n.orientation_).normalize lib } ∧
    (∀ r : quat F,
      (r.mul n.orientation_).toQuaternion = r.toQuaternion * n.orientation_.toQuaternion) := by
  refine ⟨?_, ?_, fun r => quat.mul_toQuaternion _ _⟩
  · rw [Pitch_lookup lib s this angle n h]
    simp only [GetSide, hside]
  · rw [Yaw_lookup lib s this angle n h]
    simp only [GetUp, hside, hfwd]

/-- The node of `singleScene` under `Pitch` and `Yaw`. -/
theorem Pitch_Yaw_orientation_witness :
    (Pitch pythagoreanLib singleScene 0 1).nodes[0]? =
      some { constructedNode "node" ⟨1, 2, 3⟩ quat_identity 0 with
        orientation_ := ((angleAxis pythagoreanLib 1
          ((quat_identity : quat ℚ).rotate ⟨1, 0, 0⟩)).mul quat_identity).normalize
            pythagoreanLib } :=
  (Pitch_Yaw_orientation pythagoreanLib singleScene 0 1
    (constructedNode "node" ⟨1, 2, 3⟩ quat_identity 0) rfl rfl rfl).1

/-- Claim C26 as stated fails: `Roll` takes its axis from `GetForward()`, which is
`-(orientation * (0, 0, 1))`. On a node with the identity orientation and a half angle
of cosine 3/5 and sine 4/5, `Roll` leaves the orientation `(3/5, 0, 0, -4/5)`, while
`normalize(angleAxis(a, orientation * (0, 0, 1)) * orientation)` is `(3/5, 0, 0, 4/5)`. -/
theorem Roll_axis_negated :
    ((Roll pythagoreanLib singleScene 0 1).nodes[0]?).map (fun n => n.orientation_)
        = some ⟨3 / 5, 0, 0, -(4 / 5)⟩ ∧
    ((angleAxis pythagoreanLib 1 ((quat_identity : quat ℚ).rotate ⟨0, 0, 1⟩)).mul
        quat_identity).normalize pythagoreanLib = ⟨3 / 5, 0, 0, 4 / 5⟩ ∧
    (⟨3 / 5, 0, 0, -(4 / 5)⟩ : quat ℚ) ≠ ⟨3 / 5, 0, 0, 4 / 5⟩ := by
  refine ⟨?_, ?_, fun h => ?_⟩
  rotate_left 2
  · have hz := congrArg quat.z h
    norm_num at hz
  · rw [Roll_lookup pythagoreanLib singleScene 0 1
      (constructedNode "node" ⟨1, 2, 3⟩ quat_identity 0) rfl]
    norm_num [GetForward, constructedNode, quat_identity, quat.rotate, cross, vec3.scale,
      angleAxis, pythagoreanLib, quat.mul, quat.normalize, quat.dot, vec3.add_def,
      vec3.neg_def]
  · norm_num [quat_identity, quat.rotate, cross, vec3.scale,
      angleAxis, pythagoreanLib, quat.mul, quat.normalize, quat.dot, vec3.add_def]

/-- Claim C26, amended: `Roll(a)` replaces the orientation by
`normalize(angleAxis(a, f) * orientation)` where `f = -(orientation * (0, 0, 1))` is what
`GetForward()` returns: the local basis vector `(0, 0, 1)` rotated by the current
orientation and then negated. -/
theorem Roll_orientation [LinearOrderedField F] (lib : FloatLib F) (s : Scene F)
    (this : Nat) (angle : F) (n : SceneNode F) (h : s.nodes[this]? = some n)
    (hfwd : n.forward_ = ⟨0, 0, 1⟩) :
    (Roll lib s this angle).nodes[this]? = some { n with
        orientation_ := ((angleAxis lib angle (-(n.orientation_.rotate ⟨0, 0, 1⟩))).mul
          n.orientation_).normalize lib } ∧
    GetForward n = -(n.orientation_.rotate ⟨0, 0, 1⟩) := by
  constructor
  · rw [Roll_lookup lib s this angle n h]
    simp only [GetForward, hfwd]
  · simp only [GetForward, hfwd]

/-- The node of `singleScene` under `Roll`. -/
theorem Roll_orientation_witness :
    (Roll pythagoreanLib singleScene 0 1).nodes[0]? =
      some { constructedNode "node" ⟨1, 2, 3⟩ quat_identity 0 with
        orientation_ := ((angleAxis pythagoreanLib 1
          (-((quat_identity : quat ℚ).rotate ⟨0, 0, 1⟩))).mul quat_identity).normalize
            pythagoreanLib } :=
  (Roll_orientation pythagoreanLib singleScene 0 1
    (constructedNode "node" ⟨1, 2, 3⟩ quat_identity 0) rfl rfl).1

/-- Claim C27: on a node whose basis vectors are those the constructor sets,
`GetForward()` is `-(orientation * (0, 0, 1))`, `GetSide()` is `orientation * (1, 0, 0)`
and `GetUp()` is the normalized cross product of the rotated forward and side vectors;
for the identity orientation they are `(0, 0, -1)`, `(1, 0, 0)` and `(0, 1, 0)`
(`inversesqrt(1)` being 1). -/
theorem GetForward_GetSide_GetUp [CommRing F] (lib : FloatLib F) (n : SceneNode F)
    (hfwd : n.forward_ = ⟨0, 0, 1⟩) (hside : n.side_ = ⟨1, 0, 0⟩) :
    GetForward n = -(n.orientation_.rotate ⟨0, 0, 1⟩) ∧
    GetSide n = n.orientation_.rotate ⟨1, 0, 0⟩ ∧
    GetUp lib n = normalize lib (cross (n.orientation_.rotate ⟨0, 0, 1⟩)
      (n.orientation_.rotate ⟨1, 0, 0⟩)) ∧
    (n.orientation_ = quat_identity → lib.inversesqrt 1 = 1 →
      GetForward n = ⟨0, 0, -1⟩ ∧ GetSide n = ⟨1, 0, 0⟩ ∧ GetUp lib n = ⟨0, 1, 0⟩) := by
  refine ⟨by simp only [GetForward, hfwd], by simp only [GetSide, hside],
    by simp only [GetUp, hfwd, hside], fun hq hinv => ?_⟩
  have hrot : ∀ v : vec3 F, (quat_identity : quat F).rotate v = v := by
    intro v
    simp [quat.rotate, quat_identity, cross, vec3.scale, vec3.add_def]
  refine ⟨?_, ?_, ?_⟩
  · simp only [GetForward, hfwd, hq, hrot]
    simp [vec3.neg_def]
  · simp only [GetSide, hside, hq, hrot]
  · simp only [GetUp, hfwd, hside, hq, hrot]
    simp [glm.normalize, cross, dot, vec3.scale, hinv]

/-- The three axes of a freshly constructed node with the identity orientation. -/
theorem GetForward_GetSide_GetUp_witness :
    GetForward (constructedNode "node" (⟨1, 2, 3⟩ : vec3 ℚ) quat_identity 0) = ⟨0, 0, -1⟩ ∧
    GetSide (constructedNode "node" (⟨1, 2, 3⟩ : vec3 ℚ) quat_identity 0) = ⟨1, 0, 0⟩ ∧
    GetUp pythagoreanLib (constructedNode "node" (⟨1, 2, 3⟩ : vec3 ℚ) quat_identity 0)
      = ⟨0, 1, 0⟩ :=
  (GetForward_GetSide_GetUp pythagoreanLib
    (constructedNode "node" (⟨1, 2, 3⟩ : vec3 ℚ) quat_identity 0) rfl rfl).2.2.2 rfl rfl

end game

/-! ### Linking and finding nodes -/

namespace game

open glm

variable {F : Type}

/-- What `AddNode` does to the two nodes and what it leaves as it is. -/
theorem AddNode_fields (s : Scene F) (p c : Nat) (np nc : SceneNode F)
    (hp : s.nodes[p]? = some np) (hc : s.nodes[c]? = some nc) :
    (∃ np2, (AddNode s p c).nodes[p]? = some np2 ∧ np2.node_ = np.node_ ++ [c]) ∧
    (∃ nc2, (AddNode s p c).nodes[c]? = some nc2 ∧ nc2.parent_ = some p) ∧
    GetParent (AddNode s p c) c = some p ∧
    (∀ i n, s.nodes[i]? = some n → ∃ n2, (AddNode s p c).nodes[i]? = some n2 ∧
      n2.name_ = n.name_ ∧ n2.position_ = n.position_ ∧ n2.orientation_ = n.orientation_ ∧
      n2.scale_ = n.scale_ ∧ n2.orbit_ = n.orbit_ ∧ n2.forward_ = n.forward_ ∧
      n2.side_ = n.side_ ∧ (i ≠ p → n2.node_ = n.node_) ∧ (i ≠ c → n2.parent_ = n.parent_)) := by
  have hpc : ∃ nc2, (AddNode s p c).nodes[c]? = some nc2 ∧ nc2.parent_ = some p := by
    rw [AddNode_getElem, hc]
    exact ⟨_, rfl, by simp⟩
  refine ⟨?_, hpc, ?_, ?_⟩
  · rw [AddNode_getElem, hp]
    refine ⟨_, rfl, ?_⟩
    by_cases h : c = p <;> simp [h]
  · obtain ⟨nc2, h1, h2⟩ := hpc
    simp only [GetParent, h1, h2]
  · intro i n hi
    rw [AddNode_getElem, hi]
    refine ⟨_, rfl, ?_⟩
    by_cases h1 : p = i <;> by_cases h2 : c = i <;> simp [h1, h2, Ne.symm]

/-- Claim C28: `p.AddNode(c)` puts `c` at the end of the child list of `p`, keeping the
earlier children in order, and makes `p` the parent of `c`, so that `c.GetParent()`
returns `p`; names, positions, orientations, scales, orbits and basis vectors of all nodes
stay as they are, as do the child lists of the nodes other than `p` and the parents of
the nodes other than `c`. -/
theorem AddNode_links (s : Scene F) (p c : Nat) (np nc : SceneNode F)
    (hp : s.nodes[p]? = some np) (hc : s.nodes[c]? = some nc) :
    (∃ np2, (AddNode s p c).nodes[p]? = some np2 ∧ np2.node_ = np.node_ ++ [c]) ∧
    (∃ nc2, (AddNode s p c).nodes[c]? = some nc2 ∧ nc2.parent_ = some p) ∧
    GetParent (AddNode s p c) c = some p ∧
    (∀ i n, s.nodes[i]? = some n → ∃ n2, (AddNode s p c).nodes[i]? = some n2 ∧
      n2.name_ = n.name_ ∧ n2.position_ = n.position_ ∧ n2.orientation_ = n.orientation_ ∧
      n2.scale_ = n.scale_ ∧ n2.orbit_ = n.orbit_ ∧ n2.forward_ = n.forward_ ∧
      n2.side_ = n.side_ ∧ (i ≠ p → n2.node_ = n.node_) ∧ (i ≠ c → n2.parent_ = n.parent_)) :=
  AddNode_fields s p c np nc hp hc

/-- The link `A.AddNode(B)` of the example chain. -/
theorem AddNode_links_witness :
    GetParent linkedScene 2 = some 1 :=
  (AddNode_links (AddNode exampleScene 0 1) 1 2 _ _ rfl rfl).2.2.1

end game
namespace game

open glm

variable {F : Type}

theorem GetNode_loop_find (call : Nat → Option (Option Nat)) (f : Nat → List Nat)
    (q : Nat → Bool) :
    ∀ l : List Nat, (∀ c ∈ l, call c = some ((f c).find? q)) →
      GetNode_loop call l = some ((l.flatMap f).find? q) := by
  intro l
  induction l with
  | nil => intro _; rfl
  | cons c rest ih =>
    intro h
    have hc := h c (List.mem_cons_self _ _)
    have hrest := ih fun x hx => h x (List.mem_cons_of_mem _ hx)
    rw [List.flatMap_cons, List.find?_append]
    unfold GetNode_loop
    rw [hc]
    cases hfind : (f c).find? q with
    | some r => simp
    | none => simp [hrest]

theorem hasName_of_lookup (s : Scene F) (name : String) (this : Nat) (n : SceneNode F)
    (h : s.nodes[this]? = some n) : hasName s name this = decide (n.name_ = name) := by
  simp only [hasName, h]

/-- On a finite subtree `GetNode` returns, and its result is the first node of the
pre-order traversal that bears the name. -/
theorem GetNode_eq_find (s : Scene F) (name : String) (this h : Nat)
    (hh : HasHeight s this h) :
    GetNode s h this name = some ((preorder s h this).find? (hasName s name)) := by
  induction hh with
  | mk this h n hn _ ih =>
    unfold GetNode preorder
    simp only [hn]
    rw [List.find?_cons, hasName_of_lookup s name this n hn]
    by_cases hname : n.name_ = name
    · simp [hname]
    · simp only [hname, if_false, decide_False]
      exact GetNode_loop_find _ _ _ _ ih

theorem HasHeight.mono {s : Scene F} {this h : Nat} (hh : HasHeight s this h) :
    HasHeight s this (h + 1) := by
  induction hh with
  | mk this h n hn _ ih => exact HasHeight.mk this (h + 1) n hn ih

theorem Reaches.mem_preorder {s : Scene F} {a x : Nat} (hr : Reaches s a x) :
    ∀ h, HasHeight s a h → x ∈ preorder s h a := by
  induction hr with
  | refl a =>
    intro h hh
    cases hh with
    | mk _ h n hn hch =>
      unfold preorder
      simp only [hn]
      exact List.mem_cons_self _ _
  | step a c x n hn hc _ ih =>
    intro h hh
    cases hh with
    | mk _ h n2 hn2 hch =>
      have hnn : n2 = n := Option.some.inj (hn2.symm.trans hn)
      subst hnn
      unfold preorder
      simp only [hn2]
      exact List.mem_cons_of_mem _ (List.mem_flatMap.mpr ⟨c, hc, ih h (hch c hc)⟩)

/-- Claim C29: on a finite subtree (every chain of child pointers from `n` ends within
`h` nodes), `n.GetNode(name)` returns, its result is the first node in pre-order (`n`
first, then the subtrees of the children in insertion order) that bears the name, and
it is `NULL` exactly when no node of the subtree bears the name. -/
theorem GetNode_preorder (s : Scene F) (name : String) (this h : Nat)
    (hh : HasHeight s this h) :
    GetNode s h this name = some ((preorder s h this).find? (hasName s name)) ∧
    (GetNode s h this name = some none ↔
      ∀ i ∈ preorder s h this, hasName s name i = false) ∧
    (∀ k, GetNode s h this name = some (some k) →
      k ∈ preorder s h this ∧ hasName s name k = true) := by
  have hfind := GetNode_eq_find s name this h hh
  refine ⟨hfind, ?_, ?_⟩
  · rw [hfind]
    constructor
    · intro hnone i hi
      have := List.find?_eq_none.mp (Option.some.inj hnone) i hi
      simpa using this
    · intro hall
      congr 1
      exact List.find?_eq_none.mpr fun i hi => by simp [hall i hi]
  · intro k hk
    rw [hfind] at hk
    have hk2 := Option.some.inj hk
    exact ⟨List.mem_of_find?_eq_some hk2, List.find?_some hk2⟩

theorem linkedScene_height : HasHeight linkedScene 0 3 :=
  HasHeight.mk 0 2 _ rfl fun c hc => by
    have hc1 : c ∈ ([1] : List Nat) := hc
    rw [List.mem_singleton] at hc1
    subst hc1
    exact HasHeight.mk 1 1 _ rfl fun c hc => by
      have hc2 : c ∈ ([2] : List Nat) := hc
      rw [List.mem_singleton] at hc2
      subst hc2
      exact HasHeight.mk 2 0 _ rfl fun c hc => by
        have hc3 : c ∈ ([] : List Nat) := hc
        exact absurd hc3 (List.not_mem_nil c)

/-- In the example chain root → A → B, `root.GetNode("B")` returns the node B. -/
theorem GetNode_preorder_witness :
    GetNode linkedScene 3 0 "B" = some ((preorder linkedScene 3 0).find?
      (hasName linkedScene "B")) :=
  (GetNode_preorder linkedScene "B" 0 3 linkedScene_height).1

end game

namespace game

open glm

variable {F : Type}

theorem Reaches.trans {s : Scene F} {a b c : Nat} (hab : Reaches s a b)
    (hbc : Reaches s b c) : Reaches s a c := by
  induction hab with
  | refl a => exact hbc
  | step a x y n hn hx _ ih => exact Reaches.step a x c n hn hx (ih hbc)

/-- Claim C30 as stated fails when names repeat: with node 1 (called "x") already a
child of the root, `root.AddNode(c)` for node 2 (also called "x") is followed by
`root.GetNode("x")` returning node 1 and not `c`. -/
theorem AddNode_GetNode_duplicate_name :
    GetNode (AddNode (AddNode twinScene 0 1) 0 2) 2 0 "x" = some (some 1) ∧
    hasName (AddNode (AddNode twinScene 0 1) 0 2) "x" 2 = true := by
  decide

/-- Claim C30, amended: after `p.AddNode(c)`, for `p` and for every node `a` from which
`p` is reached through child lists, if the subtree of `a` is finite and `c` is the only
node in it that bears the name of `c`, then `a.GetNode(name of c)` returns `c`. -/
theorem AddNode_GetNode (s : Scene F) (p c a h : Nat) (np nc : SceneNode F)
    (hp : s.nodes[p]? = some np) (hc : s.nodes[c]? = some nc)
    (hreach : Reaches (AddNode s p c) a p) (hh : HasHeight (AddNode s p c) a h)
    (huniq : ∀ i ∈ preorder (AddNode s p c) h a,
      hasName (AddNode s p c) nc.name_ i = true → i = c) :
    GetNode (AddNode s p c) h a nc.name_ = some (some c) := by
  obtain ⟨⟨np2, hp2, hnode⟩, _, _, hkeep⟩ := AddNode_fields s p c np nc hp hc
  obtain ⟨nc2, hc2, hname, _⟩ := hkeep c nc hc
  have hpc : Reaches (AddNode s p c) p c :=
    Reaches.step p c c np2 hp2 (by rw [hnode]; simp) (Reaches.refl c)
  have hac : Reaches (AddNode s p c) a c := hreach.trans hpc
  have hmem : c ∈ preorder (AddNode s p c) h a := hac.mem_preorder h hh
  have hcname : hasName (AddNode s p c) nc.name_ c = true := by
    rw [hasName_of_lookup _ _ c nc2 hc2, hname]; simp
  rw [GetNode_eq_find _ _ _ _ hh]
  cases hfind : (preorder (AddNode s p c) h a).find? (hasName (AddNode s p c) nc.name_) with
  | none => exact absurd hcname (by simpa using List.find?_eq_none.mp hfind c hmem)
  | some k =>
    rw [huniq k (List.mem_of_find?_eq_some hfind) (List.find?_some hfind)]

/-- In the example chain, after `A.AddNode(B)` the root finds B under its name. -/
theorem AddNode_GetNode_witness : GetNode linkedScene 3 0 "B" = some (some 2) :=
  AddNode_GetNode (AddNode exampleScene 0 1) 1 2 0 3 _ (exampleNode "B" ⟨0, 0, 1⟩) rfl rfl
    (Reaches.step 0 1 1 _ rfl (List.mem_singleton.mpr rfl) (Reaches.refl 1))
    linkedScene_height (by decide)

end game

/-! ### Parsing mesh files -/

namespace game

open glm

variable {F : Type}

theorem decimalLib_extract (s : List Char) (n : Nat) (h : decimal_value s = some n)
    (hn : n ≤ 2 ^ 24) : decimalLib.extract s = some (n : ℚ) := by
  simp only [decimalLib, h, Option.map_some', float_of_nat_exact n hn]

/-- For a number up to `2 ^ 24` the difference `n - 1` is a `float`, and its conversion
to `int` is `n - 1`. -/
theorem decimalLib_to_int (n : Nat) (hn : n ≤ 2 ^ 24) :
    decimalLib.to_int (decimalLib.sub (n : ℚ) 1) = (n : Int) - 1 := by
  rcases Nat.eq_zero_or_pos n with h0 | hpos
  · subst h0
    have e : decimalLib.sub ((0 : Nat) : ℚ) 1 = -1 := by
      simp only [decimalLib]
      norm_num
      exact float_of_nat_exact 1 (by norm_num)
    rw [e]
    simp only [decimalLib]
    have h : (-1 : ℚ) = ((-1 : Int) : ℚ) := by norm_num
    rw [if_neg (by norm_num), h, Int.ceil_intCast]
    norm_num
  · have e : decimalLib.sub (n : ℚ) 1 = (((n - 1 : Nat) : Int) : ℚ) := by
      have h1 : (n : ℚ) - 1 = (((n - 1 : Nat) : Int) : ℚ) := by
        push_cast [Nat.cast_sub hpos]; ring
      have h2 : (0 : ℚ) ≤ (((n - 1 : Nat) : Int) : ℚ) := by positivity
      simp only [decimalLib]
      rw [h1, if_pos h2, Int.floor_intCast, Int.toNat_natCast,
        float_of_nat_exact (n - 1) (by omega)]
      push_cast
      rfl
    rw [e]
    simp only [decimalLib]
    rw [if_pos (by positivity), Int.floor_intCast]
    omega

/-- A reference that consists of decimal digits only, for a number up to `2 ^ 24`,
gives the position index one less and no texture and normal index. -/
theorem parse_reference_digits (what : String) (s : List Char) (n : Nat)
    (hsplit : string_split_once s ['/'] = [s]) (hc : c_str s = s)
    (h : decimal_value s = some n) (hn : n ≤ 2 ^ 24) :
    parse_reference decimalLib what s = .ok ((n : Int) - 1, -1, -1) := by
  simp only [parse_reference, hsplit, hc, str_to_num, decimalLib_extract s n h hn]
  simp only [bind, Except.bind, pure, Except.pure, decimalLib_to_int n hn]

/-- A line that splits into `f` and four references whose fields can be read appends two
triangles: corners 0, 1, 2 and corners 0, 2, 3 of the quad, each corner with its own
position, texture and normal index. -/
theorem parse_line_quad [Field F] (lib : MeshLib F) (st : TriMesh F × Bool) (line : List Char)
    (r0 r1 r2 r3 : List Char) (q0 q1 q2 q3 : Int × Int × Int)
    (hcond : ¬ (line.length ≤ 0 ∨ line.head? = some '#'))
    (hsplit : string_split line [' ', '\t'] = [['f'], r0, r1, r2, r3])
    (h0 : parse_reference lib
      "Error: f parameter should have 1 or 3 parameters separated by '/'" r0 = .ok q0)
    (h1 : parse_reference lib
      "Error: f parameter should have 1 or 3 parameters separated by '/'" r1 = .ok q1)
    (h2 : parse_reference lib
      "Error: f parameter should have 1 or 3 parameters separated by '/'" r2 = .ok q2)
    (h3 : parse_reference lib
      "Error: f parameter should have 1 or 3 parameters separated by '/'" r3 = .ok q3) :
    parse_line lib st line = .ok ({ st.1 with face := st.1.face ++
      [Face.ofCorners q0 q1 q2, Face.ofCorners q0 q2 q3] }, st.2) := by
  unfold parse_line
  rw [if_neg hcond]
  simp only [hsplit, List.head?_cons, List.length_cons, List.length_nil, List.getD_cons_succ,
    List.getD_cons_zero]
  rw [if_neg (by decide), if_neg (by decide), if_neg (by decide), if_pos (by decide),
    if_pos (by decide), if_neg (by decide), if_pos (by decide)]
  rw [h0, h1, h2, h3]
  rfl

theorem parse_reference_16777217 (what : String) :
    parse_reference decimalLib what "16777217".toList = .ok (16777215, -1, -1) := by
  have hsplit : string_split_once "16777217".toList ['/'] = ["16777217".toList] := by decide
  have hc : c_str "16777217".toList = "16777217".toList := by decide
  have hx : decimalLib.extract "16777217".toList = some 16777216 := by
    simp [decimalLib, decimal_value]
    norm_num [float_of_nat, Nat.log2]
  simp only [parse_reference, hsplit, hc, str_to_num, hx]
  simp only [bind, Except.bind, pure, Except.pure]
  have e : (16777216 : ℚ) = ((16777216 : Nat) : ℚ) := by norm_num
  rw [e, decimalLib_to_int 16777216 (by norm_num)]
  norm_num

/-- Claim C10 on the line `f 16777217 2 3 4`: the first reference is read as a `float`,
which holds 16777216, so the two triangles appended are (16777215, 1, 2) and
(16777215, 2, 3), while (a-1, b-1, c-1) and (a-1, c-1, d-1) are (16777216, 1, 2) and
(16777216, 2, 3). -/
theorem parse_line_quad_rounded (st : TriMesh ℚ × Bool) :
    parse_line decimalLib st "f 16777217 2 3 4".toList =
      .ok ({ st.1 with face := st.1.face ++
        [⟨(16777215, 1, 2), (-1, -1, -1), (-1, -1, -1)⟩,
         ⟨(16777215, 2, 3), (-1, -1, -1), (-1, -1, -1)⟩] }, st.2) := by
  have hsplit : string_split "f 16777217 2 3 4".toList [' ', '\t'] =
      ["f".toList, "16777217".toList, "2".toList, "3".toList, "4".toList] := by decide
  have hcond : ¬ (("f 16777217 2 3 4".toList).length ≤ 0 ∨
      ("f 16777217 2 3 4".toList).head? = some '#') := by decide
  have h1 := parse_reference_16777217
    "Error: f parameter should have 1 or 3 parameters separated by '/'"
  have h2 := parse_reference_digits
    "Error: f parameter should have 1 or 3 parameters separated by '/'" "2".toList 2
    (by decide) (by decide) (by decide) (by norm_num)
  have h3 := parse_reference_digits
    "Error: f parameter should have 1 or 3 parameters separated by '/'" "3".toList 3
    (by decide) (by decide) (by decide) (by norm_num)
  have h4 := parse_reference_digits
    "Error: f parameter should have 1 or 3 parameters separated by '/'" "4".toList 4
    (by decide) (by decide) (by decide) (by norm_num)
  unfold parse_line
  rw [if_neg hcond]
  simp only [hsplit, List.head?_cons, List.length_cons, List.length_nil, List.getD_cons_succ,
    List.getD_cons_zero]
  rw [if_neg (by decide), if_neg (by decide), if_neg (by decide), if_pos (by decide),
    if_pos (by decide), if_neg (by decide), if_pos (by decide)]
  rw [h1, h2, h3, h4]
  rfl

end game

/-! ### Loading a mesh -/

namespace game

open glm

variable {F : Type}

/-- A line that splits into `v` and at least three fields that can be read appends the
position made of the first three; further fields are not looked at. -/
theorem parse_line_v [Field F] (lib : MeshLib F) (st : TriMesh F × Bool) (line : List Char)
    (a b c : List Char) (rest : List (List Char)) (x y z : F)
    (hcond : ¬ (line.length ≤ 0 ∨ line.head? = some '#'))
    (hsplit : string_split line [' ', '\t'] = ['v'] :: a :: b :: c :: rest)
    (hx : lib.extract (c_str a) = some x) (hy : lib.extract (c_str b) = some y)
    (hz : lib.extract (c_str c) = some z) :
    parse_line lib st line =
      .ok ({ st.1 with position := st.1.position ++ [⟨x, y, z⟩] }, st.2) := by
  unfold parse_line
  rw [if_neg hcond]
  simp only [hsplit, List.head?_cons, List.length_cons, List.getD_cons_succ,
    List.getD_cons_zero]
  rw [if_pos trivial, if_pos (by omega)]
  simp only [str_to_num, hx, hy, hz]
  rfl

/-- A line that splits into `f` and three references whose fields can be read appends
the triangle of the three corners. -/
theorem parse_line_triangle [Field F] (lib : MeshLib F) (st : TriMesh F × Bool)
    (line : List Char) (r0 r1 r2 : List Char) (c0 c1 c2 : Int × Int × Int)
    (hcond : ¬ (line.length ≤ 0 ∨ line.head? = some '#'))
    (hsplit : string_split line [' ', '\t'] = [['f'], r0, r1, r2])
    (h0 : parse_reference lib
      "Error: f parameter should have 1, 2, or 3 parameters separated by '/'" r0 = .ok c0)
    (h1 : parse_reference lib
      "Error: f parameter should have 1, 2, or 3 parameters separated by '/'" r1 = .ok c1)
    (h2 : parse_reference lib
      "Error: f parameter should have 1, 2, or 3 parameters separated by '/'" r2 = .ok c2) :
    parse_line lib st line =
      .ok ({ st.1 with face := st.1.face ++ [Face.ofCorners c0 c1 c2] }, st.2) := by
  unfold parse_line
  rw [if_neg hcond]
  simp only [hsplit, List.head?_cons, List.length_cons, List.length_nil, List.getD_cons_succ,
    List.getD_cons_zero]
  rw [if_neg (by decide), if_neg (by decide), if_neg (by decide), if_pos (by decide),
    if_pos (by decide), if_neg (by decide), if_neg (by decide)]
  rw [h0, h1, h2]
  rfl

/-- The normal that `LoadMesh` copies to corner `j` of a face. -/
theorem corner_att_inv [Field F] (mesh : TriMesh F) (added_normal : Bool) (f : Face)
    (j : Nat) (a : List F) (h : corner_att mesh added_normal f j = .ok a) :
    ∃ (nrm : vec3 F) (tex : vec2 F),
      (if !added_normal then (.ok (mesh.normal.getD (int3_get f.i j).toNat 0) : Except Abort (vec3 F))
        else if int3_get f.n j ≥ 0 then vector_at mesh.normal (int3_get f.n j)
        else .ok 0) = .ok nrm ∧
      a = [(mesh.position.getD (int3_get f.i j).toNat 0).x,
        (mesh.position.getD (int3_get f.i j).toNat 0).y,
        (mesh.position.getD (int3_get f.i j).toNat 0).z, nrm.x, nrm.y, nrm.z, 0, 0, 0,
        tex.x, tex.y] := by
  unfold corner_att at h
  simp only [bind, Except.bind, pure, Except.pure] at h
  cases added_normal
  · simp only [Bool.not_false, ↓reduceIte] at h ⊢
    split at h
    · split at h
      · cases h
      · exact ⟨_, _, rfl, (Except.ok.inj h).symm⟩
    · exact ⟨_, ⟨0, 0⟩, rfl, (Except.ok.inj h).symm⟩
  · simp only [Bool.not_true, Bool.false_eq_true, ↓reduceIte] at h ⊢
    split at h
    · split at h
      · cases h
      · rename_i v hv
        split at h
        · split at h
          · cases h
          · exact ⟨v, _, by rw [if_pos (by assumption), hv], (Except.ok.inj h).symm⟩
        · exact ⟨v, ⟨0, 0⟩, by rw [if_pos (by assumption), hv], (Except.ok.inj h).symm⟩
    · split at h
      · split at h
        · cases h
        · exact ⟨0, _, by rw [if_neg (by assumption)], (Except.ok.inj h).symm⟩
      · exact ⟨0, ⟨0, 0⟩, by rw [if_neg (by assumption)], (Except.ok.inj h).symm⟩

theorem corner_att_length [Field F] (mesh : TriMesh F) (added_normal : Bool) (f : Face)
    (j : Nat) (a : List F) (h : corner_att mesh added_normal f j = .ok a) : a.length = 11 := by
  obtain ⟨nrm, tex, _, ha⟩ := corner_att_inv mesh added_normal f j a h
  rw [ha]; rfl

theorem face_att_inv [Field F] (mesh : TriMesh F) (added_normal : Bool) (f : Face)
    (att : List F) (h : face_att mesh added_normal f = .ok att) :
    ∃ a0 a1 a2, corner_att mesh added_normal f 0 = .ok a0 ∧
      corner_att mesh added_normal f 1 = .ok a1 ∧
      corner_att mesh added_normal f 2 = .ok a2 ∧ att = a0 ++ a1 ++ a2 := by
  unfold face_att at h
  cases h0 : corner_att mesh added_normal f 0 with
  | error e => rw [h0] at h; cases h
  | ok a0 =>
    cases h1 : corner_att mesh added_normal f 1 with
    | error e => rw [h0, h1] at h; cases h
    | ok a1 =>
      cases h2 : corner_att mesh added_normal f 2 with
      | error e => rw [h0, h1, h2] at h; cases h
      | ok a2 =>
        rw [h0, h1, h2] at h
        exact ⟨a0, a1, a2, rfl, rfl, rfl, (Except.ok.inj h).symm⟩

theorem drop_take_append_left {α : Type} (a rest : List α) (n : Nat) (h : a.length = n) :
    ((a ++ rest).drop 0).take n = a := by
  rw [List.drop_zero, List.take_append_eq_append_take, ← h, List.take_length]
  simp

/-- The vertex buffer holds 33 floats per face, and the 11 floats from position
`11 * (3 * k + j)` on are those of corner `j` of face `k`. -/
theorem emit_vertices_layout [Field F] (mesh : TriMesh F) (added_normal : Bool) :
    ∀ (faces : List Face) (vertex : List F),
      emit_vertices mesh added_normal faces = .ok vertex →
      vertex.length = 33 * faces.length ∧
      ∀ k f j, faces[k]? = some f → j < 3 →
        ∃ a, corner_att mesh added_normal f j = .ok a ∧
          (vertex.drop (11 * (3 * k + j))).take 11 = a := by
  intro faces
  induction faces with
  | nil =>
    intro vertex h
    have hv : vertex = [] := (Except.ok.inj h).symm
    subst hv
    exact ⟨rfl, fun k f j hk => by simp at hk⟩
  | cons g rest ih =>
    intro vertex h
    unfold emit_vertices at h
    cases hg : face_att mesh added_normal g with
    | error e => rw [hg] at h; cases h
    | ok att =>
      cases hr : emit_vertices mesh added_normal rest with
      | error e => rw [hg, hr] at h; cases h
      | ok atts =>
        rw [hg, hr] at h
        have hv : vertex = att ++ atts := (Except.ok.inj h).symm
        subst hv
        obtain ⟨a0, a1, a2, h0, h1, h2, hatt⟩ := face_att_inv mesh added_normal g att hg
        have l0 := corner_att_length mesh added_normal g 0 a0 h0
        have l1 := corner_att_length mesh added_normal g 1 a1 h1
        have l2 := corner_att_length mesh added_normal g 2 a2 h2
        have latt : att.length = 33 := by rw [hatt]; simp [l0, l1, l2]
        obtain ⟨hlen, hget⟩ := ih atts hr
        refine ⟨by rw [List.length_append, latt, hlen, List.length_cons]; ring, ?_⟩
        intro k f j hk hj
        rcases k with _ | k
        · have hfg : g = f := by simpa using hk
          subst hfg
          have hcase : j = 0 ∨ j = 1 ∨ j = 2 := by omega
          subst hatt
          rcases hcase with rfl | rfl | rfl
          · refine ⟨a0, h0, ?_⟩
            simp [List.take_append_eq_append_take, l0]
          · refine ⟨a1, h1, ?_⟩
            have e : 11 * (3 * 0 + 1) = a0.length := by rw [l0]
            rw [e, List.append_assoc, List.append_assoc, List.drop_left]
            simp [List.take_append_eq_append_take, l1]
          · refine ⟨a2, h2, ?_⟩
            have e : 11 * (3 * 0 + 2) = (a0 ++ a1).length := by
              rw [List.length_append, l0, l1]
            rw [e, List.append_assoc (a0 ++ a1), List.drop_left]
            simp [List.take_append_eq_append_take, l2]
        · rw [List.getElem?_cons_succ] at hk
          obtain ⟨a, ha, hd⟩ := hget k f j hk hj
          refine ⟨a, ha, ?_⟩
          have e : 11 * (3 * (k + 1) + j) = att.length + 11 * (3 * k + j) := by
            rw [latt]; ring
          rw [e, List.drop_append]
          exact hd

theorem emit_vertices_length [Field F] (mesh : TriMesh F) (added_normal : Bool)
    (faces : List Face) (atts : List F)
    (h : emit_vertices mesh added_normal faces = .ok atts) :
    atts.length = 33 * faces.length :=
  (emit_vertices_layout mesh added_normal faces atts h).1

/-- The stores of an array of at most 2^32 floats go to the positions of the floats in
the array: no offset wraps. -/
theorem vertex_writes_small {α : Type} (d : α) (atts : List α)
    (hsmall : atts.length ≤ 2 ^ 32) :
    vertex_writes atts = (List.range atts.length).map fun p => (p, atts.getD p d) := by
  unfold vertex_writes
  apply List.ext_getElem?
  intro m
  by_cases hm : m < atts.length
  · rw [List.getElem?_zipWith, List.getElem?_range hm, List.getElem?_eq_getElem hm,
      List.getElem?_map, List.getElem?_range hm]
    have e : m / 33 * 3 % 2 ^ 32 * 11 % 2 ^ 32 + m % 33 = m := by omega
    simp only [Option.map_some', e, List.getD_eq_getElem?_getD, List.getElem?_eq_getElem hm,
      Option.getD_some]
  · rw [List.getElem?_eq_none (by rw [List.length_zipWith, List.length_range]; omega),
      List.getElem?_eq_none (by rw [List.length_map, List.length_range]; omega)]

theorem storeAll_vertex_writes {α : Type} (d : α) (atts : List α)
    (hsmall : atts.length ≤ 2 ^ 32) :
    storeAll (uninitialized α atts.length) (vertex_writes atts) = atts.map some := by
  rw [vertex_writes_small d atts hsmall, storeAll_identity]
  apply List.ext_getElem?
  intro m
  by_cases hm : m < atts.length
  · rw [List.getElem?_map, List.getElem?_range hm, List.getElem?_map,
      List.getElem?_eq_getElem hm]
    simp only [Option.map_some', List.getD_eq_getElem?_getD, List.getElem?_eq_getElem hm,
      Option.getD_some]
  · rw [List.getElem?_eq_none (by rw [List.length_map, List.length_range]; omega),
      List.getElem?_eq_none (by rw [List.length_map]; omega)]

/-- The stores to the index buffer are `buf[p] = p` for `p` below `3 * n`, as long as
neither the offset nor the counter `vertex_index` wraps. -/
theorem index_writes_small :
    ∀ n : Nat, 3 * n ≤ 2 ^ 32 → index_writes n = (List.range (3 * n)).map fun p => (p, p) := by
  intro n
  induction n with
  | zero => intro _; rfl
  | succ n ih =>
    intro h
    have e : 3 * (n + 1) = 3 * n + 1 + 1 + 1 := by ring
    have hm0 : n * 3 % 2 ^ 32 = 3 * n := by omega
    have hm : 3 * n % 2 ^ 32 = 3 * n := Nat.mod_eq_of_lt (by omega)
    have hm1 : (3 * n + 1) % 2 ^ 32 = 3 * n + 1 := Nat.mod_eq_of_lt (by omega)
    have hm2 : (3 * n + 2) % 2 ^ 32 = 3 * n + 2 := Nat.mod_eq_of_lt (by omega)
    unfold index_writes at ih ⊢
    rw [List.range_succ, List.flatMap_append, ih (by omega), e, List.range_succ,
      List.range_succ, List.range_succ]
    simp only [List.flatMap_cons, List.flatMap_nil, hm0, hm, hm1, hm2, List.append_nil,
      List.append_assoc, List.singleton_append, List.cons_append, List.nil_append,
      List.map_append, List.map_cons, List.map_nil]

theorem storeAll_index_writes (n : Nat) (h : 3 * n ≤ 2 ^ 32) :
    storeAll (uninitialized Nat (3 * n)) (index_writes n) = (List.range (3 * n)).map some := by
  rw [index_writes_small n h, storeAll_identity]

/-- Incrementing one count raises every count by one at most. -/
theorem modify_succ_le (c : Int) (l : List Int) (n : Nat)
    (h : ∀ (m : Nat) (d : Int), l[m]? = some d → d ≤ c) :
    ∀ (m : Nat) (d : Int), (l.modify (fun d => d + 1) n)[m]? = some d → d ≤ c + 1 := by
  intro m d hd
  rw [List.getElem?_modify] at hd
  cases hl : l[m]? with
  | none => rw [hl] at hd; cases hd
  | some x =>
    rw [hl] at hd
    have hx := h m x hl
    have hd2 : (if n = m then x + 1 else x) = d := by simpa using hd
    split at hd2 <;> omega

theorem compute_degree_loop_le (face : List Face) :
    ∀ (c : Int) (degree : List Int), (∀ (m : Nat) (d : Int), degree[m]? = some d → d ≤ c) →
      ∀ (m : Nat) (d : Int),
        (face.foldl (fun degree f =>
          ((degree.modify (fun d => d + 1) f.i.1.toNat).modify (fun d => d + 1)
            f.i.2.1.toNat).modify (fun d => d + 1) f.i.2.2.toNat) degree)[m]? = some d →
        d ≤ c + 3 * face.length := by
  induction face with
  | nil => intro c degree h m d hd; simpa using h m d hd
  | cons f rest ih =>
    intro c degree h m d hd
    rw [List.foldl_cons] at hd
    have h3 := modify_succ_le _ _ f.i.2.2.toNat
      (modify_succ_le _ _ f.i.2.1.toNat (modify_succ_le c degree f.i.1.toNat h))
    have := ih (c + 1 + 1 + 1) _ h3 m d hd
    rw [List.length_cons]
    push_cast
    omega

/-- No vertex has a degree above the number of face corners. -/
theorem compute_degree_le (size : Nat) (face : List Face) (m : Nat) (d : Int)
    (h : (compute_degree size face)[m]? = some d) : d ≤ 3 * face.length := by
  have := compute_degree_loop_le face 0 (List.replicate size 0)
    (fun m d hd => by
      rw [List.getElem?_replicate] at hd
      split at hd
      · exact le_of_eq (Option.some.inj hd).symm
      · cases hd) m d h
  omega

theorem degree_overflows_small (size : Nat) (face : List Face)
    (h : 3 * face.length < 2 ^ 31) :
    degree_overflows (compute_degree size face) = false := by
  unfold degree_overflows
  rw [List.any_eq_false]
  intro d hd
  obtain ⟨m, hm⟩ := List.getElem?_of_mem hd
  have := compute_degree_le size face m d hm
  have h2 : ((3 * face.length : Nat) : Int) < 2 ^ 31 := by exact_mod_cast h
  simp only [decide_eq_true_eq, not_le]
  push_cast at h2
  omega

/-- The mesh that `LoadMesh` copies to the buffers has the faces that were parsed. -/
theorem mesh_face_eq [Field F] (lib : MeshLib F) (parsed : TriMesh F) (added_normal : Bool) :
    (if !added_normal then { parsed with normal := compute_normals lib parsed }
      else parsed).face = parsed.face := by
  cases added_normal <;> rfl

/-- With fewer than 2^32 faces and positions and no degree out of the range of `int`,
when the references are within bounds and the faces can be copied, the buffers are
those of the stores and the size is `3 * mesh.face.size()` as a `GLsizei`. -/
theorem LoadMesh_emit_ok [Field F] (lib : MeshLib F) (parsed : TriMesh F)
    (added_normal : Bool) (atts : List F)
    (hfaces : parsed.face.length < 2 ^ 32)
    (hdegree : degree_overflows (compute_degree parsed.position.length parsed.face) = false)
    (hpos : parsed.position.length < 2 ^ 32)
    (hcheck : check_references parsed.position.length parsed.face = .ok ())
    (hemit : emit_vertices
      (if !added_normal then { parsed with normal := compute_normals lib parsed } else parsed)
      added_normal parsed.face = .ok atts) :
    LoadMesh_emit lib parsed added_normal =
      .ok (⟨storeAll (uninitialized F (parsed.face.length * 3 * 11)) (vertex_writes atts),
          storeAll (uninitialized Nat (parsed.face.length * 3))
            (index_writes parsed.face.length)⟩,
        GLsizei_of_size_t (parsed.face.length * 3)) := by
  have hguard : (!added_normal && decide (2 ^ 32 ≤ parsed.position.length)) = false := by
    rw [Bool.and_eq_false_iff]
    exact Or.inr (decide_eq_false (by omega))
  unfold LoadMesh_emit
  rw [if_neg (by omega), hcheck]
  simp only [hdegree, hguard, mesh_face_eq, hemit, Bool.false_eq_true, if_false]

/-- When the lines are parsed into a mesh of at most 2^32 / 33 faces and fewer than
2^32 positions, the references are within bounds and the faces can be copied,
`LoadMesh_buffers` returns the vertices copied, the indices `0, 1, 2, ...` and the size
`3 * mesh.face.size()` as a `GLsizei`. -/
theorem LoadMesh_buffers_ok [Field F] (lib : MeshLib F) (filename : String)
    (lines : List (List Char)) (parsed : TriMesh F) (added_normal : Bool) (vertex : List F)
    (hparse : parse_lines lib (TriMesh.empty, false) lines = .ok (parsed, added_normal))
    (hsmall : 33 * parsed.face.length ≤ 2 ^ 32) (hpos : parsed.position.length < 2 ^ 32)
    (hcheck : check_references parsed.position.length parsed.face = .ok ())
    (hemit : emit_vertices
      (if !added_normal then { parsed with normal := compute_normals lib parsed } else parsed)
      added_normal parsed.face = .ok vertex) :
    LoadMesh_buffers lib filename (some lines) =
      .ok (⟨vertex.map some, (List.range (3 * parsed.face.length)).map some⟩,
        GLsizei_of_size_t (parsed.face.length * 3)) := by
  have hlen := emit_vertices_length _ _ _ _ hemit
  have e1 : parsed.face.length * 3 * 11 = vertex.length := by rw [hlen]; ring
  have e2 : parsed.face.length * 3 = 3 * parsed.face.length := by ring
  have hv := storeAll_vertex_writes (0 : F) vertex (by rw [hlen]; exact hsmall)
  have hi := storeAll_index_writes parsed.face.length (by omega)
  simp only [LoadMesh_buffers, hparse]
  rw [LoadMesh_emit_ok lib parsed added_normal vertex (by omega)
    (degree_overflows_small _ _ (by omega)) hpos hcheck hemit, e1, hv]
  rw [e2, hi]

/-- Claim C16: whenever `LoadMesh` does not return (it throws a failure for a file that
cannot be opened, a bad field count, a bad face arity, an invalid number or a face index
out of range), the registry is what it was before the call. -/
theorem LoadMesh_error_keeps_registry [Field F] (lib : MeshLib F) (rm : ResourceManager)
    (vbo ebo : Nat) (name filename : String) (file : Option (List (List Char))) (e : Abort)
    (h : (LoadMesh lib rm vbo ebo name filename file).2 = .error e) :
    (LoadMesh lib rm vbo ebo name filename file).1 = rm := by
  unfold LoadMesh at h ⊢
  cases hb : LoadMesh_buffers lib filename file with
  | error e2 => rfl
  | ok r =>
    rw [hb] at h
    exact absurd h (by simp)

/-- A file that cannot be opened: the failure is thrown and the registry is kept. -/
theorem LoadMesh_error_keeps_registry_witness :
    (LoadMesh decimalLib ⟨[]⟩ 1 2 "mesh" "mesh.obj" none).1 = ⟨[]⟩ :=
  LoadMesh_error_keeps_registry decimalLib ⟨[]⟩ 1 2 "mesh" "mesh.obj" none
    (.failure "Error opening file mesh.obj") rfl

end game

namespace game

open glm

variable {F : Type}

theorem decimalLib_extract_c_str (s : List Char) (n : Nat) (hc : c_str s = s)
    (h : decimal_value s = some n) (hn : n ≤ 2 ^ 24) :
    decimalLib.extract (c_str s) = some (n : ℚ) := by
  rw [hc]; exact decimalLib_extract s n h hn

/-- Claim C19 on the file whose only line is `v 1 2 3 4`: the record has four parameters,
yet nothing is thrown; the position (1, 2, 3) is taken and the (empty) mesh is
registered. -/
theorem LoadMesh_v_with_four_fields :
    LoadMesh decimalLib ⟨[]⟩ 1 2 "mesh" "mesh.obj" (some ["v 1 2 3 4".toList]) =
      (AddResource ⟨[]⟩ .Mesh "mesh" (.buffers 1 2) 0, .ok ⟨[], []⟩) ∧
    parse_line decimalLib (TriMesh.empty, false) "v 1 2 3 4".toList =
      .ok (⟨[⟨1, 2, 3⟩], [], [], []⟩, false) := by
  have e1 : decimalLib.extract (c_str "1".toList) = some 1 := by
    have h := decimalLib_extract_c_str "1".toList 1 (by decide) (by decide) (by norm_num)
    simpa using h
  have e2 : decimalLib.extract (c_str "2".toList) = some 2 := by
    have h := decimalLib_extract_c_str "2".toList 2 (by decide) (by decide) (by norm_num)
    simpa using h
  have e3 : decimalLib.extract (c_str "3".toList) = some 3 := by
    have h := decimalLib_extract_c_str "3".toList 3 (by decide) (by decide) (by norm_num)
    simpa using h
  have hline : parse_line decimalLib (TriMesh.empty, false) "v 1 2 3 4".toList =
      .ok (⟨[⟨1, 2, 3⟩], [], [], []⟩, false) := by
    rw [parse_line_v decimalLib (TriMesh.empty, false) "v 1 2 3 4".toList "1".toList
      "2".toList "3".toList ["4".toList] 1 2 3 (by decide) (by decide) e1 e2 e3]
    rfl
  refine ⟨?_, hline⟩
  have hparse : parse_lines decimalLib (TriMesh.empty, false) ["v 1 2 3 4".toList] =
      .ok (⟨[⟨1, 2, 3⟩], [], [], []⟩, false) := by
    simp only [parse_lines, hline]
  have hbuf := LoadMesh_buffers_ok decimalLib "mesh.obj" ["v 1 2 3 4".toList] _ _ []
    hparse (by decide) (by decide) rfl rfl
  simp only [LoadMesh, hbuf]
  rfl

end game

namespace game

open glm

variable {F : Type}

/-- A reference `a//c` made of decimal digits, for numbers up to `2 ^ 24`, gives the
position index `a - 1`, no texture index and the normal index `c - 1`. -/
theorem parse_reference_digits_normal (what : String) (s a c : List Char) (na nc : Nat)
    (hsplit : string_split_once s ['/'] = [a, [], c]) (hca : c_str a = a) (hcc : c_str c = c)
    (ha : decimal_value a = some na) (hc : decimal_value c = some nc)
    (hna : na ≤ 2 ^ 24) (hnc : nc ≤ 2 ^ 24) :
    parse_reference decimalLib what s = .ok ((na : Int) - 1, -1, (nc : Int) - 1) := by
  simp only [parse_reference, hsplit, hca, hcc, str_to_num, decimalLib_extract a na ha hna,
    decimalLib_extract c nc hc hnc]
  simp only [bind, Except.bind, pure, Except.pure, decimalLib_to_int na hna,
    decimalLib_to_int nc hnc, ne_eq, not_true_eq_false, if_false]

theorem corner_att_computed [Field F] (mesh : TriMesh F) (f : Face) (j : Nat)
    (ht : int3_get f.t j < 0) :
    ∃ a, corner_att mesh false f j = .ok a ∧ a.length = 11 := by
  unfold corner_att
  simp only [Bool.not_false, if_true, ge_iff_le, not_le.mpr ht, if_false]
  exact ⟨_, rfl, rfl⟩

theorem face_att_computed [Field F] (mesh : TriMesh F) (f : Face)
    (ht : f.t.1 < 0 ∧ f.t.2.1 < 0 ∧ f.t.2.2 < 0) :
    ∃ a, face_att mesh false f = .ok a ∧ a.length = 33 := by
  obtain ⟨a0, h0, l0⟩ := corner_att_computed mesh f 0 ht.1
  obtain ⟨a1, h1, l1⟩ := corner_att_computed mesh f 1 ht.2.1
  obtain ⟨a2, h2, l2⟩ := corner_att_computed mesh f 2 ht.2.2
  refine ⟨a0 ++ a1 ++ a2, ?_, by simp [l0, l1, l2]⟩
  unfold face_att
  rw [h0, h1, h2]
  rfl

/-- Without `vn` records the faces are copied without any vector being read at a
normal index, and faces without texture indices are copied without any vector being read
at a texture index: the copy returns. -/
theorem emit_vertices_computed [Field F] (mesh : TriMesh F) :
    ∀ faces : List Face, (∀ f ∈ faces, f.t.1 < 0 ∧ f.t.2.1 < 0 ∧ f.t.2.2 < 0) →
      ∃ vertex, emit_vertices mesh false faces = .ok vertex := by
  intro faces
  induction faces with
  | nil => intro _; exact ⟨[], rfl⟩
  | cons f rest ih =>
    intro h
    obtain ⟨a, ha, _⟩ := face_att_computed mesh f (h f (List.mem_cons_self _ _))
    obtain ⟨v, hv⟩ := ih fun g hg => h g (List.mem_cons_of_mem _ hg)
    refine ⟨a ++ v, ?_⟩
    unfold emit_vertices
    rw [ha, hv]

end game

namespace game

open glm

variable {F : Type}

theorem decimalLib_extract_zero : decimalLib.extract (c_str "0".toList) = some 0 := by
  have h := decimalLib_extract_c_str "0".toList 0 (by decide) (by decide) (by norm_num)
  simpa using h

theorem decimalLib_extract_one : decimalLib.extract (c_str "1".toList) = some 1 := by
  have h := decimalLib_extract_c_str "1".toList 1 (by decide) (by decide) (by norm_num)
  simpa using h

theorem parse_fileNormalIndexFive :
    parse_lines decimalLib (TriMesh.empty, false) fileNormalIndexFive =
      .ok (⟨[⟨0, 0, 0⟩, ⟨1, 0, 0⟩, ⟨0, 1, 0⟩], [], [],
        [⟨(0, 1, 2), (4, 4, 4), (-1, -1, -1)⟩]⟩, false) := by
  have l1 : parse_line decimalLib (TriMesh.empty, false) "v 0 0 0".toList =
      .ok (⟨[⟨0, 0, 0⟩], [], [], []⟩, false) := by
    rw [parse_line_v decimalLib _ "v 0 0 0".toList "0".toList "0".toList "0".toList [] 0 0 0
      (by decide) (by decide) decimalLib_extract_zero decimalLib_extract_zero
      decimalLib_extract_zero]
    rfl
  have l2 : parse_line decimalLib (⟨[⟨0, 0, 0⟩], [], [], []⟩, false) "v 1 0 0".toList =
      .ok (⟨[⟨0, 0, 0⟩, ⟨1, 0, 0⟩], [], [], []⟩, false) := by
    rw [parse_line_v decimalLib _ "v 1 0 0".toList "1".toList "0".toList "0".toList [] 1 0 0
      (by decide) (by decide) decimalLib_extract_one decimalLib_extract_zero
      decimalLib_extract_zero]
    rfl
  have l3 : parse_line decimalLib (⟨[⟨0, 0, 0⟩, ⟨1, 0, 0⟩], [], [], []⟩, false)
      "v 0 1 0".toList = .ok (⟨[⟨0, 0, 0⟩, ⟨1, 0, 0⟩, ⟨0, 1, 0⟩], [], [], []⟩, false) := by
    rw [parse_line_v decimalLib _ "v 0 1 0".toList "0".toList "1".toList "0".toList [] 0 1 0
      (by decide) (by decide) decimalLib_extract_zero decimalLib_extract_one
      decimalLib_extract_zero]
    rfl
  have l4 : parse_line decimalLib (⟨[⟨0, 0, 0⟩, ⟨1, 0, 0⟩, ⟨0, 1, 0⟩], [], [], []⟩, false)
      "f 1//5 2//5 3//5".toList = .ok (⟨[⟨0, 0, 0⟩, ⟨1, 0, 0⟩, ⟨0, 1, 0⟩], [], [],
        [⟨(0, 1, 2), (4, 4, 4), (-1, -1, -1)⟩]⟩, false) := by
    rw [parse_line_triangle decimalLib _ "f 1//5 2//5 3//5".toList "1//5".toList
      "2//5".toList "3//5".toList _ _ _ (by decide) (by decide)
      (parse_reference_digits_normal _ "1//5".toList "1".toList "5".toList 1 5 (by decide)
        (by decide) (by decide) (by decide) (by decide) (by norm_num) (by norm_num))
      (parse_reference_digits_normal _ "2//5".toList "2".toList "5".toList 2 5 (by decide)
        (by decide) (by decide) (by decide) (by decide) (by norm_num) (by norm_num))
      (parse_reference_digits_normal _ "3//5".toList "3".toList "5".toList 3 5 (by decide)
        (by decide) (by decide) (by decide) (by decide) (by norm_num) (by norm_num))]
    rfl
  simp only [fileNormalIndexFive, parse_lines, l1, l2, l3, l4]

/-- Claim C18 on a file without `vn` records whose triangle carries the normal index 5:
nothing is thrown; `LoadMesh` returns and registers the mesh with size 3. -/
theorem LoadMesh_normal_index_unchecked :
    (LoadMesh decimalLib ⟨[]⟩ 1 2 "mesh" "mesh.obj" (some fileNormalIndexFive)).1 =
      AddResource ⟨[]⟩ .Mesh "mesh" (.buffers 1 2) 3 ∧
    ∃ b, (LoadMesh decimalLib ⟨[]⟩ 1 2 "mesh" "mesh.obj" (some fileNormalIndexFive)).2
      = .ok b := by
  obtain ⟨vertex, hv⟩ := emit_vertices_computed
    ({ (⟨[⟨0, 0, 0⟩, ⟨1, 0, 0⟩, ⟨0, 1, 0⟩], [], [],
        [⟨(0, 1, 2), (4, 4, 4), (-1, -1, -1)⟩]⟩ : TriMesh ℚ) with
      normal := compute_normals decimalLib ⟨[⟨0, 0, 0⟩, ⟨1, 0, 0⟩, ⟨0, 1, 0⟩], [], [],
        [⟨(0, 1, 2), (4, 4, 4), (-1, -1, -1)⟩]⟩ })
    [⟨(0, 1, 2), (4, 4, 4), (-1, -1, -1)⟩] (by decide)
  have hbuf := LoadMesh_buffers_ok decimalLib "mesh.obj" fileNormalIndexFive _ _ vertex
    parse_fileNormalIndexFive (by decide) (by decide) rfl hv
  simp only [LoadMesh, hbuf]
  exact ⟨rfl, _, rfl⟩

end game

/-! ### Records that are rejected and lines that are skipped -/

namespace game

open glm

variable {F : Type}

/-- A call that, when it does not return, throws a failure (and does not run into
undefined behaviour). -/
theorem str_to_num_throws (lib : MeshLib F) (s : List Char) (e : Abort)
    (h : str_to_num lib s = .error e) : ∃ what, e = .failure what := by
  unfold str_to_num at h
  cases hx : lib.extract s with
  | none => rw [hx] at h; exact ⟨_, (Except.error.inj h).symm⟩
  | some x => rw [hx] at h; exact absurd h (by simp)

theorem bind_throws {α β : Type} (r : Except Abort α) (f : α → Except Abort β) (e : Abort)
    (hr : ∀ e, r = .error e → ∃ what, e = .failure what)
    (hf : ∀ a e, f a = .error e → ∃ what, e = .failure what)
    (h : (r >>= f) = .error e) : ∃ what, e = .failure what := by
  cases r with
  | error e2 =>
    have : e2 = e := Except.error.inj h
    exact this ▸ hr e2 rfl
  | ok a => exact hf a e h

theorem parse_reference_throws [Field F] (lib : MeshLib F) (what : String) (ref : List Char)
    (e : Abort) (h : parse_reference lib what ref = .error e) : ∃ w, e = .failure w := by
  unfold parse_reference at h
  split at h
  · refine bind_throws _ _ e (str_to_num_throws lib _) ?_ h
    intro a e2 h2; exact absurd h2 (by simp [pure, Except.pure])
  · refine bind_throws _ _ e (str_to_num_throws lib _) ?_ h
    intro a e2 h2
    refine bind_throws _ _ e2 (str_to_num_throws lib _) ?_ h2
    intro a e3 h3; exact absurd h3 (by simp [pure, Except.pure])
  · rename_i _ fa fb fc _
    refine bind_throws _ _ e (str_to_num_throws lib _) ?_ h
    intro a e2 h2
    have hjp : ∀ (t : Int) (e3 : Abort), (do
        let z ← str_to_num lib (c_str fc)
        pure (lib.to_int (lib.sub a 1), t, lib.to_int (lib.sub z 1)) :
          Except Abort (Int × Int × Int))
          = .error e3 → ∃ what, e3 = .failure what := by
      intro t e3 h3
      refine bind_throws _ _ e3 (str_to_num_throws lib _) ?_ h3
      intro a e4 h4; exact absurd h4 (by simp [pure, Except.pure])
    dsimp only at h2
    split at h2
    · refine bind_throws _ _ e2 ?_ (fun t e3 h3 => hjp t e3 h3) h2
      intro e3 h3
      cases hs : str_to_num lib (c_str fb) with
      | error e4 =>
        rw [hs] at h3
        have : e4 = e3 := Except.error.inj h3
        exact this ▸ str_to_num_throws lib _ e4 hs
      | ok y => rw [hs] at h3; exact absurd h3 (by simp [Except.map])
    · exact hjp (-1) e2 h2
  · exact ⟨_, (Except.error.inj h).symm⟩

end game

namespace game

open glm

variable {F : Type}

/-- Whenever the body of the loop over the lines does not return, it throws a failure. -/
theorem parse_line_throws [Field F] (lib : MeshLib F) (st : TriMesh F × Bool)
    (line : List Char) (e : Abort) (h : parse_line lib st line = .error e) :
    ∃ what, e = .failure what := by
  unfold parse_line at h
  dsimp only at h
  split_ifs at h
  all_goals first
    | exact ⟨_, (Except.error.inj h).symm⟩
    | cases h
    | (refine bind_throws _ _ e (str_to_num_throws lib _) (fun a e2 h2 => ?_) h
       refine bind_throws _ _ e2 (str_to_num_throws lib _) (fun b e3 h3 => ?_) h2
       refine bind_throws _ _ e3 (str_to_num_throws lib _) (fun c e4 h4 => ?_) h3
       cases h4)
    | (refine bind_throws _ _ e (str_to_num_throws lib _) (fun a e2 h2 => ?_) h
       refine bind_throws _ _ e2 (str_to_num_throws lib _) (fun b e3 h3 => ?_) h2
       cases h3)
    | (refine bind_throws _ _ e (parse_reference_throws lib _ _) (fun a e2 h2 => ?_) h
       refine bind_throws _ _ e2 (parse_reference_throws lib _ _) (fun b e3 h3 => ?_) h2
       refine bind_throws _ _ e3 (parse_reference_throws lib _ _) (fun c e4 h4 => ?_) h3
       refine bind_throws _ _ e4 (parse_reference_throws lib _ _) (fun d e5 h5 => ?_) h4
       cases h5)
    | (refine bind_throws _ _ e (parse_reference_throws lib _ _) (fun a e2 h2 => ?_) h
       refine bind_throws _ _ e2 (parse_reference_throws lib _ _) (fun b e3 h3 => ?_) h2
       refine bind_throws _ _ e3 (parse_reference_throws lib _ _) (fun c e4 h4 => ?_) h3
       cases h4)

/-- Whenever the loop over the lines does not return, it throws a failure. -/
theorem parse_lines_throws [Field F] (lib : MeshLib F) :
    ∀ (lines : List (List Char)) (st : TriMesh F × Bool) (e : Abort),
      parse_lines lib st lines = .error e → ∃ what, e = .failure what := by
  intro lines
  induction lines with
  | nil => intro st e h; exact absurd h (by simp [parse_lines])
  | cons line rest ih =>
    intro st e h
    unfold parse_lines at h
    cases hl : parse_line lib st line with
    | error e2 =>
      rw [hl] at h
      have : e2 = e := Except.error.inj h
      exact this ▸ parse_line_throws lib st line e2 hl
    | ok st2 =>
      rw [hl] at h
      exact ih st2 e h

/-- When the loop over the lines throws, so does `LoadMesh`, and the registry is kept. -/
theorem LoadMesh_fails_of_parse [Field F] (lib : MeshLib F) (rm : ResourceManager)
    (vbo ebo : Nat) (name filename : String) (lines : List (List Char)) (e : Abort)
    (h : parse_lines lib (TriMesh.empty, false) lines = .error e) :
    LoadMesh lib rm vbo ebo name filename (some lines) = (rm, .error e) := by
  simp only [LoadMesh, LoadMesh_buffers, h]

end game

namespace game

open glm

variable {F : Type}

theorem string_split_loop_head (separator : List Char) :
    ∀ (l cur : List Char), (string_split_loop separator false cur l).head? =
      some (cur ++ l.takeWhile fun c => decide (c ∉ separator)) := by
  intro l
  induction l with
  | nil => intro cur; simp [string_split_loop]
  | cons c rest ih =>
    intro cur
    unfold string_split_loop
    by_cases hc : c ∈ separator
    · simp [hc]
    · simp [hc, ih]

/-- The first field that `string_split` returns is the line up to its first separator. -/
theorem string_split_head (line separator : List Char) :
    (string_split line separator).head? =
      some (line.takeWhile fun c => decide (c ∉ separator)) := by
  unfold string_split
  rw [string_split_loop_head]; rfl

end game

namespace game

open glm

variable {F : Type}

end game

namespace game

open glm

variable {F : Type}

/-- A line whose first field is none of the four commands is passed over. -/
theorem parse_line_other_command [Field F] (lib : MeshLib F) (st : TriMesh F × Bool)
    (line : List Char)
    (h : ∀ cmd ∈ [['v'], ['v', 'n'], ['v', 't'], ['f']],
      (string_split line [' ', '\t']).head? ≠ some cmd) :
    parse_line lib st line = .ok st := by
  unfold parse_line
  split_ifs with hskip
  · rfl
  · dsimp only
    rw [if_neg (h _ (by simp)), if_neg (h _ (by simp)), if_neg (h _ (by simp)),
      if_neg (h _ (by simp))]

theorem takeWhile_head_mem (p : Char → Bool) (line tok : List Char) (c : Char)
    (h : line.takeWhile p = c :: tok) : line.head? = some c := by
  cases line with
  | nil => simp at h
  | cons d rest =>
    rw [List.takeWhile_cons] at h
    split at h
    · simp only [List.cons.injEq] at h
      rw [h.1]; rfl
    · cases h

/-- The lines that carry no record leave the state of the parser as it is, and nothing is
thrown. -/
theorem parse_line_carries_no_record [Field F] (lib : MeshLib F) (st : TriMesh F × Bool)
    (line : List Char) (h : carries_no_record line = true) :
    parse_line lib st line = .ok st := by
  by_cases hskip : line.length ≤ 0 ∨ line.head? = some '#'
  · unfold parse_line
    rw [if_pos hskip]
  · apply parse_line_other_command
    intro cmd hcmd hhead
    rw [string_split_head] at hhead
    have htok := Option.some.inj hhead
    -- the first character of the line is the first character of the command
    have hfirst : line.head? = cmd.head? := by
      cases cmd with
      | nil => simp at hcmd
      | cons c tok => rw [takeWhile_head_mem _ line tok c htok]; rfl
    simp only [carries_no_record, Bool.or_eq_true, decide_eq_true_eq, List.all_eq_true] at h
    rcases h with ((hempty | hhash) | hwhite) | htoken
    · exact hskip (Or.inl (by rw [hempty]; simp))
    · exact hskip (Or.inr hhash)
    · -- whitespace only: the first character is not that of a command
      cases line with
      | nil => exact hskip (Or.inl (by simp))
      | cons c rest =>
        have hc := hwhite c (List.mem_cons_self _ _)
        have hc2 : some c = cmd.head? := hfirst
        simp only [List.mem_cons, List.mem_singleton, List.not_mem_nil, or_false] at hcmd hc
        rcases hcmd with rfl | rfl | rfl | rfl <;>
          · have hcv := Option.some.inj hc2
            subst hcv
            revert hc
            decide
    · -- the first token is the first field
      apply htoken
      cases line with
      | nil => exact absurd (Or.inl (by simp)) hskip
      | cons c rest =>
        have hcb : ¬ (c = ' ' ∨ c = '\t') := by
          have hc2 : some c = cmd.head? := hfirst
          simp only [List.mem_cons, List.mem_singleton, List.not_mem_nil, or_false] at hcmd
          rcases hcmd with rfl | rfl | rfl | rfl <;>
            · have hcv := Option.some.inj hc2
              subst hcv
              decide
        have hpred : (fun c : Char => decide (c ∉ [' ', '\t'])) =
            (fun c : Char => decide (¬ (c = ' ' ∨ c = '\t'))) := by
          funext d; simp
        unfold first_token
        rw [List.dropWhile_cons_of_neg (by simpa using hcb), ← hpred, htok]
        exact hcmd

theorem parse_lines_filter [Field F] (lib : MeshLib F) :
    ∀ (lines : List (List Char)) (st : TriMesh F × Bool),
      parse_lines lib st (lines.filter fun l => !carries_no_record l) =
        parse_lines lib st lines := by
  intro lines
  induction lines with
  | nil => intro st; rfl
  | cons l rest ih =>
    intro st
    by_cases hl : carries_no_record l = true
    · rw [List.filter_cons_of_neg (by simp [hl])]
      rw [ih]
      conv_rhs => unfold parse_lines
      rw [parse_line_carries_no_record lib st l hl]
    · rw [List.filter_cons_of_pos (by simpa using hl)]
      unfold parse_lines
      cases parse_line lib st l with
      | error e => rfl
      | ok st2 => exact ih st2

/-- Claim C20: comment lines, empty lines, lines of whitespace only and lines whose first
token is none of `v`, `vn`, `vt`, `f` throw nothing and leave the parsed mesh as it is;
removing them from a file gives the same result of `LoadMesh`. -/
theorem LoadMesh_skips_lines [Field F] (lib : MeshLib F) (rm : ResourceManager)
    (vbo ebo : Nat) (name filename : String) (lines : List (List Char)) :
    (∀ (st : TriMesh F × Bool) (line : List Char), carries_no_record line = true →
      parse_line lib st line = .ok st) ∧
    LoadMesh lib rm vbo ebo name filename
        (some (lines.filter fun l => !carries_no_record l)) =
      LoadMesh lib rm vbo ebo name filename (some lines) := by
  refine ⟨fun st line h => parse_line_carries_no_record lib st line h, ?_⟩
  simp only [LoadMesh, LoadMesh_buffers, parse_lines_filter]

end game

/-! ### The check of the vertex references -/

namespace game

open glm

variable {F : Type}

theorem index_out_of_bounds_iff (size : Nat) (index : Int) :
    index_out_of_bounds size index = true ↔ index < 0 ∨ (size : Int) ≤ index := by
  simp [index_out_of_bounds]

theorem check_face_ok_iff (size : Nat) (f : Face) :
    check_face size f = .ok () ↔
      ∀ j, j < 3 → 0 ≤ int3_get f.i j ∧ int3_get f.i j < (size : Int) := by
  unfold check_face
  constructor
  · intro h j hj
    split_ifs at h with h0 h1 h2
    rw [Bool.not_eq_true, ← Bool.not_eq_true, index_out_of_bounds_iff] at h0 h1 h2
    have hcase : j = 0 ∨ j = 1 ∨ j = 2 := by omega
    rcases hcase with rfl | rfl | rfl <;> simp only [int3_get] <;> omega
  · intro h
    have h0 := h 0 (by omega)
    have h1 := h 1 (by omega)
    have h2 := h 2 (by omega)
    simp only [int3_get] at h0 h1 h2
    rw [if_neg, if_neg, if_neg]
    all_goals
      rw [index_out_of_bounds_iff]
      omega

theorem check_face_throws (size : Nat) (f : Face) (e : Abort)
    (h : check_face size f = .error e) : ∃ what, e = .failure what := by
  unfold check_face at h
  split_ifs at h
  all_goals exact ⟨_, (Except.error.inj h).symm⟩

/-- The check passes when every position index lies in `0 .. size - 1`. -/
theorem check_references_ok (size : Nat) :
    ∀ faces : List Face,
      (∀ f ∈ faces, ∀ j, j < 3 → 0 ≤ int3_get f.i j ∧ int3_get f.i j < (size : Int)) →
      check_references size faces = .ok () := by
  intro faces
  induction faces with
  | nil => intro _; rfl
  | cons f rest ih =>
    intro h
    unfold check_references
    rw [(check_face_ok_iff size f).mpr (h f (List.mem_cons_self _ _))]
    exact ih fun g hg => h g (List.mem_cons_of_mem _ hg)

/-- The check throws a failure when some position index lies outside `0 .. size - 1`. -/
theorem check_references_fails (size : Nat) :
    ∀ faces : List Face,
      (∃ f ∈ faces, ∃ j, j < 3 ∧ ¬ (0 ≤ int3_get f.i j ∧ int3_get f.i j < (size : Int))) →
      ∃ what, check_references size faces = .error (.failure what) := by
  intro faces
  induction faces with
  | nil => rintro ⟨f, hf, _⟩; exact absurd hf (List.not_mem_nil _)
  | cons g rest ih =>
    rintro ⟨f, hf, j, hj, hout⟩
    unfold check_references
    cases hg : check_face size g with
    | error e =>
      obtain ⟨w, hw⟩ := check_face_throws size g e hg
      exact ⟨w, by rw [hw]⟩
    | ok u =>
      show ∃ what, check_references size rest = .error (.failure what)
      rcases List.mem_cons.mp hf with h | h
      · subst h
        exact absurd ((check_face_ok_iff size f).mp hg j hj) hout
      · exact ih ⟨f, h, j, hj, hout⟩

/-- When the file is parsed into fewer than 2^32 triangles and the position index stored
for some corner of a face is not in `0 .. P - 1` (`P` is the number of positions after
the whole file is read), `LoadMesh` throws a failure and keeps the registry. The index
stored is the one `parse_reference` computes in `float`; it is the reference minus 1 for
references up to `2 ^ 24` (`parse_reference_digits`). -/
theorem LoadMesh_index_out_of_range [Field F] (lib : MeshLib F) (rm : ResourceManager)
    (vbo ebo : Nat) (name filename : String) (lines : List (List Char))
    (parsed : TriMesh F) (added_normal : Bool)
    (hparse : parse_lines lib (TriMesh.empty, false) lines = .ok (parsed, added_normal))
    (hfaces : parsed.face.length < 2 ^ 32)
    (f : Face) (hf : f ∈ parsed.face) (j : Nat) (hj : j < 3)
    (hout : int3_get f.i j + 1 < 1 ∨ (parsed.position.length : Int) < int3_get f.i j + 1) :
    ∃ what, LoadMesh lib rm vbo ebo name filename (some lines) =
      (rm, .error (.failure what)) := by
  obtain ⟨w, hw⟩ := check_references_fails parsed.position.length parsed.face
    ⟨f, hf, j, hj, by omega⟩
  refine ⟨w, ?_⟩
  simp only [LoadMesh, LoadMesh_buffers, hparse, LoadMesh_emit]
  rw [if_neg (by omega), hw]

/-- The file with one position and the face `f 0 1 1`, which refers to the position
index 0. -/
theorem LoadMesh_index_out_of_range_witness :
    ∃ what, LoadMesh decimalLib ⟨[]⟩ 1 2 "mesh" "mesh.obj"
      (some ["v 0 0 0".toList, "f 0 1 1".toList]) = (⟨[]⟩, .error (.failure what)) := by
  have l1 : parse_line decimalLib (TriMesh.empty, false) "v 0 0 0".toList =
      .ok (⟨[⟨0, 0, 0⟩], [], [], []⟩, false) := by
    rw [parse_line_v decimalLib _ "v 0 0 0".toList "0".toList "0".toList "0".toList [] 0 0 0
      (by decide) (by decide) decimalLib_extract_zero decimalLib_extract_zero
      decimalLib_extract_zero]
    rfl
  have l2 : parse_line decimalLib (⟨[⟨0, 0, 0⟩], [], [], []⟩, false) "f 0 1 1".toList =
      .ok (⟨[⟨0, 0, 0⟩], [], [], [⟨(-1, 0, 0), (-1, -1, -1), (-1, -1, -1)⟩]⟩, false) := by
    rw [parse_line_triangle decimalLib _ "f 0 1 1".toList "0".toList "1".toList "1".toList
      _ _ _ (by decide) (by decide)
      (parse_reference_digits _ "0".toList 0 (by decide) (by decide) (by decide)
        (by norm_num))
      (parse_reference_digits _ "1".toList 1 (by decide) (by decide) (by decide)
        (by norm_num))
      (parse_reference_digits _ "1".toList 1 (by decide) (by decide) (by decide)
        (by norm_num))]
    rfl
  have hparse : parse_lines decimalLib (TriMesh.empty, false)
      ["v 0 0 0".toList, "f 0 1 1".toList] =
      .ok (⟨[⟨0, 0, 0⟩], [], [], [⟨(-1, 0, 0), (-1, -1, -1), (-1, -1, -1)⟩]⟩, false) := by
    simp only [parse_lines, l1, l2]
  exact LoadMesh_index_out_of_range decimalLib ⟨[]⟩ 1 2 "mesh" "mesh.obj" _ _ _ hparse
    (by decide) ⟨(-1, 0, 0), (-1, -1, -1), (-1, -1, -1)⟩ (List.mem_singleton.mpr rfl) 0
    (by decide) (Or.inl (by decide))

end game

/-! ### Files with very many faces -/

namespace game

open glm

variable {F : Type}

theorem parse_lines_append [Field F] (lib : MeshLib F) :
    ∀ (l1 l2 : List (List Char)) (st st2 : TriMesh F × Bool),
      parse_lines lib st l1 = .ok st2 →
      parse_lines lib st (l1 ++ l2) = parse_lines lib st2 l2 := by
  intro l1
  induction l1 with
  | nil =>
    intro l2 st st2 h
    have e : st = st2 := Except.ok.inj h
    rw [e]; rfl
  | cons line rest ih =>
    intro l2 st st2 h
    unfold parse_lines at h
    have e : parse_lines lib st (line :: rest ++ l2) =
        match parse_line lib st line with
        | .ok s => parse_lines lib s (rest ++ l2)
        | .error e => .error e := rfl
    rw [e]
    cases hl : parse_line lib st line with
    | error e => rw [hl] at h; cases h
    | ok st3 =>
      rw [hl] at h
      exact ih l2 st3 st2 h

/-- A line that appends the same triangle in every state, read `n` times, appends the
triangle `n` times. -/
theorem parse_lines_replicate [Field F] (lib : MeshLib F) (line : List Char) (tri : Face)
    (hline : ∀ st : TriMesh F × Bool,
      parse_line lib st line = .ok ({ st.1 with face := st.1.face ++ [tri] }, st.2)) :
    ∀ (n : Nat) (st : TriMesh F × Bool),
      parse_lines lib st (List.replicate n line) =
        .ok ({ st.1 with face := st.1.face ++ List.replicate n tri }, st.2) := by
  intro n
  induction n with
  | zero => intro st; simp [parse_lines]
  | succ n ih =>
    intro st
    rw [List.replicate_succ]
    unfold parse_lines
    rw [hline st]
    show parse_lines lib _ (List.replicate n line) = _
    rw [ih]
    simp only [List.append_assoc, List.singleton_append, List.replicate_succ]

theorem parse_three_positions :
    parse_lines decimalLib (TriMesh.empty, false)
      ["v 0 0 0".toList, "v 1 0 0".toList, "v 0 1 0".toList] =
      .ok (⟨[⟨0, 0, 0⟩, ⟨1, 0, 0⟩, ⟨0, 1, 0⟩], [], [], []⟩, false) := by
  have l1 : parse_line decimalLib (TriMesh.empty, false) "v 0 0 0".toList =
      .ok (⟨[⟨0, 0, 0⟩], [], [], []⟩, false) := by
    rw [parse_line_v decimalLib _ "v 0 0 0".toList "0".toList "0".toList "0".toList [] 0 0 0
      (by decide) (by decide) decimalLib_extract_zero decimalLib_extract_zero
      decimalLib_extract_zero]
    rfl
  have l2 : parse_line decimalLib (⟨[⟨0, 0, 0⟩], [], [], []⟩, false) "v 1 0 0".toList =
      .ok (⟨[⟨0, 0, 0⟩, ⟨1, 0, 0⟩], [], [], []⟩, false) := by
    rw [parse_line_v decimalLib _ "v 1 0 0".toList "1".toList "0".toList "0".toList [] 1 0 0
      (by decide) (by decide) decimalLib_extract_one decimalLib_extract_zero
      decimalLib_extract_zero]
    rfl
  have l3 : parse_line decimalLib (⟨[⟨0, 0, 0⟩, ⟨1, 0, 0⟩], [], [], []⟩, false)
      "v 0 1 0".toList = .ok (⟨[⟨0, 0, 0⟩, ⟨1, 0, 0⟩, ⟨0, 1, 0⟩], [], [], []⟩, false) := by
    rw [parse_line_v decimalLib _ "v 0 1 0".toList "0".toList "1".toList "0".toList [] 0 1 0
      (by decide) (by decide) decimalLib_extract_zero decimalLib_extract_one
      decimalLib_extract_zero]
    rfl
  simp only [parse_lines, l1, l2, l3]

/-- The record `f 1 2 3` appends the triangle of the positions 0, 1, 2 in every state. -/
theorem parse_line_f123 (st : TriMesh ℚ × Bool) :
    parse_line decimalLib st "f 1 2 3".toList =
      .ok ({ st.1 with face := st.1.face ++ [⟨(0, 1, 2), (-1, -1, -1), (-1, -1, -1)⟩] },
        st.2) := by
  rw [parse_line_triangle decimalLib st "f 1 2 3".toList "1".toList "2".toList "3".toList
    _ _ _ (by decide) (by decide)
    (parse_reference_digits _ "1".toList 1 (by decide) (by decide) (by decide) (by norm_num))
    (parse_reference_digits _ "2".toList 2 (by decide) (by decide) (by decide) (by norm_num))
    (parse_reference_digits _ "3".toList 3 (by decide) (by decide) (by decide) (by norm_num))]
  rfl

/-- The record `f 9 9 9` appends the triangle of the position 8 in every state. -/
theorem parse_line_f999 (st : TriMesh ℚ × Bool) :
    parse_line decimalLib st "f 9 9 9".toList =
      .ok ({ st.1 with face := st.1.face ++ [⟨(8, 8, 8), (-1, -1, -1), (-1, -1, -1)⟩] },
        st.2) := by
  rw [parse_line_triangle decimalLib st "f 9 9 9".toList "9".toList "9".toList "9".toList
    _ _ _ (by decide) (by decide)
    (parse_reference_digits _ "9".toList 9 (by decide) (by decide) (by decide) (by norm_num))
    (parse_reference_digits _ "9".toList 9 (by decide) (by decide) (by decide) (by norm_num))
    (parse_reference_digits _ "9".toList 9 (by decide) (by decide) (by decide) (by norm_num))]
  rfl

theorem parse_manyTriangles (n : Nat) :
    parse_lines decimalLib (TriMesh.empty, false) (manyTriangles n) =
      .ok (⟨[⟨0, 0, 0⟩, ⟨1, 0, 0⟩, ⟨0, 1, 0⟩], [], [],
        List.replicate n ⟨(0, 1, 2), (-1, -1, -1), (-1, -1, -1)⟩⟩, false) := by
  unfold manyTriangles
  rw [parse_lines_append decimalLib _ _ _ _ parse_three_positions,
    parse_lines_replicate decimalLib _ _ parse_line_f123]
  rfl

/-- With 2^32 faces or more whose first 2^32 pass the check, the loop that checks the
references never ends. -/
theorem LoadMesh_emit_wraps [Field F] (lib : MeshLib F) (parsed : TriMesh F)
    (added_normal : Bool) (hfaces : 2 ^ 32 ≤ parsed.face.length)
    (hcheck : check_references parsed.position.length (parsed.face.take (2 ^ 32)) = .ok ()) :
    LoadMesh_emit lib parsed added_normal = .error .undefined := by
  unfold LoadMesh_emit
  rw [if_pos hfaces, hcheck]

theorem check_references_take_replicate (n m : Nat) (rest : List Face) (h : m ≤ n) :
    check_references 3
      ((List.replicate n (⟨(0, 1, 2), (-1, -1, -1), (-1, -1, -1)⟩ : Face) ++ rest).take m) =
        .ok () := by
  rw [List.take_append_of_le_length (by rw [List.length_replicate]; exact h)]
  apply check_references_ok
  intro f hf j hj
  rw [List.eq_of_mem_replicate (List.mem_of_mem_take hf)]
  have hcase : j = 0 ∨ j = 1 ∨ j = 2 := by omega
  rcases hcase with rfl | rfl | rfl <;> decide

/-- A file with three positions, `n` times the triangle `f 1 2 3` for `n` at least 2^32,
and then the triangle `f 9 9 9`: the call does not return and throws nothing. -/
theorem LoadMesh_manyTriangles_wraps (n : Nat) (hn : 2 ^ 32 ≤ n) :
    LoadMesh decimalLib ⟨[]⟩ 1 2 "mesh" "mesh.obj"
      (some (manyTriangles n ++ ["f 9 9 9".toList])) = (⟨[]⟩, .error .undefined) := by
  have hparse : parse_lines decimalLib (TriMesh.empty, false)
      (manyTriangles n ++ ["f 9 9 9".toList]) =
      .ok (⟨[⟨0, 0, 0⟩, ⟨1, 0, 0⟩, ⟨0, 1, 0⟩], [], [],
        List.replicate n ⟨(0, 1, 2), (-1, -1, -1), (-1, -1, -1)⟩ ++
          [⟨(8, 8, 8), (-1, -1, -1), (-1, -1, -1)⟩]⟩, false) := by
    rw [parse_lines_append decimalLib _ _ _ _ (parse_manyTriangles n)]
    unfold parse_lines
    rw [parse_line_f999]
    rfl
  have hemit : LoadMesh_emit decimalLib
      (⟨[⟨0, 0, 0⟩, ⟨1, 0, 0⟩, ⟨0, 1, 0⟩], [], [],
        List.replicate n (⟨(0, 1, 2), (-1, -1, -1), (-1, -1, -1)⟩ : Face) ++
          [(⟨(8, 8, 8), (-1, -1, -1), (-1, -1, -1)⟩ : Face)]⟩ : TriMesh ℚ) false =
      .error .undefined := by
    apply LoadMesh_emit_wraps
    · show 2 ^ 32 ≤ (List.replicate n _ ++ [_]).length
      rw [List.length_append, List.length_replicate]
      exact le_trans hn (Nat.le_add_right _ _)
    · exact check_references_take_replicate n (2 ^ 32) _ hn
  simp only [LoadMesh, LoadMesh_buffers, hparse, hemit]

/-- A file with three positions, 2^32 times the triangle `f 1 2 3` and then the
triangle `f 9 9 9`, whose position index is out of range: the counter of the loop
that checks the references wraps at 2^32 and never reaches the last triangle, so nothing
is thrown and the call does not return. -/
theorem LoadMesh_index_check_wraps :
    LoadMesh decimalLib ⟨[]⟩ 1 2 "mesh" "mesh.obj"
      (some (manyTriangles (2 ^ 32) ++ ["f 9 9 9".toList])) = (⟨[]⟩, .error .undefined) :=
  LoadMesh_manyTriangles_wraps (2 ^ 32) (le_refl _)

end game

/-! ### Three vertices for every triangle -/

namespace game

open glm

variable {F : Type}

theorem bind_ok_inv {α β : Type} (r : Except Abort α) (f : α → Except Abort β) (b : β)
    (h : (r >>= f) = .ok b) : ∃ a, r = .ok a ∧ f a = .ok b := by
  cases r with
  | error e => cases h
  | ok a => exact ⟨a, rfl, h⟩

/-- What `LoadMesh_emit` has done when it returns. -/
theorem LoadMesh_emit_inv [Field F] (lib : MeshLib F) (parsed : TriMesh F)
    (added_normal : Bool) (r : MeshBuffers F × Int)
    (h : LoadMesh_emit lib parsed added_normal = .ok r) :
    parsed.face.length < 2 ^ 32 ∧
    check_references parsed.position.length parsed.face = .ok () ∧
    degree_overflows (compute_degree parsed.position.length parsed.face) = false ∧
    ∃ atts, emit_vertices
        (if !added_normal then { parsed with normal := compute_normals lib parsed }
          else parsed) added_normal parsed.face = .ok atts ∧
      r = (⟨storeAll (uninitialized F (parsed.face.length * 3 * 11)) (vertex_writes atts),
          storeAll (uninitialized Nat (parsed.face.length * 3))
            (index_writes parsed.face.length)⟩,
        GLsizei_of_size_t (parsed.face.length * 3)) := by
  unfold LoadMesh_emit at h
  by_cases hbig : 2 ^ 32 ≤ parsed.face.length
  · rw [if_pos hbig] at h
    split at h <;> cases h
  · rw [if_neg hbig] at h
    cases hcheck : check_references parsed.position.length parsed.face with
    | error e => rw [hcheck] at h; cases h
    | ok u =>
      rw [hcheck] at h
      dsimp only at h
      by_cases hdeg : degree_overflows (compute_degree parsed.position.length parsed.face) = true
      · rw [if_pos hdeg] at h; cases h
      · rw [if_neg hdeg] at h
        by_cases hpos : (!added_normal && decide (2 ^ 32 ≤ parsed.position.length)) = true
        · rw [if_pos hpos] at h; cases h
        · rw [if_neg hpos] at h
          simp only [mesh_face_eq] at h
          cases hemit : emit_vertices
              (if !added_normal then { parsed with normal := compute_normals lib parsed }
                else parsed) added_normal parsed.face with
          | error e => rw [hemit] at h; cases h
          | ok atts =>
            rw [hemit] at h
            exact ⟨by omega, rfl, by simpa using hdeg, atts, rfl, (Except.ok.inj h).symm⟩

/-- What `LoadMesh` has done when it returns. -/
theorem LoadMesh_inv [Field F] (lib : MeshLib F) (rm rm2 : ResourceManager) (vbo ebo : Nat)
    (name filename : String) (lines : List (List Char)) (b : MeshBuffers F)
    (h : LoadMesh lib rm vbo ebo name filename (some lines) = (rm2, .ok b)) :
    ∃ parsed added_normal size,
      parse_lines lib (TriMesh.empty, false) lines = .ok (parsed, added_normal) ∧
      LoadMesh_emit lib parsed added_normal = .ok (b, size) ∧
      rm2 = AddResource rm .Mesh name (.buffers vbo ebo) size := by
  simp only [LoadMesh, LoadMesh_buffers] at h
  cases hp : parse_lines lib (TriMesh.empty, false) lines with
  | error e => rw [hp] at h; cases h
  | ok st =>
    obtain ⟨parsed, added_normal⟩ := st
    rw [hp] at h
    dsimp only at h
    cases he : LoadMesh_emit lib parsed added_normal with
    | error e => rw [he] at h; cases h
    | ok r =>
      obtain ⟨b2, size⟩ := r
      rw [he] at h
      dsimp only at h
      have h1 := (Prod.mk.inj h).1
      have h2 : b2 = b := Except.ok.inj (Prod.mk.inj h).2
      subst h2
      exact ⟨parsed, added_normal, size, rfl, he, h1.symm⟩

end game

/-! ### Normals given in the file -/

namespace game

open glm

variable {F : Type}

/-- Reading a line keeps the flag `added_normal` equal to whether a normal was read. -/
theorem parse_line_added_normal [Field F] (lib : MeshLib F) (st st2 : TriMesh F × Bool)
    (line : List Char) (h : parse_line lib st line = .ok st2)
    (hinv : st.2 = true ↔ st.1.normal ≠ []) : st2.2 = true ↔ st2.1.normal ≠ [] := by
  unfold parse_line at h
  dsimp only at h
  split_ifs at h
  all_goals first
    | (rw [← Except.ok.inj h]; exact hinv)
    | cases h
    | (obtain ⟨a, _, h2⟩ := bind_ok_inv _ _ _ h
       obtain ⟨b, _, h3⟩ := bind_ok_inv _ _ _ h2
       obtain ⟨c, _, h4⟩ := bind_ok_inv _ _ _ h3
       rw [← Except.ok.inj h4]; exact hinv)
    | (obtain ⟨a, _, h2⟩ := bind_ok_inv _ _ _ h
       obtain ⟨b, _, h3⟩ := bind_ok_inv _ _ _ h2
       obtain ⟨c, _, h4⟩ := bind_ok_inv _ _ _ h3
       rw [← Except.ok.inj h4]; simp)
    | (obtain ⟨a, _, h2⟩ := bind_ok_inv _ _ _ h
       obtain ⟨b, _, h3⟩ := bind_ok_inv _ _ _ h2
       rw [← Except.ok.inj h3]; exact hinv)
    | (obtain ⟨a, _, h2⟩ := bind_ok_inv _ _ _ h
       obtain ⟨b, _, h3⟩ := bind_ok_inv _ _ _ h2
       obtain ⟨c, _, h4⟩ := bind_ok_inv _ _ _ h3
       obtain ⟨d, _, h5⟩ := bind_ok_inv _ _ _ h4
       rw [← Except.ok.inj h5]; exact hinv)

theorem parse_lines_added_normal [Field F] (lib : MeshLib F) :
    ∀ (lines : List (List Char)) (st st2 : TriMesh F × Bool),
      parse_lines lib st lines = .ok st2 → (st.2 = true ↔ st.1.normal ≠ []) →
      (st2.2 = true ↔ st2.1.normal ≠ []) := by
  intro lines
  induction lines with
  | nil =>
    intro st st2 h hinv
    rw [← Except.ok.inj h]; exact hinv
  | cons line rest ih =>
    intro st st2 h hinv
    unfold parse_lines at h
    cases hl : parse_line lib st line with
    | error e => rw [hl] at h; cases h
    | ok st3 =>
      rw [hl] at h
      exact ih st3 st2 h (parse_line_added_normal lib st st3 line hl hinv)

/-- After the loop over the lines, `added_normal` tells whether the file has a `vn`
record. -/
theorem added_normal_iff [Field F] (lib : MeshLib F) (lines : List (List Char))
    (parsed : TriMesh F) (added_normal : Bool)
    (h : parse_lines lib (TriMesh.empty, false) lines = .ok (parsed, added_normal)) :
    added_normal = true ↔ parsed.normal ≠ [] :=
  parse_lines_added_normal lib lines _ _ h (by simp [TriMesh.empty])

theorem take_drop_of_take {α : Type} (l a : List α) (m n k : Nat) (h : l.take m = a)
    (hk : n + k ≤ m) : (l.drop n).take k = (a.drop n).take k := by
  rw [← h, List.drop_take, List.take_take, Nat.min_eq_left (by omega)]

/-- When the file has a `vn` record and `LoadMesh` returns, the normal copied to the
buffer for a corner whose stored normal index is `k - 1` (within range) is the `k`-th
`vn` record as it was read: floats 3, 4, 5 of vertex `3 * i + j` in the arrays handed to
`glBufferSubData`. The index stored is the one `parse_reference` computes in `float`; it
is the reference minus 1 for references up to `2 ^ 24`
(`parse_reference_digits_normal`). -/
theorem LoadMesh_file_normals [Field F] (lib : MeshLib F) (rm rm2 : ResourceManager)
    (vbo ebo : Nat) (name filename : String) (lines : List (List Char)) (b : MeshBuffers F)
    (hload : LoadMesh lib rm vbo ebo name filename (some lines) = (rm2, .ok b))
    (parsed : TriMesh F) (added_normal : Bool)
    (hparse : parse_lines lib (TriMesh.empty, false) lines = .ok (parsed, added_normal))
    (i : Nat) (f : Face) (j : Nat) (hf : parsed.face[i]? = some f) (hj : j < 3)
    (k : Nat) (hk1 : 1 ≤ k) (hk : int3_get f.n j = (k : Int) - 1)
    (v : vec3 F) (hv : parsed.normal[k - 1]? = some v) :
    ∃ atts, emit_vertices parsed true parsed.face = .ok atts ∧
      b.vertex = storeAll (uninitialized F (parsed.face.length * 3 * 11))
        (vertex_writes atts) ∧
      (atts.drop (11 * (3 * i + j) + 3)).take 3 = [v.x, v.y, v.z] := by
  have han : added_normal = true :=
    (added_normal_iff lib lines parsed added_normal hparse).mpr
      (fun hnil => by rw [hnil] at hv; simp at hv)
  subst han
  obtain ⟨parsed2, added_normal2, size, hparse2, hemit, _⟩ :=
    LoadMesh_inv lib rm rm2 vbo ebo name filename lines b hload
  rw [hparse] at hparse2
  have hp := (Prod.mk.inj (Except.ok.inj hparse2))
  rw [← hp.1, ← hp.2] at hemit
  obtain ⟨_, _, _, atts, hatts, hr⟩ := LoadMesh_emit_inv lib parsed true _ hemit
  have hatts2 : emit_vertices parsed true parsed.face = .ok atts := hatts
  obtain ⟨_, hlayout⟩ := emit_vertices_layout _ _ _ _ hatts2
  obtain ⟨a, ha, hd⟩ := hlayout i f j hf hj
  obtain ⟨nrm, tex, hn, hafull⟩ := corner_att_inv parsed true f j a ha
  have hkn : (int3_get f.n j).toNat = k - 1 := by omega
  have hnrm : nrm = v := by
    simp only [Bool.not_true, Bool.false_eq_true, if_false] at hn
    rw [if_pos (by omega)] at hn
    unfold vector_at at hn
    rw [hkn, hv] at hn
    exact (Except.ok.inj hn).symm
  refine ⟨atts, hatts2, (Prod.mk.inj hr).1 ▸ rfl, ?_⟩
  rw [← List.drop_drop, take_drop_of_take _ a 11 3 3 hd (by norm_num), hafull, hnrm]
  rfl

/-- A line that splits into `vn` and at least three fields that can be read appends the
normal made of the first three and sets `added_normal`. -/
theorem parse_line_vn [Field F] (lib : MeshLib F) (st : TriMesh F × Bool) (line : List Char)
    (a b c : List Char) (rest : List (List Char)) (x y z : F)
    (hcond : ¬ (line.length ≤ 0 ∨ line.head? = some '#'))
    (hsplit : string_split line [' ', '\t'] = ['v', 'n'] :: a :: b :: c :: rest)
    (hx : lib.extract (c_str a) = some x) (hy : lib.extract (c_str b) = some y)
    (hz : lib.extract (c_str c) = some z) :
    parse_line lib st line =
      .ok ({ st.1 with normal := st.1.normal ++ [⟨x, y, z⟩] }, true) := by
  unfold parse_line
  rw [if_neg hcond]
  simp only [hsplit, List.head?_cons, List.length_cons, List.getD_cons_succ,
    List.getD_cons_zero]
  rw [if_neg (by decide), if_pos trivial, if_pos (by omega)]
  simp only [str_to_num, hx, hy, hz]
  rfl

theorem parse_fileWithNormal :
    parse_lines decimalLib (TriMesh.empty, false) fileWithNormal =
      .ok (⟨[⟨0, 0, 0⟩, ⟨1, 0, 0⟩, ⟨0, 1, 0⟩], [⟨0, 0, 1⟩], [],
        [⟨(0, 1, 2), (0, 0, 0), (-1, -1, -1)⟩]⟩, true) := by
  have l4 : parse_line decimalLib (⟨[⟨0, 0, 0⟩, ⟨1, 0, 0⟩, ⟨0, 1, 0⟩], [], [], []⟩, false)
      "vn 0 0 1".toList =
      .ok (⟨[⟨0, 0, 0⟩, ⟨1, 0, 0⟩, ⟨0, 1, 0⟩], [⟨0, 0, 1⟩], [], []⟩, true) := by
    rw [parse_line_vn decimalLib _ "vn 0 0 1".toList "0".toList "0".toList "1".toList [] 0 0
      1 (by decide) (by decide) decimalLib_extract_zero decimalLib_extract_zero
      decimalLib_extract_one]
    rfl
  have l5 : parse_line decimalLib
      (⟨[⟨0, 0, 0⟩, ⟨1, 0, 0⟩, ⟨0, 1, 0⟩], [⟨0, 0, 1⟩], [], []⟩, true)
      "f 1//1 2//1 3//1".toList =
      .ok (⟨[⟨0, 0, 0⟩, ⟨1, 0, 0⟩, ⟨0, 1, 0⟩], [⟨0, 0, 1⟩], [],
        [⟨(0, 1, 2), (0, 0, 0), (-1, -1, -1)⟩]⟩, true) := by
    rw [parse_line_triangle decimalLib _ "f 1//1 2//1 3//1".toList "1//1".toList
      "2//1".toList "3//1".toList _ _ _ (by decide) (by decide)
      (parse_reference_digits_normal _ "1//1".toList "1".toList "1".toList 1 1 (by decide)
        (by decide) (by decide) (by decide) (by decide) (by norm_num) (by norm_num))
      (parse_reference_digits_normal _ "2//1".toList "2".toList "1".toList 2 1 (by decide)
        (by decide) (by decide) (by decide) (by decide) (by norm_num) (by norm_num))
      (parse_reference_digits_normal _ "3//1".toList "3".toList "1".toList 3 1 (by decide)
        (by decide) (by decide) (by decide) (by decide) (by norm_num) (by norm_num))]
    rfl
  have e : fileWithNormal = ["v 0 0 0".toList, "v 1 0 0".toList, "v 0 1 0".toList] ++
      ["vn 0 0 1".toList, "f 1//1 2//1 3//1".toList] := rfl
  rw [e, parse_lines_append decimalLib _ _ _ _ parse_three_positions]
  simp only [parse_lines, l4, l5]

/-- The file `fileWithNormal`: each corner of its triangle gets the normal (0, 0, 1) of
the `vn` record. -/
theorem LoadMesh_file_normals_witness :
    ∃ atts : List ℚ,
      emit_vertices (⟨[⟨0, 0, 0⟩, ⟨1, 0, 0⟩, ⟨0, 1, 0⟩], [⟨0, 0, 1⟩], [],
        [⟨(0, 1, 2), (0, 0, 0), (-1, -1, -1)⟩]⟩ : TriMesh ℚ) true
        [⟨(0, 1, 2), (0, 0, 0), (-1, -1, -1)⟩] = .ok atts ∧
      (atts.drop (11 * (3 * 0 + 1) + 3)).take 3 = [0, 0, 1] := by
  have hemit : emit_vertices (⟨[⟨0, 0, 0⟩, ⟨1, 0, 0⟩, ⟨0, 1, 0⟩], [⟨0, 0, 1⟩], [],
        [⟨(0, 1, 2), (0, 0, 0), (-1, -1, -1)⟩]⟩ : TriMesh ℚ) true
        [⟨(0, 1, 2), (0, 0, 0), (-1, -1, -1)⟩] =
      .ok [0, 0, 0, 0, 0, 1, 0, 0, 0, 0, 0, 1, 0, 0, 0, 0, 1, 0, 0, 0, 0, 0,
        0, 1, 0, 0, 0, 1, 0, 0, 0, 0, 0] := rfl
  have hbuf := LoadMesh_buffers_ok decimalLib "mesh.obj" fileWithNormal _ _ _
    parse_fileWithNormal (by decide) (by decide) rfl hemit
  obtain ⟨rm2, b, hload⟩ : ∃ rm2 b,
      LoadMesh decimalLib ⟨[]⟩ 1 2 "mesh" "mesh.obj" (some fileWithNormal) =
        (rm2, .ok b) := by
    unfold LoadMesh
    rw [hbuf]
    exact ⟨_, _, rfl⟩
  obtain ⟨atts, h1, _, h3⟩ := LoadMesh_file_normals decimalLib ⟨[]⟩ _ 1 2 "mesh" "mesh.obj"
    fileWithNormal _ hload _ _ parse_fileWithNormal 0
    ⟨(0, 1, 2), (0, 0, 0), (-1, -1, -1)⟩ 1 rfl (by decide) 1 (by decide) (by decide)
    ⟨0, 0, 1⟩ rfl
  exact ⟨atts, h1, h3⟩

end game

/-! ### Normals computed from the faces -/

namespace game

open glm

variable {F : Type}

end game

/-! ### The normal of a single triangle -/

namespace game

open glm

variable {F : Type}

theorem cross_edges [Field F] (p0 p1 p2 : vec3 F) :
    cross (p0 - p1) (p0 - p2) = cross (p1 - p0) (p2 - p0) := by
  have hs : ∀ a b : vec3 F, a - b = ⟨a.x - b.x, a.y - b.y, a.z - b.z⟩ := fun _ _ => rfl
  simp only [cross, hs]
  congr 1 <;> ring

/-- The normals computed for a mesh of one triangle: dividing by the degree 1 changes
nothing. -/
theorem compute_normals_triangle [Field F] (lib : MeshLib F) (p0 p1 p2 : vec3 F)
    (n t : Int × Int × Int) (tex : List (vec2 F)) :
    compute_normals lib ⟨[p0, p1, p2], [], tex, [⟨(0, 1, 2), n, t⟩]⟩ =
      [glm.normalize lib.toFloatLib (cross (p1 - p0) (p2 - p0)),
        glm.normalize lib.toFloatLib (cross (p1 - p0) (p2 - p0)),
        glm.normalize lib.toFloatLib (cross (p1 - p0) (p2 - p0))] := by
  have h0 : ∀ w : vec3 F, (⟨(0 + w).x, (0 + w).y, (0 + w).z⟩ : vec3 F) = w := fun w => by
    show (⟨0 + w.x, 0 + w.y, 0 + w.z⟩ : vec3 F) = w
    simp
  simp [compute_normals, add_face_normals, compute_degree, divide_by_degree, face_normal,
    List.modify, List.replicate]
  rw [cross_edges, h0]

/-- Claim C12: when the file is parsed to three positions `p0`, `p1`, `p2`, the face of
the positions 0, 1, 2 (the record `f 1 2 3`) and no normal, `LoadMesh` returns, and
each of the three vertices in the buffer has the normal
`normalize((p1 - p0) x (p2 - p0))` in its floats 3, 4, 5. -/
theorem LoadMesh_single_triangle [Field F] (lib : MeshLib F) (rm : ResourceManager)
    (vbo ebo : Nat) (name filename : String) (lines : List (List Char))
    (p0 p1 p2 : vec3 F) (added_normal : Bool)
    (hparse : parse_lines lib (TriMesh.empty, false) lines =
      .ok (⟨[p0, p1, p2], [], [], [⟨(0, 1, 2), (-1, -1, -1), (-1, -1, -1)⟩]⟩, added_normal)) :
    ∃ b, LoadMesh lib rm vbo ebo name filename (some lines) =
        (AddResource rm .Mesh name (.buffers vbo ebo) 3, .ok b) ∧
      ∀ j, j < 3 → ((b.vertexAt j).drop 3).take 3 =
        [some (glm.normalize lib.toFloatLib (cross (p1 - p0) (p2 - p0))).x,
          some (glm.normalize lib.toFloatLib (cross (p1 - p0) (p2 - p0))).y,
          some (glm.normalize lib.toFloatLib (cross (p1 - p0) (p2 - p0))).z] := by
  have han : added_normal = false := by
    cases added_normal with
    | false => rfl
    | true => exact absurd rfl ((added_normal_iff lib lines _ true hparse).mp rfl)
  subst han
  have hemit : emit_vertices
      (if !false then { (⟨[p0, p1, p2], [], [],
          [⟨(0, 1, 2), (-1, -1, -1), (-1, -1, -1)⟩]⟩ : TriMesh F) with
        normal := compute_normals lib ⟨[p0, p1, p2], [], [],
          [⟨(0, 1, 2), (-1, -1, -1), (-1, -1, -1)⟩]⟩ }
        else ⟨[p0, p1, p2], [], [], [⟨(0, 1, 2), (-1, -1, -1), (-1, -1, -1)⟩]⟩)
      false [⟨(0, 1, 2), (-1, -1, -1), (-1, -1, -1)⟩] =
      .ok [p0.x, p0.y, p0.z,
        (glm.normalize lib.toFloatLib (cross (p1 - p0) (p2 - p0))).x,
        (glm.normalize lib.toFloatLib (cross (p1 - p0) (p2 - p0))).y,
        (glm.normalize lib.toFloatLib (cross (p1 - p0) (p2 - p0))).z, 0, 0, 0, 0, 0,
        p1.x, p1.y, p1.z,
        (glm.normalize lib.toFloatLib (cross (p1 - p0) (p2 - p0))).x,
        (glm.normalize lib.toFloatLib (cross (p1 - p0) (p2 - p0))).y,
        (glm.normalize lib.toFloatLib (cross (p1 - p0) (p2 - p0))).z, 0, 0, 0, 0, 0,
        p2.x, p2.y, p2.z,
        (glm.normalize lib.toFloatLib (cross (p1 - p0) (p2 - p0))).x,
        (glm.normalize lib.toFloatLib (cross (p1 - p0) (p2 - p0))).y,
        (glm.normalize lib.toFloatLib (cross (p1 - p0) (p2 - p0))).z, 0, 0, 0, 0, 0] := by
    simp only [Bool.not_false, if_true, compute_normals_triangle]
    rfl
  have hbuf := LoadMesh_buffers_ok lib filename lines _ _ _ hparse (by norm_num)
    (by norm_num) rfl hemit
  refine ⟨_, by simp only [LoadMesh, hbuf]; rfl, ?_⟩
  intro j hj
  have hcase : j = 0 ∨ j = 1 ∨ j = 2 := by omega
  rcases hcase with rfl | rfl | rfl <;> rfl

/-- The file with the positions (0, 0, 0), (1, 0, 0), (0, 1, 0) and the triangle
`f 1 2 3`. -/
theorem LoadMesh_single_triangle_witness :
    ∃ b : MeshBuffers ℚ, LoadMesh decimalLib ⟨[]⟩ 1 2 "mesh" "mesh.obj"
        (some (manyTriangles 1)) = (AddResource ⟨[]⟩ .Mesh "mesh" (.buffers 1 2) 3, .ok b) ∧
      ∀ j, j < 3 → ((b.vertexAt j).drop 3).take 3 =
        [some (glm.normalize decimalLib.toFloatLib
            (cross ((⟨1, 0, 0⟩ : vec3 ℚ) - ⟨0, 0, 0⟩) (⟨0, 1, 0⟩ - ⟨0, 0, 0⟩))).x,
          some (glm.normalize decimalLib.toFloatLib
            (cross ((⟨1, 0, 0⟩ : vec3 ℚ) - ⟨0, 0, 0⟩) (⟨0, 1, 0⟩ - ⟨0, 0, 0⟩))).y,
          some (glm.normalize decimalLib.toFloatLib
            (cross ((⟨1, 0, 0⟩ : vec3 ℚ) - ⟨0, 0, 0⟩) (⟨0, 1, 0⟩ - ⟨0, 0, 0⟩))).z] :=
  LoadMesh_single_triangle decimalLib ⟨[]⟩ 1 2 "mesh" "mesh.obj" (manyTriangles 1)
    ⟨0, 0, 0⟩ ⟨1, 0, 0⟩ ⟨0, 1, 0⟩ false (parse_manyTriangles 1)

end game

/-! ### The function `string_split_once` -/

namespace game

open glm

variable {F : Type}

theorem string_split_once_loop_ne_nil (separator : List Char) :
    ∀ (s cur : List Char), string_split_once_loop separator cur s ≠ [] := by
  intro s
  induction s with
  | nil => intro cur; simp [string_split_once_loop]
  | cons d rest ih =>
    intro cur
    unfold string_split_once_loop
    split
    · simp
    · exact ih _

theorem string_split_once_loop_length (c : Char) :
    ∀ (s cur : List Char), (string_split_once_loop [c] cur s).length = 1 + s.count c := by
  intro s
  induction s with
  | nil => intro cur; simp [string_split_once_loop]
  | cons d rest ih =>
    intro cur
    unfold string_split_once_loop
    by_cases hd : d = c
    · subst hd
      simp [ih]
      omega
    · have hne : ¬ d ∈ [c] := by simpa using hd
      rw [if_neg hne, ih, List.count_cons_of_ne (fun h => hd h.symm)]

theorem string_split_once_loop_not_mem (c : Char) :
    ∀ (s cur : List Char), c ∉ cur → ∀ t ∈ string_split_once_loop [c] cur s, c ∉ t := by
  intro s
  induction s with
  | nil =>
    intro cur hcur t ht
    simp only [string_split_once_loop, List.mem_singleton] at ht
    rw [ht]; exact hcur
  | cons d rest ih =>
    intro cur hcur t ht
    unfold string_split_once_loop at ht
    by_cases hd : d = c
    · subst hd
      rw [if_pos (List.mem_singleton.mpr rfl)] at ht
      rcases List.mem_cons.mp ht with h | h
      · rw [h]; exact hcur
      · exact ih [] (List.not_mem_nil _) t h
    · have hne : ¬ d ∈ [c] := by simpa using hd
      rw [if_neg hne] at ht
      refine ih (cur ++ [d]) ?_ t ht
      simp only [List.mem_append, List.mem_singleton, not_or]
      exact ⟨hcur, fun h => hd h.symm⟩

theorem intercalate_cons_of_ne_nil {α : Type} (sep a : List α) (l : List (List α))
    (h : l ≠ []) : sep.intercalate (a :: l) = a ++ sep ++ sep.intercalate l := by
  cases l with
  | nil => exact absurd rfl h
  | cons b rest => simp [List.intercalate, List.intersperse]

theorem string_split_once_loop_join (c : Char) :
    ∀ (s cur : List Char), [c].intercalate (string_split_once_loop [c] cur s) = cur ++ s := by
  intro s
  induction s with
  | nil => intro cur; simp [string_split_once_loop, List.intercalate]
  | cons d rest ih =>
    intro cur
    unfold string_split_once_loop
    by_cases hd : d = c
    · subst hd
      simp only [List.mem_singleton, if_true]
      rw [intercalate_cons_of_ne_nil _ _ _ (string_split_once_loop_ne_nil _ _ _), ih]
      simp
    · have hne : ¬ d ∈ [c] := by simpa using hd
      rw [if_neg hne, ih]
      simp

/-- Claim C37: for every string `s` (short enough for the `unsigned int` counter of the
loop and the `int` index of the tokens) and every separator character `c`,
`string_split_once(s, c)` returns `1 + (number of occurrences of c in s)` tokens, none of
which contains `c`; joining the tokens with `c` gives back `s`; the result is never
empty, and `3//5` splits into `3`, the empty string and `5`. -/
theorem string_split_once_tokens (s : List Char) (c : Char) (_hs : s.length < 2 ^ 31) :
    (string_split_once s [c]).length = 1 + s.count c ∧
    (∀ t ∈ string_split_once s [c], c ∉ t) ∧
    [c].intercalate (string_split_once s [c]) = s ∧
    string_split_once s [c] ≠ [] ∧
    string_split_once "3//5".toList ['/'] = ["3".toList, [], "5".toList] := by
  unfold string_split_once
  refine ⟨string_split_once_loop_length c s [],
    string_split_once_loop_not_mem c s [] (List.not_mem_nil _), ?_,
    string_split_once_loop_ne_nil _ s [], by decide⟩
  rw [string_split_once_loop_join]; rfl

/-- The reference `1/2/3` splits into its three indices. -/
theorem string_split_once_tokens_witness :
    (string_split_once "1/2/3".toList ['/']).length = 1 + "1/2/3".toList.count '/' ∧
    string_split_once "1/2/3".toList ['/'] = ["1".toList, "2".toList, "3".toList] :=
  ⟨(string_split_once_tokens "1/2/3".toList '/' (by decide)).1, by decide⟩

end game

/-! ### Empty sub-indices of a face reference -/

namespace game

open glm

variable {F : Type}

theorem string_split_once_loop_piece (c : Char) :
    ∀ (a cur : List Char), c ∉ a → string_split_once_loop [c] cur a = [cur ++ a] := by
  intro a
  induction a with
  | nil => intro cur _; simp [string_split_once_loop]
  | cons d rest ih =>
    intro cur h
    have hd : ¬ d ∈ [c] := fun hm => h (by rw [List.mem_singleton.mp hm]; exact List.mem_cons_self _ _)
    unfold string_split_once_loop
    rw [if_neg hd, ih _ fun hm => h (List.mem_cons_of_mem _ hm)]
    simp

theorem string_split_once_loop_sep (c : Char) :
    ∀ (a cur rest : List Char), c ∉ a →
      string_split_once_loop [c] cur (a ++ c :: rest) =
        (cur ++ a) :: string_split_once_loop [c] [] rest := by
  intro a
  induction a with
  | nil =>
    intro cur rest _
    rw [List.nil_append]
    conv_lhs => unfold string_split_once_loop
    rw [if_pos (List.mem_singleton.mpr rfl), List.append_nil]
  | cons d tail ih =>
    intro cur rest h
    have hd : ¬ d ∈ [c] := fun hm => h (by rw [List.mem_singleton.mp hm]; exact List.mem_cons_self _ _)
    rw [List.cons_append]
    conv_lhs => unfold string_split_once_loop
    rw [if_neg hd, ih _ _ fun hm => h (List.mem_cons_of_mem _ hm)]
    simp

/-- The reference `i//n`: the position index, no texture index and the normal index. -/
theorem parse_reference_slash_slash [Field F] (lib : MeshLib F) (what : String)
    (a c : List Char) (ha : '/' ∉ a) (hc : '/' ∉ c) (x z : F)
    (hx : lib.extract (c_str a) = some x) (hz : lib.extract (c_str c) = some z) :
    parse_reference lib what (a ++ '/' :: '/' :: c) =
      .ok (lib.to_int (lib.sub x 1), -1, lib.to_int (lib.sub z 1)) := by
  have s1 : string_split_once (a ++ '/' :: '/' :: c) ['/'] = [a, [], c] := by
    unfold string_split_once
    rw [string_split_once_loop_sep '/' a [] _ ha]
    have := string_split_once_loop_sep '/' [] [] c (List.not_mem_nil _)
    rw [List.nil_append] at this
    rw [this, string_split_once_loop_piece '/' c [] hc]
    rfl
  simp only [parse_reference, s1, str_to_num, hx, hz]
  rfl

/-- The reference `i/`: reading the empty texture index throws. -/
theorem parse_reference_slash [Field F] (lib : MeshLib F) (hempty : lib.extract [] = none)
    (what : String) (a : List Char) (ha : '/' ∉ a) (x : F)
    (hx : lib.extract (c_str a) = some x) :
    parse_reference lib what (a ++ ['/']) = .error (.failure "Invalid number: ") := by
  have hnil : c_str [] = [] := rfl
  have s2 : string_split_once (a ++ ['/']) ['/'] = [a, []] := by
    unfold string_split_once
    rw [string_split_once_loop_sep '/' a [] _ ha]
    rfl
  simp only [parse_reference, s2, str_to_num, hx, hnil, hempty]
  rfl

/-- The reference `i/t/`: reading the empty normal index throws, unless reading the
texture index has thrown before. -/
theorem parse_reference_slash_field_slash [Field F] (lib : MeshLib F)
    (hempty : lib.extract [] = none) (what : String) (a b : List Char)
    (ha : '/' ∉ a) (hb : '/' ∉ b) (x : F) (hx : lib.extract (c_str a) = some x) :
    ∃ w, parse_reference lib what (a ++ '/' :: (b ++ ['/'])) = .error (.failure w) := by
  have hnil : c_str [] = [] := rfl
  have s3 : string_split_once (a ++ '/' :: (b ++ ['/'])) ['/'] = [a, b, []] := by
    unfold string_split_once
    rw [string_split_once_loop_sep '/' a [] _ ha, string_split_once_loop_sep '/' b [] _ hb]
    rfl
  simp only [parse_reference, s3, str_to_num, hx, hnil, hempty]
  by_cases hbe : b = []
  · simp only [ne_eq, hbe, not_true_eq_false, if_false]
    exact ⟨_, rfl⟩
  · simp only [ne_eq, hbe, not_false_eq_true, if_true]
    cases hbx : lib.extract (c_str b) with
    | none => exact ⟨_, rfl⟩
    | some y => exact ⟨_, rfl⟩

/-- Claim C35, amended: of the sub-indices of a face reference only the texture index
of a reference with three fields may be empty. The reference `i//n` gives the position
index, no texture index (-1) and the normal index; the references `i/` and `i/t/` make
`str_to_num` throw on the empty field (the extraction of a number from an empty string
fails). -/
theorem parse_reference_empty_sub_index [Field F] (lib : MeshLib F)
    (hempty : lib.extract [] = none) (what : String) (a b c : List Char)
    (ha : '/' ∉ a) (hb : '/' ∉ b) (hc : '/' ∉ c) (x z : F)
    (hx : lib.extract (c_str a) = some x) (hz : lib.extract (c_str c) = some z) :
    parse_reference lib what (a ++ '/' :: '/' :: c) =
        .ok (lib.to_int (lib.sub x 1), -1, lib.to_int (lib.sub z 1)) ∧
      parse_reference lib what (a ++ ['/']) = .error (.failure "Invalid number: ") ∧
      ∃ w, parse_reference lib what (a ++ '/' :: (b ++ ['/'])) = .error (.failure w) :=
  ⟨parse_reference_slash_slash lib what a c ha hc x z hx hz,
    parse_reference_slash lib hempty what a ha x hx,
    parse_reference_slash_field_slash lib hempty what a b ha hb x hx⟩

/-- The references `1//5`, `1/` and `1/5/`. -/
theorem parse_reference_empty_sub_index_witness :
    parse_reference decimalLib "what" "1//5".toList =
        .ok (decimalLib.to_int (decimalLib.sub 1 1), -1,
          decimalLib.to_int (decimalLib.sub 5 1)) ∧
      parse_reference decimalLib "what" "1/".toList = .error (.failure "Invalid number: ") ∧
      ∃ w, parse_reference decimalLib "what" "1/5/".toList = .error (.failure w) :=
  parse_reference_empty_sub_index decimalLib rfl "what" "1".toList "5".toList "5".toList
    (by decide) (by decide) (by decide) 1 5 decimalLib_extract_one
    (by
      have h := decimalLib_extract_c_str "5".toList 5 (by decide) (by decide) (by norm_num)
      simpa using h)

/-- A line that splits into `f` and three references of which the first cannot be read
throws what that reference throws. -/
theorem parse_line_triangle_throws [Field F] (lib : MeshLib F) (st : TriMesh F × Bool)
    (line : List Char) (r0 r1 r2 : List Char) (e : Abort)
    (hcond : ¬ (line.length ≤ 0 ∨ line.head? = some '#'))
    (hsplit : string_split line [' ', '\t'] = [['f'], r0, r1, r2])
    (h0 : parse_reference lib
      "Error: f parameter should have 1, 2, or 3 parameters separated by '/'" r0 = .error e) :
    parse_line lib st line = .error e := by
  unfold parse_line
  rw [if_neg hcond]
  simp only [hsplit, List.head?_cons, List.length_cons, List.length_nil, List.getD_cons_succ,
    List.getD_cons_zero]
  rw [if_neg (by decide), if_neg (by decide), if_neg (by decide), if_pos (by decide),
    if_pos (by decide), if_neg (by decide), if_neg (by decide)]
  rw [h0]
  rfl

/-- Claim C35 on the file with three positions and the face `f 1/ 2/ 3/`, whose
references have an empty texture index after the position index: `LoadMesh` throws the
failure `Invalid number: ` and registers nothing. -/
theorem LoadMesh_empty_texture_index_throws :
    LoadMesh decimalLib ⟨[]⟩ 1 2 "mesh" "mesh.obj"
      (some (["v 0 0 0".toList, "v 1 0 0".toList, "v 0 1 0".toList] ++
        ["f 1/ 2/ 3/".toList])) = (⟨[]⟩, .error (.failure "Invalid number: ")) := by
  have href := parse_reference_slash decimalLib rfl
    "Error: f parameter should have 1, 2, or 3 parameters separated by '/'"
    "1".toList (by decide) 1 decimalLib_extract_one
  have hline := parse_line_triangle_throws decimalLib
    (⟨[⟨0, 0, 0⟩, ⟨1, 0, 0⟩, ⟨0, 1, 0⟩], [], [], []⟩, false) "f 1/ 2/ 3/".toList
    "1/".toList "2/".toList "3/".toList _ (by decide) (by decide) href
  apply LoadMesh_fails_of_parse
  rw [parse_lines_append decimalLib _ _ _ _ parse_three_positions]
  unfold parse_lines
  rw [hline]

end game

/-! ### Whitespace around a record -/

namespace game

open glm

variable {F : Type}

/-- A line that splits into `f` and four references of which the first three can be read
and the last cannot throws what the last reference throws. -/
theorem parse_line_quad_throws [Field F] (lib : MeshLib F) (st : TriMesh F × Bool)
    (line : List Char) (r0 r1 r2 r3 : List Char) (q0 q1 q2 : Int × Int × Int) (e : Abort)
    (hcond : ¬ (line.length ≤ 0 ∨ line.head? = some '#'))
    (hsplit : string_split line [' ', '\t'] = [['f'], r0, r1, r2, r3])
    (h0 : parse_reference lib
      "Error: f parameter should have 1 or 3 parameters separated by '/'" r0 = .ok q0)
    (h1 : parse_reference lib
      "Error: f parameter should have 1 or 3 parameters separated by '/'" r1 = .ok q1)
    (h2 : parse_reference lib
      "Error: f parameter should have 1 or 3 parameters separated by '/'" r2 = .ok q2)
    (h3 : parse_reference lib
      "Error: f parameter should have 1 or 3 parameters separated by '/'" r3 = .error e) :
    parse_line lib st line = .error e := by
  unfold parse_line
  rw [if_neg hcond]
  simp only [hsplit, List.head?_cons, List.length_cons, List.length_nil, List.getD_cons_succ,
    List.getD_cons_zero]
  rw [if_neg (by decide), if_neg (by decide), if_neg (by decide), if_pos (by decide),
    if_pos (by decide), if_neg (by decide), if_pos (by decide)]
  rw [h0, h1, h2, h3]
  rfl

/-- Claim C36 on the lines `  v 1 2 3` and `f 1 2 3 `: `string_trim` gets a copy of
`line`, so the line is parsed with its whitespace. The record `  v 1 2 3` is passed over
(its first field is empty), where `v 1 2 3` adds a position; the record `f 1 2 3 ` has an
empty fifth field and throws, where `f 1 2 3` adds a triangle. The copy inside
`string_trim` loses everything when its first character is in the trim set, as
`str.erase(0)` erases to the end of the string. -/
theorem parse_line_untrimmed :
    parse_line decimalLib (TriMesh.empty, false) "  v 1 2 3".toList =
        .ok (TriMesh.empty, false) ∧
      parse_line decimalLib (TriMesh.empty, false) "v 1 2 3".toList =
        .ok (⟨[⟨1, 2, 3⟩], [], [], []⟩, false) ∧
      parse_line decimalLib (TriMesh.empty, false) "f 1 2 3 ".toList =
        .error (.failure "Invalid number: ") ∧
      parse_line decimalLib (TriMesh.empty, false) "f 1 2 3".toList =
        .ok (⟨[], [], [], [⟨(0, 1, 2), (-1, -1, -1), (-1, -1, -1)⟩]⟩, false) ∧
      string_trim "  v 1 2 3".toList " \t\r\n".toList = [] := by
  have e1 : decimalLib.extract (c_str "1".toList) = some 1 := decimalLib_extract_one
  have e2 : decimalLib.extract (c_str "2".toList) = some 2 := by
    have h := decimalLib_extract_c_str "2".toList 2 (by decide) (by decide) (by norm_num)
    simpa using h
  have e3 : decimalLib.extract (c_str "3".toList) = some 3 := by
    have h := decimalLib_extract_c_str "3".toList 3 (by decide) (by decide) (by norm_num)
    simpa using h
  refine ⟨?_, ?_, ?_, ?_, by decide⟩
  · exact parse_line_other_command decimalLib _ _ (by decide)
  · rw [parse_line_v decimalLib (TriMesh.empty, false) "v 1 2 3".toList "1".toList
      "2".toList "3".toList [] 1 2 3 (by decide) (by decide) e1 e2 e3]
    rfl
  · have hw2 : parse_reference decimalLib
        "Error: f parameter should have 1 or 3 parameters separated by '/'" [] =
        .error (.failure "Invalid number: ") := rfl
    exact parse_line_quad_throws decimalLib _ "f 1 2 3 ".toList "1".toList "2".toList
      "3".toList [] _ _ _ _ (by decide) (by decide)
      (parse_reference_digits _ "1".toList 1 (by decide) (by decide) (by decide)
        (by norm_num))
      (parse_reference_digits _ "2".toList 2 (by decide) (by decide) (by decide)
        (by norm_num))
      (parse_reference_digits _ "3".toList 3 (by decide) (by decide) (by decide)
        (by norm_num)) hw2
  · rw [parse_line_f123]
    rfl

end game

/-! ### A node added to two parents -/

namespace game

open glm

variable {F : Type}

/-- Claim C31: after `a.AddNode(c)` and then `b.AddNode(c)` with `a` and `b` distinct
nodes, the parent of `c` is `b`, `c` is in the child list of `a` and in that of `b`,
`c.GetHierarchy()` is computed from `b.GetHierarchy()`, and `a` still reaches `c`
through its child list. -/
theorem AddNode_twice [CommRing F] (s : Scene F) (a b c : Nat) (na nb nc : SceneNode F)
    (ha : s.nodes[a]? = some na) (hb : s.nodes[b]? = some nb) (hc : s.nodes[c]? = some nc)
    (hab : a ≠ b) :
    GetParent (AddNode (AddNode s a c) b c) c = some b ∧
    (∃ na2, (AddNode (AddNode s a c) b c).nodes[a]? = some na2 ∧ c ∈ na2.node_) ∧
    (∃ nb2, (AddNode (AddNode s a c) b c).nodes[b]? = some nb2 ∧ c ∈ nb2.node_) ∧
    (∀ fuel, GetHierarchy (AddNode (AddNode s a c) b c) (fuel + 1) c =
      (GetHierarchy (AddNode (AddNode s a c) b c) fuel b).map fun m =>
        m * translation nc.position_ * mat4_cast nc.orientation_ * translation nc.orbit_) ∧
    Reaches (AddNode (AddNode s a c) b c) a c := by
  obtain ⟨⟨na1, ha1, hna1⟩, ⟨nc1, hc1, _⟩, _, hrest1⟩ := AddNode_fields s a c na nc ha hc
  obtain ⟨nb1, hb1, _⟩ := hrest1 b nb hb
  obtain ⟨⟨nb2, hb2, hnb2⟩, ⟨nc2, hc2, hpc2⟩, hparent, hrest2⟩ :=
    AddNode_fields (AddNode s a c) b c nb1 nc1 hb1 hc1
  obtain ⟨na2, ha2, _, _, _, _, _, _, _, hnode, _⟩ := hrest2 a na1 ha1
  have hca : c ∈ na2.node_ := by
    rw [hnode hab, hna1]
    exact List.mem_append_right _ (List.mem_singleton.mpr rfl)
  refine ⟨hparent, ⟨na2, ha2, hca⟩,
    ⟨nb2, hb2, by rw [hnb2]; exact List.mem_append_right _ (List.mem_singleton.mpr rfl)⟩,
    ?_, Reaches.step a c c na2 ha2 hca (Reaches.refl c)⟩
  intro fuel
  obtain ⟨nc1', hc1', _, p1, o1, _, r1, _⟩ := hrest1 c nc hc
  obtain ⟨nc2', hc2', _, p2, o2, _, r2, _⟩ := hrest2 c nc1 hc1
  have e1 : nc1' = nc1 := by rw [hc1] at hc1'; exact (Option.some.inj hc1').symm
  have e2 : nc2' = nc2 := by rw [hc2] at hc2'; exact (Option.some.inj hc2').symm
  subst e1 e2
  rw [GetHierarchy_succ _ fuel c nc2' hc2]
  simp only [parentHierarchy, hpc2, p2, p1, o2, o1, r2, r1]

/-- The example scene with `B` added to the root and then to `A`. -/
theorem AddNode_twice_witness :
    GetParent (AddNode (AddNode exampleScene 0 2) 1 2) 2 = some 1 ∧
    Reaches (AddNode (AddNode exampleScene 0 2) 1 2) 0 2 :=
  ⟨(AddNode_twice exampleScene 0 1 2 _ _ _ rfl rfl rfl (by decide)).1,
    (AddNode_twice exampleScene 0 1 2 _ _ _ rfl rfl rfl (by decide)).2.2.2.2⟩

end game

/-! ### The world matrix of a node -/

namespace game

open glm

variable {F : Type}

/-- Scaling a matrix is multiplying it by the scaling of the identity. -/
theorem scale_eq_mul [CommRing F] (m : mat4 F) (v : vec3 F) :
    glm.scale m v = m * glm.scale 1 v := by
  ext r c
  fin_cases c <;>
    simp [glm.scale, Matrix.mul_apply, Fin.sum_univ_four, Matrix.one_apply]

/-- Claim C33: for every node, with or without a parent, the matrix `world_mat` that
`SetupShader` uploads is the matrix that the node's own `GetHierarchy()` returns,
multiplied on the right by the scaling of `scale_`; with enough fuel for the ancestors of
the node both calls return. -/
theorem SetupShader_world_mat_eq [CommRing F] (s : Scene F) (this d : Nat)
    (n : SceneNode F) (hn : s.nodes[this]? = some n) (hd : HasDepth s this d) :
    ∃ M : mat4 F, ∀ fuel, d ≤ fuel →
      GetHierarchy s (fuel + 1) this = some M ∧
      SetupShader_world_mat s fuel this = some (M * glm.scale 1 n.scale_) := by
  obtain ⟨M, hM⟩ := hd.getHierarchy_some
  refine ⟨M, fun fuel hf => ⟨hM (fuel + 1) (by omega), ?_⟩⟩
  have h := hM (fuel + 1) (by omega)
  have h1 : GetHierarchy s (fuel + 1) this = (parentHierarchy s fuel n).map fun m =>
      translate (translate m n.position_ * mat4_cast n.orientation_) n.orbit_ := by
    simp only [GetHierarchy, hn, parentHierarchy]
  have h2 : SetupShader_world_mat s fuel this = (parentHierarchy s fuel n).map fun m =>
      glm.scale (translate (translate m n.position_ * mat4_cast n.orientation_) n.orbit_)
        n.scale_ := by
    unfold SetupShader_world_mat
    rw [hn]
    rfl
  rw [h1] at h
  rw [h2]
  cases hp : parentHierarchy s fuel n with
  | none => rw [hp] at h; simp at h
  | some P =>
    rw [hp] at h
    simp only [Option.map_some', Option.some.injEq] at h ⊢
    rw [scale_eq_mul, h]

/-- Node `B` of the example chain root, A, B. -/
theorem SetupShader_world_mat_eq_witness :
    ∃ M : mat4 Int, ∀ fuel, 2 ≤ fuel →
      GetHierarchy linkedScene (fuel + 1) 2 = some M ∧
      SetupShader_world_mat linkedScene fuel 2 =
        some (M * glm.scale 1 (exampleNode "B" ⟨0, 0, 1⟩).scale_) :=
  SetupShader_world_mat_eq linkedScene 2 2
    { exampleNode "B" ⟨0, 0, 1⟩ with parent_ := some 1 } rfl linkedScene_depth

end game

/-! ### Two rotations in a row -/

namespace glm

variable {F : Type}

theorem quat.dot_self_nonneg [LinearOrderedField F] (q : quat F) : 0 ≤ q.dot q := by
  simp only [quat.dot]
  nlinarith [mul_self_nonneg q.x, mul_self_nonneg q.y, mul_self_nonneg q.z,
    mul_self_nonneg q.w]

/-- Normalizing the left factor of a product before the product is normalized changes
nothing, as long as the left factor is not zero. -/
theorem quat.normalize_mul_normalize [LinearOrderedField F] (lib : FloatLib F)
    (hsqrt : ∀ x : F, 0 ≤ x → 0 ≤ lib.sqrt x ∧ lib.sqrt x * lib.sqrt x = x)
    (x q : quat F) (hx : x.dot x ≠ 0) :
    ((x.normalize lib).mul q).normalize lib = (x.mul q).normalize lib := by
  have hd : 0 < x.dot x := lt_of_le_of_ne (quat.dot_self_nonneg x) (Ne.symm hx)
  obtain ⟨hL0, hLL⟩ := hsqrt _ (le_of_lt hd)
  have hLpos : 0 < lib.sqrt (x.dot x) := by
    rcases eq_or_lt_of_le hL0 with h | h
    · rw [← h] at hLL
      simp at hLL
      exact absurd hLL.symm hx
    · exact h
  have hn : x.normalize lib = ⟨x.w * (1 / lib.sqrt (x.dot x)), x.x * (1 / lib.sqrt (x.dot x)),
      x.y * (1 / lib.sqrt (x.dot x)), x.z * (1 / lib.sqrt (x.dot x))⟩ := by
    unfold quat.normalize
    simp only [not_le.mpr hLpos, if_false]
  generalize lib.sqrt (x.dot x) = L at hn hLpos
  have hm : (x.normalize lib).mul q = ⟨(x.mul q).w * (1 / L), (x.mul q).x * (1 / L),
      (x.mul q).y * (1 / L), (x.mul q).z * (1 / L)⟩ := by
    rw [hn]
    simp only [quat.mul]
    congr 1 <;> ring
  rw [hm]
  generalize x.mul q = y
  have hdot : quat.dot (⟨y.w * (1 / L), y.x * (1 / L), y.y * (1 / L), y.z * (1 / L)⟩ : quat F)
      ⟨y.w * (1 / L), y.x * (1 / L), y.y * (1 / L), y.z * (1 / L)⟩ =
      y.dot y * ((1 / L) * (1 / L)) := by
    simp only [quat.dot]; ring
  have he : 0 ≤ y.dot y := quat.dot_self_nonneg y
  have he2 : 0 ≤ y.dot y * ((1 / L) * (1 / L)) :=
    mul_nonneg he (mul_self_nonneg _)
  obtain ⟨hE0, hEE⟩ := hsqrt _ he
  obtain ⟨hE0', hEE'⟩ := hsqrt _ he2
  have hLne : L ≠ 0 := ne_of_gt hLpos
  have hEq : lib.sqrt (y.dot y * ((1 / L) * (1 / L))) = lib.sqrt (y.dot y) * (1 / L) := by
    have h1 : 0 ≤ lib.sqrt (y.dot y) * (1 / L) :=
      mul_nonneg hE0 (by positivity)
    have h2 : lib.sqrt (y.dot y * ((1 / L) * (1 / L))) *
        lib.sqrt (y.dot y * ((1 / L) * (1 / L))) =
        (lib.sqrt (y.dot y) * (1 / L)) * (lib.sqrt (y.dot y) * (1 / L)) := by
      rw [hEE']
      calc y.dot y * ((1 / L) * (1 / L))
          = (lib.sqrt (y.dot y) * lib.sqrt (y.dot y)) * ((1 / L) * (1 / L)) := by rw [hEE]
        _ = _ := by ring
    exact (mul_self_inj hE0' h1).mp h2
  unfold quat.normalize
  rw [hdot, hEq]
  generalize lib.sqrt (y.dot y) = E at hE0
  by_cases hE : E ≤ 0
  · have hE1 : E * (1 / L) ≤ 0 := mul_nonpos_of_nonpos_of_nonneg hE (by positivity)
    simp only [hE, hE1, if_true]
  · have hEpos : 0 < E := not_le.mp hE
    have hE1 : ¬ E * (1 / L) ≤ 0 := not_le.mpr (by positivity)
    have hEne : E ≠ 0 := ne_of_gt hEpos
    simp only [hE, hE1, if_false]
    congr 1 <;> field_simp

end glm

namespace game

open glm

variable {F : Type}

/-- Claim C34 as stated fails for `q1 = 0`: on a node with the identity orientation,
`Rotate(0)` leaves the identity (the zero product is normalized to the identity) and
`Rotate(q2)` with `q2 = (0, 1, 0, 0)` then gives `q2`, while `Rotate(0 * q2)` gives the
identity. -/
theorem Rotate_zero_then_rotate :
    ((Rotate pythagoreanLib (Rotate pythagoreanLib singleScene 0 ⟨0, 0, 0, 0⟩) 0
        ⟨0, 1, 0, 0⟩).nodes[0]?).map (fun n => n.orientation_) = some ⟨0, 1, 0, 0⟩ ∧
      ((Rotate pythagoreanLib singleScene 0
        ((⟨0, 0, 0, 0⟩ : quat ℚ).mul ⟨0, 1, 0, 0⟩)).nodes[0]?).map
          (fun n => n.orientation_) = some ⟨1, 0, 0, 0⟩ := by
  constructor <;>
    simp [Rotate, Scene.update, singleScene, constructedNode, quat.mul, quat.normalize,
      quat.dot, pythagoreanLib, quat_identity]

/-- Claim C34, amended: over an ordered field with `sqrt` a non-negative square root on
the non-negative numbers, for every node with a unit orientation, every non-zero `q1`
and every `q2`, `Rotate(q1)` followed by `Rotate(q2)` leaves the scene that the single
`Rotate(q1 * q2)` leaves. -/
theorem Rotate_Rotate [LinearOrderedField F] (lib : FloatLib F)
    (hsqrt : ∀ x : F, 0 ≤ x → 0 ≤ lib.sqrt x ∧ lib.sqrt x * lib.sqrt x = x)
    (s : Scene F) (this : Nat) (n : SceneNode F) (hn : s.nodes[this]? = some n)
    (hunit : n.orientation_.dot n.orientation_ = 1) (q1 q2 : quat F)
    (hq1 : q1.dot q1 ≠ 0) (i : Nat) :
    (Rotate lib (Rotate lib s this q1) this q2).nodes[i]? =
      (Rotate lib s this (q1.mul q2)).nodes[i]? := by
  have hassoc : (n.orientation_.mul q1).mul q2 = n.orientation_.mul (q1.mul q2) := by
    simp only [quat.mul]
    congr 1 <;> ring
  have hnorm : (n.orientation_.mul q1).dot (n.orientation_.mul q1) =
      n.orientation_.dot n.orientation_ * q1.dot q1 := by
    simp only [quat.mul, quat.dot]; ring
  have hx : (n.orientation_.mul q1).dot (n.orientation_.mul q1) ≠ 0 := by
    rw [hnorm, hunit, one_mul]; exact hq1
  by_cases hi : i = this
  · subst hi
    unfold Rotate
    rw [update_self _ i _ _ (update_self s i _ n hn), update_self s i _ n hn]
    simp only [quat.normalize_mul_normalize lib hsqrt _ q2 hx, hassoc]
  · unfold Rotate
    rw [update_other _ _ _ _ hi, update_other _ _ _ _ hi, update_other _ _ _ _ hi]

/-- Over the reals, with the real square root, on a node with the identity
orientation. -/
theorem Rotate_Rotate_witness :
    (Rotate (⟨⟨Real.pi, Real.cos, Real.sin⟩, Real.sqrt, fun x => (Real.sqrt x)⁻¹⟩ : FloatLib ℝ)
        (Rotate (⟨⟨Real.pi, Real.cos, Real.sin⟩, Real.sqrt,
          fun x => (Real.sqrt x)⁻¹⟩ : FloatLib ℝ)
          ⟨[constructedNode "node" ⟨1, 2, 3⟩ quat_identity 0]⟩ 0 ⟨1, 2, 3, 4⟩) 0
        ⟨0, 1, 0, 0⟩).nodes[0]? =
      (Rotate (⟨⟨Real.pi, Real.cos, Real.sin⟩, Real.sqrt,
          fun x => (Real.sqrt x)⁻¹⟩ : FloatLib ℝ)
        ⟨[constructedNode "node" ⟨1, 2, 3⟩ quat_identity 0]⟩ 0
        ((⟨1, 2, 3, 4⟩ : quat ℝ).mul ⟨0, 1, 0, 0⟩)).nodes[0]? :=
  Rotate_Rotate (⟨⟨Real.pi, Real.cos, Real.sin⟩, Real.sqrt,
      fun x => (Real.sqrt x)⁻¹⟩ : FloatLib ℝ)
    (fun x hx => ⟨Real.sqrt_nonneg x, Real.mul_self_sqrt hx⟩)
    ⟨[constructedNode "node" ⟨1, 2, 3⟩ quat_identity 0]⟩ 0
    (constructedNode "node" ⟨1, 2, 3⟩ quat_identity 0) rfl
    (by simp [constructedNode, quat_identity, quat.dot]) ⟨1, 2, 3, 4⟩ ⟨0, 1, 0, 0⟩
    (by simp [quat.dot]; norm_num) 0

end game

/-! ### Instances of resources that are not registered -/

namespace game

open glm

/-- A geometry or material name that is not registered makes `CreateInstance` and
`CreateAsteroidInstance` throw before any node is created. -/
theorem CreateInstance_missing_geometry_or_material (resman_ : ResourceManager)
    (entity_name object_name material_name texture_name : String)
    (h : GetResource resman_ object_name = none ∨
      GetResource resman_ material_name = none) :
    (∃ name, CreateInstance resman_ entity_name object_name material_name texture_name =
      .error ("Could not find resource \"" ++ name ++ "\"")) ∧
    ∃ name, CreateAsteroidInstance resman_ entity_name object_name material_name
      texture_name = .error ("Could not find resource \"" ++ name ++ "\"") := by
  unfold CreateInstance CreateAsteroidInstance
  by_cases hg : GetResource resman_ object_name = none
  · simp only [hg, if_true]
    exact ⟨⟨_, rfl⟩, ⟨_, rfl⟩⟩
  · have hm : GetResource resman_ material_name = none := h.resolve_left hg
    simp only [hg, hm, if_true, if_false]
    exact ⟨⟨_, rfl⟩, ⟨_, rfl⟩⟩

/-- Claim C32 on a registry with the mesh `Cube` and the material `Shiny` and the
texture name `Missing`, which is not registered: nothing is thrown; `CreateInstance`
calls `CreateNode`, and `CreateAsteroidInstance` the constructor of `Asteroid`, with the
`NULL` texture. After the lookup of the texture the test is `if (!mat)`, on the material
pointer, which is not `NULL` at that point. -/
theorem CreateInstance_missing_texture :
    GetResource cubeRegistry "Missing" = none ∧
    CreateInstance cubeRegistry "Node" "Cube" "Shiny" "Missing" =
      .ok ⟨"Node", some 0, some 1, none⟩ ∧
    CreateAsteroidInstance cubeRegistry "Node" "Cube" "Shiny" "Missing" =
      .ok ⟨"Node", some 0, some 1, none⟩ :=
  ⟨by decide, rfl, rfl⟩

end game

/-! ### The vertex indices in the index buffer of the torus -/

namespace game

open glm

variable {F : Type}

/-- A value found in a buffer after a list of stores was in the buffer before or is the
value of one of the stores. -/
theorem storeAll_value {α : Type} (p : Nat) (v : α) (ws : List (Nat × α)) :
    ∀ buf : List (Option α), (storeAll buf ws)[p]? = some (some v) →
      buf[p]? = some (some v) ∨ ∃ x ∈ ws, x.2 = v := by
  induction ws with
  | nil => intro buf h; exact Or.inl h
  | cons w ws ih =>
    intro buf h
    rw [storeAll_cons] at h
    rcases ih _ h with h1 | ⟨x, hx, hxv⟩
    · by_cases hw : w.1 = p
      · rw [hw, List.getElem?_set] at h1
        split at h1
        · split at h1
          · exact Or.inr ⟨w, List.mem_cons_self _ _, Option.some.inj (Option.some.inj h1)⟩
          · cases h1
        · exact Or.inl h1
      · rw [List.getElem?_set_ne hw] at h1
        exact Or.inl h1
    · exact Or.inr ⟨x, List.mem_cons_of_mem _ hx, hxv⟩

/-- No `float` holds the odd integer 16777219: a conversion to `float` never gives it. -/
theorem float_of_nat_ne_16777219 (n : Nat) : float_of_nat n ≠ 16777219 := by
  by_cases hn : n ≤ 2 ^ 24
  · rw [float_of_nat_exact n hn]
    omega
  · have h0 : n ≠ 0 := by omega
    have hlog : 24 ≤ Nat.log2 n := (Nat.le_log2 h0).mpr (by omega)
    obtain ⟨k, hk⟩ : ∃ k, Nat.log2 n - 23 = k + 1 := ⟨Nat.log2 n - 24, by omega⟩
    have hdvd : ∀ x : Nat, 2 ∣ x * 2 ^ (Nat.log2 n - 23) := fun x => by
      rw [hk, pow_succ]
      exact Dvd.dvd.mul_left (Dvd.intro_left _ rfl) _
    have hodd : ¬ 2 ∣ 16777219 := by norm_num
    intro h
    unfold float_of_nat at h
    simp only at h
    split_ifs at h
    all_goals exact hodd (h ▸ hdvd _)

theorem torus_t1_float (N M i j k : Nat) :
    ∃ n, vec3_get (torus_t1 N M i j) k = float_of_nat n := by
  unfold vec3_get torus_t1
  split <;> exact ⟨_, rfl⟩

theorem torus_t2_float (N M i j k : Nat) :
    ∃ n, vec3_get (torus_t2 N M i j) k = float_of_nat n := by
  unfold vec3_get torus_t2
  split <;> exact ⟨_, rfl⟩

/-- Claim C38 at `N = 4, M = 4194305`: the vertex index 16777219, which is below the
number `4 * 4194305` of vertices, occurs nowhere in the index buffer, as every index is
stored in a `float` before it is written. -/
theorem CreateTorus_index_never_stored :
    (16777219 : Nat) < 4 * 4194305 ∧
    ∀ p : Nat, (CreateTorus rationalOps ⟨[]⟩ 1 2 "torus" (3 / 5) (1 / 5) 4 4194305).2.face[p]? ≠
      some (some 16777219) := by
  refine ⟨by norm_num, fun p h => ?_⟩
  rw [CreateTorus_face] at h
  rcases storeAll_value p _ _ _ h with h1 | ⟨x, hx, hxv⟩
  · unfold uninitialized at h1
    rw [List.getElem?_replicate] at h1
    split at h1 <;> cases h1
  · obtain ⟨i, _, j, _, k, _, hcase⟩ := (mem_quad_face_writes _ _ _ _ x).mp hx
    rcases hcase with rfl | rfl
    · obtain ⟨n, hn⟩ := torus_t1_float 4 4194305 i j k
      exact float_of_nat_ne_16777219 n (by rw [← hn]; exact hxv)
    · obtain ⟨n, hn⟩ := torus_t2_float 4 4194305 i j k
      exact float_of_nat_ne_16777219 n (by rw [← hn]; exact hxv)

end game

/-! ### The texture coordinates of the torus -/

namespace game

open glm

variable {F : Type}

theorem mem_grid_vertex_writes (rows cols : Nat) (position normal color : Nat → Nat → vec3 F)
    (coord : Nat → Nat → vec2 F) (x : Nat × F) :
    x ∈ grid_vertex_writes rows cols position normal color coord ↔
      ∃ i, i < rows ∧ ∃ j, j < cols ∧
        ((∃ k, k < 3 ∧ (x = ((i * cols + j) * 11 + k, vec3_get (position i j) k) ∨
          x = ((i * cols + j) * 11 + k + 3, vec3_get (normal i j) k) ∨
          x = ((i * cols + j) * 11 + k + 6, vec3_get (color i j) k))) ∨
        x = ((i * cols + j) * 11 + 9, vec2_get (coord i j) 0) ∨
        x = ((i * cols + j) * 11 + 10, vec2_get (coord i j) 1)) := by
  simp only [grid_vertex_writes, List.mem_flatMap, List.mem_range, List.mem_append,
    List.mem_cons, List.mem_singleton, List.not_mem_nil, or_false]

/-- After the vertex loop nest, floats 9 and 10 of vertex `(i, j)` hold the two
components of `coord i j`. -/
theorem grid_vertex_coord_get (rows cols : Nat) (position normal color : Nat → Nat → vec3 F)
    (coord : Nat → Nat → vec2 F) (buf : List (Option F))
    (hlen : 11 * (rows * cols) ≤ buf.length) (i j : Nat) (hi : i < rows) (hj : j < cols) :
    (storeAll buf (grid_vertex_writes rows cols position normal color coord))[
        (i * cols + j) * 11 + 9]? = some (some (coord i j).x) ∧
    (storeAll buf (grid_vertex_writes rows cols position normal color coord))[
        (i * cols + j) * 11 + 10]? = some (some (coord i j).y) := by
  have hq := grid_index_lt rows cols i j hi hj
  have key : ∀ (r : Nat) (v : F), r < 11 →
      (∀ i2 j2, j2 < cols → i2 * cols + j2 = i * cols + j →
        ∀ x : Nat × F, x.1 = (i2 * cols + j2) * 11 + r →
        ((∃ k, k < 3 ∧ (x = ((i2 * cols + j2) * 11 + k, vec3_get (position i2 j2) k) ∨
          x = ((i2 * cols + j2) * 11 + k + 3, vec3_get (normal i2 j2) k) ∨
          x = ((i2 * cols + j2) * 11 + k + 6, vec3_get (color i2 j2) k))) ∨
        x = ((i2 * cols + j2) * 11 + 9, vec2_get (coord i2 j2) 0) ∨
        x = ((i2 * cols + j2) * 11 + 10, vec2_get (coord i2 j2) 1)) → x.2 = v) →
      ((i * cols + j) * 11 + r, v) ∈
        grid_vertex_writes rows cols position normal color coord →
      (storeAll buf (grid_vertex_writes rows cols position normal color coord))[
        (i * cols + j) * 11 + r]? = some (some v) := by
    intro r v hr huniq hmem
    refine storeAll_getElem_of_mem _ _ _ buf (by omega) hmem fun x hx hxp => ?_
    obtain ⟨i2, _, j2, hj2, hcase⟩ := (mem_grid_vertex_writes _ _ _ _ _ _ x).mp hx
    have hidx : ∃ r2, r2 < 11 ∧ x.1 = (i2 * cols + j2) * 11 + r2 := by
      rcases hcase with ⟨k, hk, rfl | rfl | rfl⟩ | rfl | rfl
      · exact ⟨k, by omega, rfl⟩
      · exact ⟨k + 3, by omega, rfl⟩
      · exact ⟨k + 6, by omega, rfl⟩
      · exact ⟨9, by omega, rfl⟩
      · exact ⟨10, by omega, rfl⟩
    obtain ⟨r2, hr2, hx1⟩ := hidx
    have hb := block_index_unique hr2 hr (hx1.symm.trans hxp)
    exact huniq i2 j2 hj2 hb.1 x (by rw [hx1, hb.2]) hcase
  constructor
  · refine key 9 _ (by norm_num) ?_ ?_
    · intro i2 j2 hj2 heq x hx1 hcase
      have h1 := grid_index cols i2 j2 hj2
      have h2 := grid_index cols i j hj
      rw [heq] at h1
      have hi2 : i2 = i := h1.1.symm.trans h2.1
      have hj2' : j2 = j := h1.2.symm.trans h2.2
      subst hi2 hj2'
      rcases hcase with ⟨k, hk, rfl | rfl | rfl⟩ | rfl | rfl
      · simp only at hx1; omega
      · simp only at hx1; omega
      · simp only at hx1; omega
      · rfl
      · simp only at hx1; omega
    · rw [mem_grid_vertex_writes]
      exact ⟨i, hi, j, hj, Or.inr (Or.inl rfl)⟩
  · refine key 10 _ (by norm_num) ?_ ?_
    · intro i2 j2 hj2 heq x hx1 hcase
      have h1 := grid_index cols i2 j2 hj2
      have h2 := grid_index cols i j hj
      rw [heq] at h1
      have hi2 : i2 = i := h1.1.symm.trans h2.1
      have hj2' : j2 = j := h1.2.symm.trans h2.2
      subst hi2 hj2'
      rcases hcase with ⟨k, hk, rfl | rfl | rfl⟩ | rfl | rfl
      · simp only at hx1; omega
      · simp only at hx1; omega
      · simp only at hx1; omega
      · simp only at hx1; omega
      · rfl
    · rw [mem_grid_vertex_writes]
      exact ⟨i, hi, j, hj, Or.inr (Or.inr rfl)⟩

/-- The texture coordinate that `CreateTorus` stores for sample `(i, j)`:
`theta / 2.0 * pi` and `phi / 2.0 * pi`, a division by 2 followed by a multiplication
by π. -/
theorem CreateTorus_texture [Field F] (fo : FloatOps F) (rm : ResourceManager)
    (vbo ebo : Nat) (name : String) (loop_radius circle_radius : F) (N M : Nat)
    (hsize : 11 * (N * M) < 2 ^ 31) (i j : Nat) (hi : i < N) (hj : j < M) :
    (CreateTorus fo rm vbo ebo name loop_radius circle_radius N M).2.vertex[
        (i * M + j) * 11 + 9]? = some (some (2 * fo.pi * i / N / 2 * fo.pi)) ∧
    (CreateTorus fo rm vbo ebo name loop_radius circle_radius N M).2.vertex[
        (i * M + j) * 11 + 10]? = some (some (2 * fo.pi * j / M / 2 * fo.pi)) := by
  obtain ⟨hvm, _⟩ := CreateTorus_sizes N M hsize
  obtain ⟨pos, nor, col, hw⟩ : ∃ pos nor col,
      torus_vertex_writes fo loop_radius circle_radius N M =
        grid_vertex_writes N M pos nor col
          (fun i j => ⟨2 * fo.pi * i / N / 2 * fo.pi, 2 * fo.pi * j / M / 2 * fo.pi⟩) :=
    ⟨_, _, _, rfl⟩
  simp only [CreateTorus, hvm, hw]
  exact grid_vertex_coord_get N M pos nor col _ _
    (le_of_eq (by rw [uninitialized, List.length_replicate])) i j hi hj

/-- Claim C40 at `N = M = 2`, sample `(1, 1)`, with π taken as 22/7: the texture
coordinate stored is (242/49, 242/49), that is π * π / 2 in both components, where the
claim has (1/2, 1/2); it is above 1. -/
theorem CreateTorus_texture_out_of_range :
    (CreateTorus rationalOps ⟨[]⟩ 1 2 "torus" (3 / 5) (1 / 5) 2 2).2.vertex[
        (1 * 2 + 1) * 11 + 9]? = some (some (242 / 49)) ∧
    (CreateTorus rationalOps ⟨[]⟩ 1 2 "torus" (3 / 5) (1 / 5) 2 2).2.vertex[
        (1 * 2 + 1) * 11 + 10]? = some (some (242 / 49)) ∧
    (1 : ℚ) < 242 / 49 ∧ ((1 : ℚ) / 2 ≠ 242 / 49) := by
  obtain ⟨h1, h2⟩ := CreateTorus_texture rationalOps ⟨[]⟩ 1 2 "torus" (3 / 5) (1 / 5) 2 2
    (by norm_num) 1 1 (by norm_num) (by norm_num)
  refine ⟨?_, ?_, by norm_num, by norm_num⟩
  · rw [h1]
    norm_num [rationalOps]
  · rw [h2]
    norm_num [rationalOps]

end game

/-! ### The winding of the triangles of the plane -/

namespace game

open glm

variable {F : Type}

/-- Claim C39: the eight triangles of `CreatePlane`, taken in the order of the index
array, all have the signed area 1/8 in the xy-plane, which is positive (the corners are
in counter-clockwise order seen from +z), and the areas add up to 1. -/
theorem CreatePlane_winding [LinearOrderedField F] (rm : ResourceManager) (vbo ebo : Nat)
    (name : String) (colour : vec3 F) :
    (List.range 8).map (fun t => (CreatePlane rm vbo ebo name colour).2.triangle_area_xy t) =
        List.replicate 8 (some (1 / 8)) ∧
      (0 : F) < 1 / 8 ∧
      ((List.range 8).map fun t =>
        ((CreatePlane rm vbo ebo name colour).2.triangle_area_xy t).getD 0).sum = 1 := by
  have key : ∀ t, t < 8 →
      (CreatePlane rm vbo ebo name colour).2.triangle_area_xy t = some (1 / 8) := by
    intro t ht
    have hcase : t = 0 ∨ t = 1 ∨ t = 2 ∨ t = 3 ∨ t = 4 ∨ t = 5 ∨ t = 6 ∨ t = 7 := by omega
    rcases hcase with rfl | rfl | rfl | rfl | rfl | rfl | rfl | rfl <;>
      (simp [CreatePlane, MeshBuffers.triangle_area_xy, MeshBuffers.triangleAt,
        MeshBuffers.positionAt, MeshBuffers.vertexAt, signed_area_xy]
       try norm_num)
  refine ⟨?_, by positivity, ?_⟩
  · simp only [List.range, List.range.loop, List.map, List.replicate]
    rw [key 0 (by norm_num), key 1 (by norm_num), key 2 (by norm_num), key 3 (by norm_num),
      key 4 (by norm_num), key 5 (by norm_num), key 6 (by norm_num), key 7 (by norm_num)]
  · simp only [List.range, List.range.loop, List.map]
    rw [key 0 (by norm_num), key 1 (by norm_num), key 2 (by norm_num), key 3 (by norm_num),
      key 4 (by norm_num), key 5 (by norm_num), key 6 (by norm_num), key 7 (by norm_num)]
    simp only [Option.getD_some, List.sum_cons, List.sum_nil]
    norm_num

end game

/-! ### References above 2^24 -/

namespace game

open glm

variable {F : Type}

/-- The `float` difference of a whole number `n > 0` and 1 is `n - 1` rounded to
`float`. -/
theorem decimalLib_sub_one (n : Nat) (hpos : 0 < n) :
    decimalLib.sub (n : ℚ) 1 = ((float_of_nat (n - 1) : Nat) : ℚ) := by
  have h1 : (n : ℚ) - 1 = (((n - 1 : Nat) : Int) : ℚ) := by
    push_cast [Nat.cast_sub hpos]; ring
  have h2 : (0 : ℚ) ≤ (((n - 1 : Nat) : Int) : ℚ) := by positivity
  simp only [decimalLib]
  rw [h1, if_pos h2, Int.floor_intCast, Int.toNat_natCast]

/-- The conversion of a whole number to `int` is the number. -/
theorem decimalLib_to_int_nat (m : Nat) : decimalLib.to_int (m : ℚ) = (m : Int) := by
  have h : ((m : Nat) : ℚ) = (((m : Nat) : Int) : ℚ) := by push_cast; rfl
  simp only [decimalLib]
  rw [if_pos (by positivity), h, Int.floor_intCast]

/-- The reference 16777218 is read as it is, but the difference 16777217 is not a
`float`: the index stored is 16777216. -/
theorem parse_reference_16777218 (what : String) :
    parse_reference decimalLib what "16777218".toList = .ok (16777216, -1, -1) := by
  have hsplit : string_split_once "16777218".toList ['/'] = ["16777218".toList] := by decide
  have hc : c_str "16777218".toList = "16777218".toList := by decide
  have hd : decimal_value "16777218".toList = some 16777218 := by decide
  have hf : float_of_nat 16777218 = 16777218 := by norm_num [float_of_nat, Nat.log2]
  have hg : float_of_nat (16777218 - 1) = 16777216 := by norm_num [float_of_nat, Nat.log2]
  have hx : decimalLib.extract "16777218".toList = some ((16777218 : Nat) : ℚ) := by
    simp only [decimalLib, hd, Option.map_some', hf]
  simp only [parse_reference, hsplit, hc, str_to_num, hx]
  simp only [bind, Except.bind, pure, Except.pure]
  rw [decimalLib_sub_one 16777218 (by norm_num), hg, decimalLib_to_int_nat]
  rfl

/-- A reference `a//16777217`, with `a` up to `2 ^ 24`: the normal index is read as the
`float` 16777216 and stored as 16777215. -/
theorem parse_reference_normal_16777217 (what : String) (s a : List Char) (na : Nat)
    (hsplit : string_split_once s ['/'] = [a, [], "16777217".toList]) (hca : c_str a = a)
    (ha : decimal_value a = some na) (hna : na ≤ 2 ^ 24) :
    parse_reference decimalLib what s = .ok ((na : Int) - 1, -1, 16777215) := by
  have hc : c_str "16777217".toList = "16777217".toList := by decide
  have hx : decimalLib.extract "16777217".toList = some ((16777216 : Nat) : ℚ) := by
    simp [decimalLib, decimal_value]
    norm_num [float_of_nat, Nat.log2]
  simp only [parse_reference, hsplit, hca, hc, str_to_num, decimalLib_extract a na ha hna, hx]
  simp only [bind, Except.bind, pure, Except.pure, decimalLib_to_int na hna,
    decimalLib_to_int 16777216 (by norm_num), ne_eq, not_true_eq_false, if_false]
  norm_num

/-- A line that appends the same position in every state, read `n` times, appends the
position `n` times. -/
theorem parse_lines_replicate_position [Field F] (lib : MeshLib F) (line : List Char)
    (p : vec3 F)
    (hline : ∀ st : TriMesh F × Bool,
      parse_line lib st line = .ok ({ st.1 with position := st.1.position ++ [p] }, st.2)) :
    ∀ (n : Nat) (st : TriMesh F × Bool),
      parse_lines lib st (List.replicate n line) =
        .ok ({ st.1 with position := st.1.position ++ List.replicate n p }, st.2) := by
  intro n
  induction n with
  | zero => intro st; simp [parse_lines]
  | succ n ih =>
    intro st
    rw [List.replicate_succ]
    unfold parse_lines
    rw [hline st]
    show parse_lines lib _ (List.replicate n line) = _
    rw [ih]
    simp only [List.append_assoc, List.singleton_append, List.replicate_succ]

/-- A line that appends the same normal in every state, read `n` times, appends the
normal `n` times; `added_normal` is set as soon as one line is read. -/
theorem parse_lines_replicate_normal [Field F] (lib : MeshLib F) (line : List Char)
    (v : vec3 F)
    (hline : ∀ st : TriMesh F × Bool,
      parse_line lib st line = .ok ({ st.1 with normal := st.1.normal ++ [v] }, true)) :
    ∀ (n : Nat) (st : TriMesh F × Bool),
      parse_lines lib st (List.replicate n line) =
        .ok ({ st.1 with normal := st.1.normal ++ List.replicate n v },
          if n = 0 then st.2 else true) := by
  intro n
  induction n with
  | zero => intro st; simp [parse_lines]
  | succ n ih =>
    intro st
    rw [List.replicate_succ]
    unfold parse_lines
    rw [hline st]
    show parse_lines lib _ (List.replicate n line) = _
    rw [ih]
    simp only [List.append_assoc, List.singleton_append, List.replicate_succ,
      Nat.add_one_ne_zero, if_false]
    by_cases h : n = 0 <;> simp [h]

theorem parse_line_v000 (st : TriMesh ℚ × Bool) :
    parse_line decimalLib st "v 0 0 0".toList =
      .ok ({ st.1 with position := st.1.position ++ [⟨0, 0, 0⟩] }, st.2) :=
  parse_line_v decimalLib st "v 0 0 0".toList "0".toList "0".toList "0".toList [] 0 0 0
    (by decide) (by decide) decimalLib_extract_zero decimalLib_extract_zero
    decimalLib_extract_zero

theorem parse_line_vn001 (st : TriMesh ℚ × Bool) :
    parse_line decimalLib st "vn 0 0 1".toList =
      .ok ({ st.1 with normal := st.1.normal ++ [⟨0, 0, 1⟩] }, true) :=
  parse_line_vn decimalLib st "vn 0 0 1".toList "0".toList "0".toList "1".toList [] 0 0 1
    (by decide) (by decide) decimalLib_extract_zero decimalLib_extract_zero
    decimalLib_extract_one

theorem parse_line_vn100 (st : TriMesh ℚ × Bool) :
    parse_line decimalLib st "vn 1 0 0".toList =
      .ok ({ st.1 with normal := st.1.normal ++ [⟨1, 0, 0⟩] }, true) :=
  parse_line_vn decimalLib st "vn 1 0 0".toList "1".toList "0".toList "0".toList [] 1 0 0
    (by decide) (by decide) decimalLib_extract_one decimalLib_extract_zero
    decimalLib_extract_zero

theorem parse_manyPositions (n : Nat) :
    parse_lines decimalLib (TriMesh.empty, false) (manyPositions n) =
      .ok (⟨List.replicate n ⟨0, 0, 0⟩, [], [],
        [⟨(16777215, 0, 0), (-1, -1, -1), (-1, -1, -1)⟩]⟩, false) := by
  unfold manyPositions
  rw [parse_lines_append decimalLib _ _ _ _
    (parse_lines_replicate_position decimalLib _ _ parse_line_v000 n _)]
  unfold parse_lines
  rw [parse_line_triangle decimalLib _ "f 16777217 1 1".toList "16777217".toList "1".toList
    "1".toList _ _ _ (by decide) (by decide) (parse_reference_16777217 _)
    (parse_reference_digits _ "1".toList 1 (by decide) (by decide) (by decide) (by norm_num))
    (parse_reference_digits _ "1".toList 1 (by decide) (by decide) (by decide) (by norm_num))]
  simp only [parse_lines, TriMesh.empty, List.nil_append]
  rfl

theorem parse_manyNormals (n : Nat) :
    parse_lines decimalLib (TriMesh.empty, false) (manyNormals n) =
      .ok (⟨[⟨0, 0, 0⟩, ⟨1, 0, 0⟩, ⟨0, 1, 0⟩], List.replicate n ⟨0, 0, 1⟩ ++ [⟨1, 0, 0⟩], [],
        [⟨(0, 1, 2), (16777215, 16777215, 16777215), (-1, -1, -1)⟩]⟩, true) := by
  unfold manyNormals
  rw [List.append_assoc, parse_lines_append decimalLib _ _ _ _ parse_three_positions,
    parse_lines_append decimalLib _ _ _ _
      (parse_lines_replicate_normal decimalLib _ _ parse_line_vn001 n _)]
  unfold parse_lines
  rw [parse_line_vn100]
  unfold parse_lines
  rw [parse_line_triangle decimalLib _ "f 1//16777217 2//16777217 3//16777217".toList
    "1//16777217".toList "2//16777217".toList "3//16777217".toList _ _ _ (by decide)
    (by decide)
    (parse_reference_normal_16777217 _ "1//16777217".toList "1".toList 1 (by decide)
      (by decide) (by decide) (by norm_num))
    (parse_reference_normal_16777217 _ "2//16777217".toList "2".toList 2 (by decide)
      (by decide) (by decide) (by norm_num))
    (parse_reference_normal_16777217 _ "3//16777217".toList "3".toList 3 (by decide)
      (by decide) (by decide) (by norm_num))]
  simp only [parse_lines, List.nil_append]
  rfl

/-- With `vn` records in the file, a corner with a normal index that is not negative and
no texture index gets the normal stored at that index. -/
theorem corner_att_file_normal [Field F] (mesh : TriMesh F) (f : Face) (j : Nat) (v : vec3 F)
    (hn : 0 ≤ int3_get f.n j) (hv : mesh.normal[(int3_get f.n j).toNat]? = some v)
    (ht : int3_get f.t j < 0) :
    corner_att mesh true f j =
      .ok [(mesh.position.getD (int3_get f.i j).toNat 0).x,
        (mesh.position.getD (int3_get f.i j).toNat 0).y,
        (mesh.position.getD (int3_get f.i j).toNat 0).z, v.x, v.y, v.z, 0, 0, 0, 0, 0] := by
  unfold corner_att
  simp only [Bool.not_true, Bool.false_eq_true, if_false, ge_iff_le, hn, if_true, vector_at,
    hv, not_le.mpr ht]
  rfl

/-- The file `manyPositions n` for `n` from 16777216 on (and below 2^32): the position
index of `f 16777217 1 1` is stored as 16777215, the check of the references passes, and
the call returns with the mesh registered. -/
theorem LoadMesh_manyPositions (n : Nat) (hn : 16777215 < n) (hn2 : n < 2 ^ 32) :
    ∃ (parsed : TriMesh ℚ) (b : MeshBuffers ℚ),
      parse_lines decimalLib (TriMesh.empty, false) (manyPositions n) = .ok (parsed, false) ∧
      parsed.position.length = n ∧
      parsed.face = [⟨(16777215, 0, 0), (-1, -1, -1), (-1, -1, -1)⟩] ∧
      LoadMesh decimalLib ⟨[]⟩ 1 2 "mesh" "mesh.obj" (some (manyPositions n)) =
        (AddResource ⟨[]⟩ .Mesh "mesh" (.buffers 1 2) 3, .ok b) := by
  have hcheck : check_references n
      [(⟨(16777215, 0, 0), (-1, -1, -1), (-1, -1, -1)⟩ : Face)] = .ok () := by
    apply check_references_ok
    intro f hf j hj
    rw [List.mem_singleton.mp hf]
    have hcase : j = 0 ∨ j = 1 ∨ j = 2 := by omega
    rcases hcase with rfl | rfl | rfl <;> simp only [int3_get] <;> omega
  obtain ⟨atts, hatts⟩ := emit_vertices_computed
    ({ (⟨List.replicate n ⟨0, 0, 0⟩, [], [],
        [⟨(16777215, 0, 0), (-1, -1, -1), (-1, -1, -1)⟩]⟩ : TriMesh ℚ) with
      normal := compute_normals decimalLib (⟨List.replicate n ⟨0, 0, 0⟩, [], [],
        [⟨(16777215, 0, 0), (-1, -1, -1), (-1, -1, -1)⟩]⟩ : TriMesh ℚ) })
    [⟨(16777215, 0, 0), (-1, -1, -1), (-1, -1, -1)⟩]
    (by intro f hf; rw [List.mem_singleton.mp hf]; decide)
  have hemit := LoadMesh_emit_ok decimalLib (⟨List.replicate n ⟨0, 0, 0⟩, [], [],
    [⟨(16777215, 0, 0), (-1, -1, -1), (-1, -1, -1)⟩]⟩ : TriMesh ℚ) false atts
    (by simp) (degree_overflows_small _ _ (by simp))
    (by simp only [List.length_replicate]; exact hn2)
    (by simp only [List.length_replicate]; exact hcheck) hatts
  obtain ⟨b, hb⟩ : ∃ b : MeshBuffers ℚ,
      LoadMesh decimalLib ⟨[]⟩ 1 2 "mesh" "mesh.obj" (some (manyPositions n)) =
        (AddResource ⟨[]⟩ .Mesh "mesh" (.buffers 1 2) 3, .ok b) := by
    simp only [LoadMesh, LoadMesh_buffers, parse_manyPositions n, hemit]
    exact ⟨_, rfl⟩
  exact ⟨_, b, parse_manyPositions n, List.length_replicate _ _, rfl, hb⟩

/-- The file `manyNormals n` for `n` from 16777216 on: the normal index 16777217 of the
three corners is stored as 16777215, and every corner gets the normal (0, 0, 1) of a
record `vn 0 0 1`, whatever `n`. -/
theorem LoadMesh_manyNormals (n : Nat) (hn : 16777215 < n) :
    ∃ (parsed : TriMesh ℚ) (b : MeshBuffers ℚ),
      parse_lines decimalLib (TriMesh.empty, false) (manyNormals n) = .ok (parsed, true) ∧
      parsed.normal[n]? = some ⟨1, 0, 0⟩ ∧
      parsed.face = [⟨(0, 1, 2), (16777215, 16777215, 16777215), (-1, -1, -1)⟩] ∧
      (LoadMesh decimalLib ⟨[]⟩ 1 2 "mesh" "mesh.obj" (some (manyNormals n))).2 = .ok b ∧
      b.vertex = [some 0, some 0, some 0, some 0, some 0, some 1, some 0, some 0, some 0,
        some 0, some 0, some 1, some 0, some 0, some 0, some 0, some 1, some 0, some 0,
        some 0, some 0, some 0, some 0, some 1, some 0, some 0, some 0, some 1, some 0,
        some 0, some 0, some 0, some 0] := by
  have hv : ∀ j, j < 3 →
      (List.replicate n (⟨0, 0, 1⟩ : vec3 ℚ) ++ [⟨1, 0, 0⟩])[(int3_get
        (16777215, 16777215, 16777215) j).toNat]? = some ⟨0, 0, 1⟩ := by
    intro j hj
    have hcase : j = 0 ∨ j = 1 ∨ j = 2 := by omega
    have h1 : (16777215 : Int).toNat = 16777215 := rfl
    rcases hcase with rfl | rfl | rfl <;>
    · simp only [int3_get, h1]
      rw [List.getElem?_append_left (by rw [List.length_replicate]; exact hn),
        List.getElem?_replicate, if_pos hn]
  have hemit : emit_vertices (⟨[⟨0, 0, 0⟩, ⟨1, 0, 0⟩, ⟨0, 1, 0⟩],
        List.replicate n ⟨0, 0, 1⟩ ++ [⟨1, 0, 0⟩], [],
        [⟨(0, 1, 2), (16777215, 16777215, 16777215), (-1, -1, -1)⟩]⟩ : TriMesh ℚ) true
      [⟨(0, 1, 2), (16777215, 16777215, 16777215), (-1, -1, -1)⟩] =
      .ok [0, 0, 0, 0, 0, 1, 0, 0, 0, 0, 0, 1, 0, 0, 0, 0, 1, 0, 0, 0, 0, 0,
        0, 1, 0, 0, 0, 1, 0, 0, 0, 0, 0] := by
    unfold emit_vertices face_att
    rw [corner_att_file_normal _ _ 0 ⟨0, 0, 1⟩ (by decide) (hv 0 (by decide)) (by decide),
      corner_att_file_normal _ _ 1 ⟨0, 0, 1⟩ (by decide) (hv 1 (by decide)) (by decide),
      corner_att_file_normal _ _ 2 ⟨0, 0, 1⟩ (by decide) (hv 2 (by decide)) (by decide)]
    rfl
  have hcheck : check_references 3
      [(⟨(0, 1, 2), (16777215, 16777215, 16777215), (-1, -1, -1)⟩ : Face)] = .ok () := rfl
  have hbuf := LoadMesh_buffers_ok decimalLib "mesh.obj" (manyNormals n) _ _ _
    (parse_manyNormals n) (by simp) (by simp)
    hcheck hemit
  have hlast : (List.replicate n (⟨0, 0, 1⟩ : vec3 ℚ) ++ [⟨1, 0, 0⟩])[n]? =
      some ⟨1, 0, 0⟩ := by
    rw [List.getElem?_append_right (by rw [List.length_replicate]), List.length_replicate,
      Nat.sub_self]
    rfl
  have hload : (LoadMesh decimalLib ⟨[]⟩ 1 2 "mesh" "mesh.obj" (some (manyNormals n))).2 =
      .ok (⟨([0, 0, 0, 0, 0, 1, 0, 0, 0, 0, 0, 1, 0, 0, 0, 0, 1, 0, 0, 0, 0, 0,
        0, 1, 0, 0, 0, 1, 0, 0, 0, 0, 0] : List ℚ).map some,
        (List.range (3 * 1)).map some⟩ : MeshBuffers ℚ) := by
    unfold LoadMesh
    rw [hbuf]
    rfl
  exact ⟨_, _, parse_manyNormals n, hlast, rfl, hload, rfl⟩

/-- Claim C15 on the file with 16777216 positions (`P` = 16777216) and the triangle
`f 16777217 1 1`, whose first position index is not in `1 .. P`: the reference is read as
a `float`, which holds 16777216, so the index stored is 16777215, the check of the
references passes, and the call returns with the mesh registered instead of throwing a
failure. -/
theorem LoadMesh_position_index_rounded :
    ∃ (parsed : TriMesh ℚ) (b : MeshBuffers ℚ),
      parse_lines decimalLib (TriMesh.empty, false) (manyPositions 16777216) =
        .ok (parsed, false) ∧
      parsed.position.length = 16777216 ∧
      parsed.face = [⟨(16777215, 0, 0), (-1, -1, -1), (-1, -1, -1)⟩] ∧
      LoadMesh decimalLib ⟨[]⟩ 1 2 "mesh" "mesh.obj" (some (manyPositions 16777216)) =
        (AddResource ⟨[]⟩ .Mesh "mesh" (.buffers 1 2) 3, .ok b) :=
  LoadMesh_manyPositions 16777216 (by norm_num) (by norm_num)

/-- Claim C13 on the file with three positions, 16777216 records `vn 0 0 1`, the record
`vn 1 0 0` (the 16777217-th) and the triangle `f 1//16777217 2//16777217 3//16777217`:
the normal index is read as a `float`, which holds 16777216, so the index stored is
16777215 and floats 3, 4, 5 of each of the three vertices are (0, 0, 1), the 16777216-th
`vn` record, while the 16777217-th is (1, 0, 0). -/
theorem LoadMesh_normal_index_rounded :
    ∃ (parsed : TriMesh ℚ) (b : MeshBuffers ℚ),
      parse_lines decimalLib (TriMesh.empty, false) (manyNormals 16777216) =
        .ok (parsed, true) ∧
      parsed.normal[16777216]? = some ⟨1, 0, 0⟩ ∧
      parsed.face = [⟨(0, 1, 2), (16777215, 16777215, 16777215), (-1, -1, -1)⟩] ∧
      (LoadMesh decimalLib ⟨[]⟩ 1 2 "mesh" "mesh.obj" (some (manyNormals 16777216))).2 =
        .ok b ∧
      b.vertex = [some 0, some 0, some 0, some 0, some 0, some 1, some 0, some 0, some 0,
        some 0, some 0, some 1, some 0, some 0, some 0, some 0, some 1, some 0, some 0,
        some 0, some 0, some 0, some 0, some 1, some 0, some 0, some 0, some 1, some 0,
        some 0, some 0, some 0, some 0] :=
  LoadMesh_manyNormals 16777216 (by norm_num)

end game
